import Mathlib

/-!
# OpenGL mesh viewer: geometry generators

A shallow embedding of the two geometry generators of the repository:

* the recursive triangle subdivider `DivideTriangle`
  (`01_triangle_subdivide_legacy/src/main.cc`, `02_triangle_subdivide/src/main.cc`,
  `03_triangle_subdivide_class/src/twist_triangle.cc`);
* the UV-sphere builder `BuildWatertightSphere` (`04_sphere/src/sphere.cc`).

Modelling conventions.

* Scalars (`float`, `Real`) are elements of a field `K`; the theorems that speak
  about distances and angles are stated over the real numbers.
* `cos`, `sin`, `sqrt` of the C library and the constants of the header `types.h`
  (`kDEGtoRAD`, `kPi`, `k2Pi`), which is not among the sources, are parameters,
  bundled in `Libm`.
* `std::vector<T>` is `List T`; `push_back` appends at the end.
* `int` and `uint` are `Int` and `Nat`; a mesh with more than `2^31` vertices,
  for which the counter `vertex_id` would overflow, is outside the model.
-/

namespace olio

/-! ## Vectors and matrices -/

/-- Three-component vector (`Vec3f`, `Vec3r`). -/
structure Vec3 (K : Type) where
  x : K
  y : K
  z : K
deriving DecidableEq, Repr

namespace Vec3

variable {K : Type}

instance [Add K] : Add (Vec3 K) := ⟨fun a b => ⟨a.x + b.x, a.y + b.y, a.z + b.z⟩⟩
instance [Sub K] : Sub (Vec3 K) := ⟨fun a b => ⟨a.x - b.x, a.y - b.y, a.z - b.z⟩⟩
instance [Neg K] : Neg (Vec3 K) := ⟨fun a => ⟨-a.x, -a.y, -a.z⟩⟩

/-- Scalar times vector (`s * v`). -/
def smul [Mul K] (s : K) (v : Vec3 K) : Vec3 K := ⟨s * v.x, s * v.y, s * v.z⟩

/-- Vector divided by a scalar (`v / s`). -/
def sdiv [Div K] (v : Vec3 K) (s : K) : Vec3 K := ⟨v.x / s, v.y / s, v.z / s⟩

/-- Squared Euclidean norm (`squaredNorm()`). -/
def squaredNorm [Add K] [Mul K] (v : Vec3 K) : K := v.x * v.x + v.y * v.y + v.z * v.z

end Vec3

/-- Three by three matrix (`Mat3f`); `mij` is the entry `R(i,j)`. -/
structure Mat3 (K : Type) where
  m00 : K
  m01 : K
  m02 : K
  m10 : K
  m11 : K
  m12 : K
  m20 : K
  m21 : K
  m22 : K

namespace Mat3

variable {K : Type}

/-- The identity matrix (`Mat3f::Identity()`). -/
def Identity [Zero K] [One K] : Mat3 K := ⟨1, 0, 0, 0, 1, 0, 0, 0, 1⟩

/-- Matrix times vector (`R * v`). -/
def mulVec [Add K] [Mul K] (R : Mat3 K) (v : Vec3 K) : Vec3 K :=
  ⟨R.m00 * v.x + R.m01 * v.y + R.m02 * v.z,
   R.m10 * v.x + R.m11 * v.y + R.m12 * v.z,
   R.m20 * v.x + R.m21 * v.y + R.m22 * v.z⟩

end Mat3

/-- The functions of the C library and the constants of `types.h` the generators use. -/
structure Libm (K : Type) where
  cos : K → K
  sin : K → K
  sqrt : K → K
  kDEGtoRAD : K
  kPi : K
  k2Pi : K

/-- Euclidean norm (`norm()`), the square root of the squared norm. -/
def Vec3.norm {K : Type} [Add K] [Mul K] (L : Libm K) (v : Vec3 K) : K :=
  L.sqrt v.squaredNorm

/-- Append one element at the end of a vector (`push_back`). -/
def push_back {α : Type} (v : List α) (a : α) : List α := v ++ [a]

/-! ## The triangle subdivider -/

section Triangle

variable {K : Type} [Field K]

/-- Position of a leaf vertex: `R * (point - center) + center`, with `R` the identity
matrix whose upper left block is overwritten by `c, -s, s, c`. -/
def twistPoint (L : Libm K) (twist_angle : K) (center point : Vec3 K) : Vec3 K :=
  let R : Mat3 K := Mat3.Identity
  let r := (point - center).norm L
  let c := L.cos (twist_angle * r * L.kDEGtoRAD)
  let s := L.sin (twist_angle * r * L.kDEGtoRAD)
  let R := { R with m00 := c, m01 := -s }
  let R := { R with m10 := s, m11 := c }
  R.mulVec (point - center) + center

/-- Body of the loop over the three leaf vertices in examples 02 and 03: the twisted
position, then the colour, are appended to the buffer. -/
def leafVertex (L : Libm K) (color1 : Vec3 K) (twist_angle : K) (center : Vec3 K)
    (positions_and_colors : List K) (point : Vec3 K) : List K :=
  let pt := twistPoint L twist_angle center point
  let b := push_back positions_and_colors pt.x
  let b := push_back b pt.y
  let b := push_back b pt.z
  let b := push_back b color1.x
  let b := push_back b color1.y
  push_back b color1.z

/-- `DivideTriangle` of `02_triangle_subdivide/src/main.cc`; the buffer
`positions_and_colors` is passed in and returned. -/
def DivideTriangle (L : Libm K) (p0 p1 p2 : Vec3 K) (level : Int) (color1 color2 : Vec3 K)
    (twist_angle : K) (center : Vec3 K) (positions_and_colors : List K) : List K :=
  if h : level ≤ 0 then
    let points := [p0, p1, p2]
    points.foldl (leafVertex L color1 twist_angle center) positions_and_colors
  else
    let p01 := Vec3.smul (1 / 2) (p0 + p1)
    let p02 := Vec3.smul (1 / 2) (p0 + p2)
    let p12 := Vec3.smul (1 / 2) (p1 + p2)
    let b := DivideTriangle L p0 p01 p02 (level - 1) color1 color2 twist_angle center
      positions_and_colors
    let b := DivideTriangle L p01 p1 p12 (level - 1) color1 color2 twist_angle center b
    let b := DivideTriangle L p02 p12 p2 (level - 1) color1 color2 twist_angle center b
    DivideTriangle L p01 p12 p02 (level - 1) color2 color1 twist_angle center b
termination_by level.toNat
decreasing_by all_goals omega

/-- `TwistTriangle::DivideTriangle` of `03_triangle_subdivide_class/src/twist_triangle.cc`. -/
def TwistTriangle.DivideTriangle (L : Libm K) (p0 p1 p2 : Vec3 K) (level : Int)
    (color1 color2 : Vec3 K) (twist_angle : K) (center : Vec3 K)
    (positions_and_colors : List K) : List K :=
  if h : level ≤ 0 then
    let points := [p0, p1, p2]
    points.foldl (leafVertex L color1 twist_angle center) positions_and_colors
  else
    let p01 := Vec3.smul (1 / 2) (p0 + p1)
    let p02 := Vec3.smul (1 / 2) (p0 + p2)
    let p12 := Vec3.smul (1 / 2) (p1 + p2)
    let b := TwistTriangle.DivideTriangle L p0 p01 p02 (level - 1) color1 color2 twist_angle
      center positions_and_colors
    let b := TwistTriangle.DivideTriangle L p01 p1 p12 (level - 1) color1 color2 twist_angle
      center b
    let b := TwistTriangle.DivideTriangle L p02 p12 p2 (level - 1) color1 color2 twist_angle
      center b
    TwistTriangle.DivideTriangle L p01 p12 p02 (level - 1) color2 color1 twist_angle center b
termination_by level.toNat
decreasing_by all_goals omega

/-- Immediate-mode calls issued by the legacy example. -/
inductive GLCall (K : Type) where
  | glColor3f (r g b : K)
  | glVertex3f (x y z : K)
deriving DecidableEq, Repr

/-- Body of the loop over the three leaf vertices in example 01: one `glVertex3f`. -/
def legacyVertex (L : Libm K) (twist_angle : K) (center : Vec3 K)
    (calls : List (GLCall K)) (point : Vec3 K) : List (GLCall K) :=
  let pt := twistPoint L twist_angle center point
  push_back calls (GLCall.glVertex3f pt.x pt.y pt.z)

/-- `DivideTriangle` of `01_triangle_subdivide_legacy/src/main.cc`; the sequence of GL
calls issued so far is passed in and returned. -/
def Legacy.DivideTriangle (L : Libm K) (p0 p1 p2 : Vec3 K) (level : Int)
    (color1 color2 : Vec3 K) (twist_angle : K) (center : Vec3 K)
    (calls : List (GLCall K)) : List (GLCall K) :=
  if h : level ≤ 0 then
    let calls := push_back calls (GLCall.glColor3f color1.x color1.y color1.z)
    let points := [p0, p1, p2]
    points.foldl (legacyVertex L twist_angle center) calls
  else
    let p01 := Vec3.smul (1 / 2) (p0 + p1)
    let p02 := Vec3.smul (1 / 2) (p0 + p2)
    let p12 := Vec3.smul (1 / 2) (p1 + p2)
    let c := Legacy.DivideTriangle L p0 p01 p02 (level - 1) color1 color2 twist_angle center
      calls
    let c := Legacy.DivideTriangle L p01 p1 p12 (level - 1) color1 color2 twist_angle center c
    let c := Legacy.DivideTriangle L p02 p12 p2 (level - 1) color1 color2 twist_angle center c
    Legacy.DivideTriangle L p01 p12 p02 (level - 1) color2 color1 twist_angle center c
termination_by level.toNat
decreasing_by all_goals omega

/-! ### The leaves of the recursion

`leafTriangles n p0 p1 p2 color1 color2` lists, in the order of the recursive calls, the
untwisted triangles that reach the base case after `n` levels of subdivision, each with
the colour that is `color1` in that call. -/

/-- Untwisted leaf triangle with the colour it is emitted with. -/
structure Leaf (K : Type) where
  q0 : Vec3 K
  q1 : Vec3 K
  q2 : Vec3 K
  color : Vec3 K

/-- Leaves of the recursion tree of depth `n`, in emission order. -/
def leafTriangles : Nat → Vec3 K → Vec3 K → Vec3 K → Vec3 K → Vec3 K → List (Leaf K)
  | 0, p0, p1, p2, color1, _ => [⟨p0, p1, p2, color1⟩]
  | n + 1, p0, p1, p2, color1, color2 =>
    leafTriangles n p0 (Vec3.smul (1 / 2) (p0 + p1)) (Vec3.smul (1 / 2) (p0 + p2))
        color1 color2 ++
    leafTriangles n (Vec3.smul (1 / 2) (p0 + p1)) p1 (Vec3.smul (1 / 2) (p1 + p2))
        color1 color2 ++
    leafTriangles n (Vec3.smul (1 / 2) (p0 + p2)) (Vec3.smul (1 / 2) (p1 + p2)) p2
        color1 color2 ++
    leafTriangles n (Vec3.smul (1 / 2) (p0 + p1)) (Vec3.smul (1 / 2) (p1 + p2))
        (Vec3.smul (1 / 2) (p0 + p2)) color2 color1

/-- The six floats of one vertex: position, then colour. -/
def vertexFloats (pos col : Vec3 K) : List K := [pos.x, pos.y, pos.z, col.x, col.y, col.z]

/-- The eighteen floats of one leaf triangle. -/
def leafFloats (L : Libm K) (twist_angle : K) (center : Vec3 K) (l : Leaf K) : List K :=
  vertexFloats (twistPoint L twist_angle center l.q0) l.color ++
  vertexFloats (twistPoint L twist_angle center l.q1) l.color ++
  vertexFloats (twistPoint L twist_angle center l.q2) l.color

/-- The four GL calls of one leaf triangle. -/
def leafCalls (L : Libm K) (twist_angle : K) (center : Vec3 K) (l : Leaf K) :
    List (GLCall K) :=
  [GLCall.glColor3f l.color.x l.color.y l.color.z,
   GLCall.glVertex3f (twistPoint L twist_angle center l.q0).x
     (twistPoint L twist_angle center l.q0).y (twistPoint L twist_angle center l.q0).z,
   GLCall.glVertex3f (twistPoint L twist_angle center l.q1).x
     (twistPoint L twist_angle center l.q1).y (twistPoint L twist_angle center l.q1).z,
   GLCall.glVertex3f (twistPoint L twist_angle center l.q2).x
     (twistPoint L twist_angle center l.q2).y (twistPoint L twist_angle center l.q2).z]

end Triangle

/-! ## Predicates on triangles used by the statements about `DivideTriangle` -/

section TriangleSpec

variable {K : Type} [Field K]

/-- Rotation about the axis through `center` parallel to the z axis, by the angle whose
cosine and sine are `c` and `s`. -/
def rotateAboutZ (c s : K) (center p : Vec3 K) : Vec3 K :=
  ⟨center.x + (c * (p.x - center.x) - s * (p.y - center.y)),
   center.y + (s * (p.x - center.x) + c * (p.y - center.y)),
   center.z + (p.z - center.z)⟩

/-- Image of `p` under the scaling by the factor `s` about the point `o`. -/
def scaleAbout (s : K) (o p : Vec3 K) : Vec3 K := o + Vec3.smul s (p - o)

/-- The triple `a` is the triple `b` up to a cyclic shift of its entries. -/
def CyclicEq {α : Type} (a b : α × α × α) : Prop :=
  a = b ∨ a = (b.2.1, b.2.2, b.1) ∨ a = (b.2.2, b.1, b.2.1)

/-- The leaf is a translate of the triangle `p0 p1 p2` scaled by `2^-n`, up to the cyclic
order of its vertices: it points the same way as the input. -/
def PointsSameWay (n : Nat) (p0 p1 p2 : Vec3 K) (l : Leaf K) : Prop :=
  ∃ t : Vec3 K, CyclicEq (l.q0, l.q1, l.q2)
    (t + Vec3.smul ((1 / 2) ^ n) p0, t + Vec3.smul ((1 / 2) ^ n) p1,
     t + Vec3.smul ((1 / 2) ^ n) p2)

/-- The leaf is a translate of the triangle `p0 p1 p2` scaled by `-2^-n`, up to the cyclic
order of its vertices: it points the opposite way. -/
def PointsOppositeWay (n : Nat) (p0 p1 p2 : Vec3 K) (l : Leaf K) : Prop :=
  ∃ t : Vec3 K, CyclicEq (l.q0, l.q1, l.q2)
    (t + Vec3.smul (-(1 / 2) ^ n) p0, t + Vec3.smul (-(1 / 2) ^ n) p1,
     t + Vec3.smul (-(1 / 2) ^ n) p2)

end TriangleSpec

/-! ## The UV-sphere builder -/

section SphereDefs

variable {K : Type} [LinearOrderedField K]

/-- `normalized()` of the linear algebra library: the vector divided by its norm, or the
vector itself when its squared norm is not positive. -/
def Vec3.normalized (L : Libm K) (v : Vec3 K) : Vec3 K :=
  let z := v.squaredNorm
  if 0 < z then v.sdiv (L.sqrt z) else v

/-- `MatXi`: a table of `int`; it is created without initial values, so an entry that was
never assigned holds no defined value (`none`). -/
abbrev MatXi : Type := Nat → Nat → Option Int

/-- Assignment `m(r, c) = v`. -/
def MatXi.assign (m : MatXi) (r c : Nat) (v : Int) : MatXi :=
  fun r' c' => if r' = r ∧ c' = c then some v else m r' c'

/-- `for (uint k = lo; k < hi; ++k) body`, threading the state. -/
def forLoop {σ : Type} (lo hi : Nat) (body : σ → Nat → σ) (s : σ) : σ :=
  (List.range' lo (hi - lo)).foldl body s

/-- Local state of `BuildWatertightSphere`. An index read from a table entry that was
never assigned is recorded as `none` in `face_indices`. -/
structure BuildState (K : Type) where
  positions : List (Vec3 K)
  normals : List (Vec3 K)
  vertex_indices : MatXi
  vertex_id : Int
  face_indices : List (Option Int)

/-- Body of the vertex loop (`sphere.cc`, lines 106-116). -/
def vertexBody (L : Libm K) (center : Vec3 K) (radius phi_start theta_start dphi dtheta : K)
    (j : Nat) (s : BuildState K) (i : Nat) : BuildState K :=
  let cos_phi := L.cos (phi_start + dphi * (i : K))
  let sin_phi := L.sin (phi_start + dphi * (i : K))
  let cos_theta := L.cos (theta_start + (j : K) * dtheta)
  let sin_theta := L.sin (theta_start + (j : K) * dtheta)
  let point : Vec3 K :=
    ⟨radius * cos_phi * sin_theta, radius * sin_phi * sin_theta, -radius * cos_theta⟩
  { s with
    positions := push_back s.positions (center + point)
    normals := push_back s.normals (point.normalized L)
    vertex_indices := s.vertex_indices.assign j i s.vertex_id
    vertex_id := s.vertex_id + 1 }

/-- The point of ring `j` and column `i` relative to the centre, as the vertex loop
computes it. -/
def gridPoint (L : Libm K) (radius phi_start theta_start dphi dtheta : K) (j i : Nat) :
    Vec3 K :=
  ⟨radius * L.cos (phi_start + dphi * (i : K)) * L.sin (theta_start + (j : K) * dtheta),
   radius * L.sin (phi_start + dphi * (i : K)) * L.sin (theta_start + (j : K) * dtheta),
   -radius * L.cos (theta_start + (j : K) * dtheta)⟩

/-- Body of the face loop over the grid quads (`sphere.cc`, lines 124-132). -/
def quadBody (grid_nx : Nat) (j : Nat) (s : BuildState K) (i : Nat) : BuildState K :=
  let f := push_back s.face_indices (s.vertex_indices j i)
  let f := push_back f (s.vertex_indices j ((i + 1) % grid_nx))
  let f := push_back f (s.vertex_indices (j + 1) ((i + 1) % grid_nx))
  let f := push_back f (s.vertex_indices j i)
  let f := push_back f (s.vertex_indices (j + 1) ((i + 1) % grid_nx))
  let f := push_back f (s.vertex_indices (j + 1) i)
  { s with face_indices := f }

/-- Body of the bottom fan loop (`sphere.cc`, lines 143-145). -/
def bottomBody (grid_nx : Nat) (bottom_index : Int) (s : BuildState K) (i : Nat) :
    BuildState K :=
  let f := push_back s.face_indices (some bottom_index)
  let f := push_back f (s.vertex_indices 1 ((i + 1) % grid_nx))
  let f := push_back f (s.vertex_indices 1 i)
  { s with face_indices := f }

/-- Body of the top fan loop (`sphere.cc`, lines 155-157). -/
def topBody (grid_nx grid_ny : Nat) (top_index : Int) (s : BuildState K) (i : Nat) :
    BuildState K :=
  let f := push_back s.face_indices (some top_index)
  let f := push_back f (s.vertex_indices (grid_ny - 1) i)
  let f := push_back f (s.vertex_indices (grid_ny - 1) ((i + 1) % grid_nx))
  { s with face_indices := f }

/-- The six entries that `quadBody` appends, read from the table `T`. -/
def quadEntries (grid_nx : Nat) (T : MatXi) (j i : Nat) : List (Option Int) :=
  [T j i, T j ((i + 1) % grid_nx), T (j + 1) ((i + 1) % grid_nx),
   T j i, T (j + 1) ((i + 1) % grid_nx), T (j + 1) i]

/-- The three entries that `bottomBody` appends. -/
def bottomEntries (grid_nx : Nat) (bottom_index : Int) (T : MatXi) (i : Nat) :
    List (Option Int) :=
  [some bottom_index, T 1 ((i + 1) % grid_nx), T 1 i]

/-- The three entries that `topBody` appends. -/
def topEntries (grid_nx grid_ny : Nat) (top_index : Int) (T : MatXi) (i : Nat) :
    List (Option Int) :=
  [some top_index, T (grid_ny - 1) i, T (grid_ny - 1) ((i + 1) % grid_nx)]

/-- The table of vertex indices after the vertex loop. -/
def gridTable (grid_nx grid_ny : Nat) : MatXi :=
  fun r c => if 1 ≤ r ∧ r ≤ grid_ny - 1 ∧ c < grid_nx
    then some (((r - 1) * grid_nx + c : Nat) : Int) else none

/-- The index buffer in terms of the table of vertex indices. -/
def rawFaces (grid_nx grid_ny : Nat) (T : MatXi) : List (Option Int) :=
  (List.range' 1 (grid_ny - 2)).flatMap (fun j =>
      (List.range' 0 grid_nx).flatMap (quadEntries grid_nx T j)) ++
    (List.range' 0 grid_nx).flatMap
      (bottomEntries grid_nx ((grid_nx * (grid_ny - 1) : Nat) : Int) T) ++
    (List.range' 0 grid_nx).flatMap
      (topEntries grid_nx grid_ny ((grid_nx * (grid_ny - 1) + 1 : Nat) : Int) T)

/-- The grid positions, ring by ring (row-major). -/
def gridPositions (L : Libm K) (center : Vec3 K) (radius : K) (grid_nx grid_ny : Nat) :
    List (Vec3 K) :=
  (List.range' 1 (grid_ny - 1)).flatMap (fun j => (List.range' 0 grid_nx).map
    (fun i => center + gridPoint L radius 0 0 (L.k2Pi / (grid_nx : K))
      (L.kPi / (grid_ny : K)) j i))

/-- The grid normals, ring by ring (row-major). -/
def gridNormals (L : Libm K) (radius : K) (grid_nx grid_ny : Nat) : List (Vec3 K) :=
  (List.range' 1 (grid_ny - 1)).flatMap (fun j => (List.range' 0 grid_nx).map
    (fun i => (gridPoint L radius 0 0 (L.k2Pi / (grid_nx : K))
      (L.kPi / (grid_ny : K)) j i).normalized L))

/-- The emitted vertices as pairs (position, normal): rings in row-major order, then the
bottom and the top pole. -/
def vertexPairs (L : Libm K) (center : Vec3 K) (radius : K) (grid_nx grid_ny : Nat) :
    List (Vec3 K × Vec3 K) :=
  (List.range' 1 (grid_ny - 1)).flatMap (fun j => (List.range' 0 grid_nx).map
    (fun i =>
      (center + gridPoint L radius 0 0 (L.k2Pi / (grid_nx : K)) (L.kPi / (grid_ny : K)) j i,
       (gridPoint L radius 0 0 (L.k2Pi / (grid_nx : K))
          (L.kPi / (grid_ny : K)) j i).normalized L))) ++
  [(center + ⟨0, 0, -radius⟩, Vec3.normalized L ⟨0, 0, -radius⟩),
   (center + ⟨0, 0, radius⟩, Vec3.normalized L ⟨0, 0, radius⟩)]

/-- Result of `BuildWatertightSphere`: the returned flag and the three output vectors. -/
structure SphereMesh (K : Type) where
  ok : Bool
  positions : List (Vec3 K)
  normals : List (Vec3 K)
  face_indices : List (Option Int)

/-- `BuildWatertightSphere` of `04_sphere/src/sphere.cc`. The three output vectors are
passed in with their contents before the call. -/
def BuildWatertightSphere (L : Libm K) (center : Vec3 K) (radius : K) (grid_nx grid_ny : Nat)
    (positions normals : List (Vec3 K)) (face_indices : List (Option Int)) : SphereMesh K :=
  if grid_nx < 1 ∨ grid_ny < 1 then
    ⟨false, positions, normals, face_indices⟩
  else
    -- add mesh vertices
    let vertex_indices : MatXi := fun _ _ => none
    let phi_start : K := 0
    let theta_start : K := 0
    let dphi : K := L.k2Pi / (grid_nx : K)
    let dtheta : K := L.kPi / (grid_ny : K)
    let s : BuildState K := ⟨[], [], vertex_indices, 0, face_indices⟩
    let s := forLoop 1 grid_ny (fun s j =>
      forLoop 0 grid_nx (vertexBody L center radius phi_start theta_start dphi dtheta j) s) s
    -- add mesh faces
    let s := { s with face_indices := [] }
    let s := forLoop 1 (grid_ny - 1) (fun s j => forLoop 0 grid_nx (quadBody grid_nx j) s) s
    -- add bottom cap (triangle fan)
    let bottom : Vec3 K := ⟨0, 0, -radius⟩
    let bottom_index := s.vertex_id
    let s := { s with
      positions := push_back s.positions (center + bottom)
      normals := push_back s.normals (bottom.normalized L)
      vertex_id := s.vertex_id + 1 }
    let s := forLoop 0 grid_nx (bottomBody grid_nx bottom_index) s
    -- add top cap (triangle fan)
    let top : Vec3 K := ⟨0, 0, radius⟩
    let top_index := s.vertex_id
    let s := { s with
      positions := push_back s.positions (center + top)
      normals := push_back s.normals (top.normalized L)
      vertex_id := s.vertex_id + 1 }
    let s := forLoop 0 grid_nx (topBody grid_nx grid_ny top_index) s
    ⟨true, s.positions, s.normals, s.face_indices⟩

/-- The fields of the class `Sphere` (`sphere.h`); buffer names are `0` when absent. -/
structure Sphere (K : Type) where
  center_ : Vec3 K
  radius_ : K
  grid_nx_ : Nat
  grid_ny_ : Nat
  vertex_count_ : Nat
  face_indices_count_ : Nat
  gl_buffers_dirty_ : Bool
  positions_normals_vbo_ : Nat
  faces_ebo_ : Nat

/-- Constructor `Sphere::Sphere(center, radius, grid_nx, grid_ny)`. -/
def Sphere.new (center : Vec3 K) (radius : K) (grid_nx grid_ny : Nat) : Sphere K :=
  ⟨center, radius, grid_nx, grid_ny, 0, 0, true, 0, 0⟩

/-- The default-constructed sphere: centre `0`, radius `1`, grid `10 x 10`. -/
def Sphere.default : Sphere K := Sphere.new ⟨0, 0, 0⟩ 1 10 10

/-- `Sphere::SetGridSize`. -/
def Sphere.SetGridSize (s : Sphere K) (grid_nx grid_ny : Nat) : Sphere K :=
  { s with
    grid_nx_ := max grid_nx 3
    grid_ny_ := max grid_ny 3
    gl_buffers_dirty_ := true }

/-- `Sphere::DeleteGLBuffers`. -/
def Sphere.DeleteGLBuffers (s : Sphere K) : Sphere K :=
  let s := if s.positions_normals_vbo_ ≠ 0 then { s with positions_normals_vbo_ := 0 } else s
  if s.faces_ebo_ ≠ 0 then { s with faces_ebo_ := 0 } else s

/-- `Sphere::UpdateGLBuffers`; `gen_vbo` and `gen_ebo` are the buffer names that the two
calls of `glGenBuffers` return. -/
def Sphere.UpdateGLBuffers (L : Libm K) (s : Sphere K) (force_update : Bool)
    (gen_vbo gen_ebo : Nat) : Sphere K :=
  if !s.gl_buffers_dirty_ && !force_update then s
  else
    let s := s.DeleteGLBuffers
    let m := BuildWatertightSphere L s.center_ s.radius_ s.grid_nx_ s.grid_ny_ [] [] []
    { s with
      vertex_count_ := m.positions.length
      face_indices_count_ := m.face_indices.length
      positions_normals_vbo_ := gen_vbo
      faces_ebo_ := gen_ebo
      gl_buffers_dirty_ := false }

end SphereDefs

/-! ## Index meshes: faces and edges -/

section MeshDefs

variable {α : Type}

/-- The triangles of an index buffer: consecutive triples. -/
def facesOf : List α → List (α × α × α)
  | a :: b :: c :: rest => (a, b, c) :: facesOf rest
  | _ => []

/-- The three directed edges of a face, in its orientation. -/
def faceEdges (f : α × α × α) : List (α × α) := [(f.1, f.2.1), (f.2.1, f.2.2), (f.2.2, f.1)]

/-- All directed edges of a list of faces. -/
def dirEdges (faces : List (α × α × α)) : List (α × α) := faces.flatMap faceEdges

/-- Number of faces that have the directed edge `e`. -/
def facesWithDirEdge [DecidableEq α] (faces : List (α × α × α)) (e : α × α) : Nat :=
  faces.countP (fun f => decide (e ∈ faceEdges f))

/-- Number of faces that have the undirected edge `e`, in either direction. -/
def facesWithEdge [DecidableEq α] (faces : List (α × α × α)) (e : α × α) : Nat :=
  faces.countP (fun f => decide (e ∈ faceEdges f ∨ e.swap ∈ faceEdges f))

/-- The three vertex indices of the face are pairwise distinct. -/
def DistinctCorners (f : α × α × α) : Prop := f.1 ≠ f.2.1 ∧ f.2.1 ≠ f.2.2 ∧ f.2.2 ≠ f.1

/-- Watertight manifold: every face has three distinct corners and every undirected edge
of a face is shared by exactly two faces. -/
def WatertightManifold [DecidableEq α] (faces : List (α × α × α)) : Prop :=
  (∀ f ∈ faces, DistinctCorners f) ∧
  ∀ f ∈ faces, ∀ e ∈ faceEdges f, facesWithEdge faces e = 2

/-- Consistently oriented closed manifold: every directed edge of a face occurs in exactly
one face, and so does the reversed edge. -/
def ConsistentlyOriented [DecidableEq α] (faces : List (α × α × α)) : Prop :=
  ∀ f ∈ faces, ∀ e ∈ faceEdges f,
    facesWithDirEdge faces e = 1 ∧ facesWithDirEdge faces e.swap = 1

end MeshDefs

/-! ### The grid mesh in symbolic form

Vertices named by their place in the grid instead of their number; used to reason
about the index buffer. -/

/-- A vertex of the sphere mesh: grid vertex of ring `j` and column `i`, or a pole. -/
inductive GV where
  | grid (j i : Nat)
  | bottom
  | top
deriving DecidableEq, Repr

/-- Column after `i`, cyclically. -/
def nxt (grid_nx i : Nat) : Nat := (i + 1) % grid_nx

/-- The two faces of the quad `(j, i)`. -/
def quadFaces (grid_nx j i : Nat) : List (GV × GV × GV) :=
  [(GV.grid j i, GV.grid j (nxt grid_nx i), GV.grid (j + 1) (nxt grid_nx i)),
   (GV.grid j i, GV.grid (j + 1) (nxt grid_nx i), GV.grid (j + 1) i)]

/-- The face `i` of the bottom fan. -/
def bottomFace (grid_nx i : Nat) : GV × GV × GV :=
  (GV.bottom, GV.grid 1 (nxt grid_nx i), GV.grid 1 i)

/-- The face `i` of the top fan. -/
def topFace (grid_nx grid_ny i : Nat) : GV × GV × GV :=
  (GV.top, GV.grid (grid_ny - 1) i, GV.grid (grid_ny - 1) (nxt grid_nx i))

/-- The quad faces, ring by ring. -/
def gridFaces (grid_nx grid_ny : Nat) : List (GV × GV × GV) :=
  (List.range' 1 (grid_ny - 2)).flatMap (fun j =>
    (List.range' 0 grid_nx).flatMap (quadFaces grid_nx j))

/-- All faces in the order of emission: quads, bottom fan, top fan. -/
def symFaces (grid_nx grid_ny : Nat) : List (GV × GV × GV) :=
  gridFaces grid_nx grid_ny ++
    ((List.range' 0 grid_nx).map (bottomFace grid_nx) ++
     (List.range' 0 grid_nx).map (topFace grid_nx grid_ny))

/-- Number of a vertex: grid vertices row-major from ring 1, then the two poles. -/
def vertexNumber (grid_nx grid_ny : Nat) : GV → Int
  | GV.grid j i => (((j - 1) * grid_nx + i : Nat) : Int)
  | GV.bottom => ((grid_nx * (grid_ny - 1) : Nat) : Int)
  | GV.top => ((grid_nx * (grid_ny - 1) + 1 : Nat) : Int)

/-- The index buffer entries of a symbolic face. -/
def faceEntries (grid_nx grid_ny : Nat) (f : GV × GV × GV) : List (Option Int) :=
  [some (vertexNumber grid_nx grid_ny f.1), some (vertexNumber grid_nx grid_ny f.2.1),
   some (vertexNumber grid_nx grid_ny f.2.2)]

/-- The vertex is one that the builder emits for this resolution. -/
def GV.Valid (grid_nx grid_ny : Nat) : GV → Prop
  | GV.grid j i => 1 ≤ j ∧ j + 1 ≤ grid_ny ∧ i < grid_nx
  | GV.bottom => True
  | GV.top => True

/-- The face of the index buffer that a symbolic face stands for. -/
def faceNumbers (grid_nx grid_ny : Nat) (f : GV × GV × GV) :
    Option Int × Option Int × Option Int :=
  (some (vertexNumber grid_nx grid_ny f.1), some (vertexNumber grid_nx grid_ny f.2.1),
   some (vertexNumber grid_nx grid_ny f.2.2))

/-- The edge between vertex numbers that a symbolic edge stands for. -/
def edgeNumbers (grid_nx grid_ny : Nat) (e : GV × GV) : Option Int × Option Int :=
  (some (vertexNumber grid_nx grid_ny e.1), some (vertexNumber grid_nx grid_ny e.2))

/-! ## Keyboard control of the examples

Key and action codes are those of the GLFW header; `int` values are `Int` (signed
overflow has no defined behaviour and is outside the model), `uint` values are natural
numbers below `2^32` with wrapping arithmetic. -/

/-- `GLFW_RELEASE`. -/
def GLFW_RELEASE : Int := 0
/-- `GLFW_PRESS`. -/
def GLFW_PRESS : Int := 1
/-- `GLFW_REPEAT`. -/
def GLFW_REPEAT : Int := 2
/-- `GLFW_KEY_SPACE`. -/
def GLFW_KEY_SPACE : Int := 32
/-- `GLFW_KEY_0`. -/
def GLFW_KEY_0 : Int := 48
/-- `GLFW_KEY_1`. -/
def GLFW_KEY_1 : Int := 49
/-- `GLFW_KEY_2`. -/
def GLFW_KEY_2 : Int := 50
/-- `GLFW_KEY_9`. -/
def GLFW_KEY_9 : Int := 57
/-- `GLFW_KEY_X`. -/
def GLFW_KEY_X : Int := 88
/-- `GLFW_KEY_Z`. -/
def GLFW_KEY_Z : Int := 90
/-- `GLFW_MOUSE_BUTTON_LEFT`. -/
def GLFW_MOUSE_BUTTON_LEFT : Int := 0

/-- Sum of two `uint` values. -/
def uintAdd (a b : Nat) : Nat := (a + b) % 2 ^ 32

/-- Difference of two `uint` values. -/
def uintSub (a b : Nat) : Nat := (a + 2 ^ 32 - b % 2 ^ 32) % 2 ^ 32

/-- Modelled from the spec: the macro `CLAMP` of the header `types.h`, which is not among
the sources; `CLAMP(x, lo, hi)` is `x` brought into the range from `lo` to `hi` (the claims
state that `SetSubdivisions` keeps the level between `0` and `max_subdivisions_`). -/
def CLAMP (x lo hi : Int) : Int := if x < lo then lo else if hi < x then hi else x

section Keyboard

variable {K : Type} [LinearOrderedField K]

/-- The globals `twist_angle_g` and `triangle_subdivisions_g` of examples 01 and 02. -/
structure TriangleGlobals (K : Type) where
  twist_angle_g : K
  triangle_subdivisions_g : Int

/-- `KeyboardCallback` of `01_triangle_subdivide_legacy/src/main.cc`. -/
def Legacy.KeyboardCallback (g : TriangleGlobals K) (key action : Int) : TriangleGlobals K :=
  let twist_delta : K := 5
  if action = GLFW_PRESS ∨ action = GLFW_REPEAT then
    if key = GLFW_KEY_0 then { g with twist_angle_g := g.twist_angle_g - twist_delta }
    else if key = GLFW_KEY_9 then { g with twist_angle_g := g.twist_angle_g + twist_delta }
    else if key = GLFW_KEY_1 then
      { g with triangle_subdivisions_g := max (g.triangle_subdivisions_g - 1) 0 }
    else if key = GLFW_KEY_2 then
      { g with triangle_subdivisions_g := g.triangle_subdivisions_g + 1 }
    else g
  else g

/-- `KeyboardCallback` of `02_triangle_subdivide/src/main.cc`: the globals after the
switch and the flag `needs_update`, on which `UpdateGLBuffers()` is called. -/
def Ex02.KeyboardCallback (g : TriangleGlobals K) (key action : Int) :
    TriangleGlobals K × Bool :=
  let needs_update := false
  let twist_delta : K := 5
  if action = GLFW_PRESS ∨ action = GLFW_REPEAT then
    if key = GLFW_KEY_0 then
      ({ g with twist_angle_g := g.twist_angle_g - twist_delta }, true)
    else if key = GLFW_KEY_9 then
      ({ g with twist_angle_g := g.twist_angle_g + twist_delta }, true)
    else if key = GLFW_KEY_1 then
      ({ g with triangle_subdivisions_g := max (g.triangle_subdivisions_g - 1) 0 }, true)
    else if key = GLFW_KEY_2 then
      ({ g with triangle_subdivisions_g := g.triangle_subdivisions_g + 1 }, true)
    else (g, needs_update)
  else (g, needs_update)

/-- The fields of the class `TwistTriangle` (`twist_triangle.h`); `glshader_` is the
program id of the shader the object points to, `none` for a null pointer. -/
structure TwistTriangle (K : Type) where
  glshader_ : Option Nat
  subdivisions_ : Int
  twist_angle_ : K
  vertex_count_ : Nat
  max_subdivisions_ : Int
  gl_buffers_dirty_ : Bool
  vao_ : Nat
  positions_colors_vbo_ : Nat

/-- `TwistTriangle::SetSubdivisions`. -/
def TwistTriangle.SetSubdivisions (t : TwistTriangle K) (subdivisions : Int) :
    TwistTriangle K :=
  { t with
    subdivisions_ := CLAMP subdivisions 0 t.max_subdivisions_
    gl_buffers_dirty_ := true }

/-- `TwistTriangle::SetTwistAngle`. -/
def TwistTriangle.SetTwistAngle (t : TwistTriangle K) (twist_angle : K) : TwistTriangle K :=
  { t with
    twist_angle_ := twist_angle
    gl_buffers_dirty_ := true }

/-- `TwistTriangle::GetSubdivisions`. -/
def TwistTriangle.GetSubdivisions (t : TwistTriangle K) : Int := t.subdivisions_

/-- `TwistTriangle::GetTwistAngle`. -/
def TwistTriangle.GetTwistAngle (t : TwistTriangle K) : K := t.twist_angle_

/-- Constructor `TwistTriangle::TwistTriangle(subdivisions)`: the default member
initialisers, then `SetSubdivisions`. -/
def TwistTriangle.new (subdivisions : Int) : TwistTriangle K :=
  TwistTriangle.SetSubdivisions ⟨none, 0, 0, 0, 10, false, 0, 0⟩ subdivisions

/-- The floats that `TwistTriangle::UpdateGLBuffers` generates for the object
(`twist_triangle.cc`, lines 142-150). -/
def TwistTriangle.generate (L : Libm K) (t : TwistTriangle K) : List K :=
  let p0 : Vec3 K := ⟨0, 3 / 4, 0⟩
  let p1 : Vec3 K := ⟨13 / 20, -(3 / 8), 0⟩
  let p2 : Vec3 K := ⟨-(13 / 20), -(3 / 8), 0⟩
  let center : Vec3 K := Vec3.sdiv (p0 + p1 + p2) 3
  let color1 : Vec3 K := ⟨1, 0, 0⟩
  let color2 : Vec3 K := ⟨0, 1, 0⟩
  TwistTriangle.DivideTriangle L p0 p1 p2 t.subdivisions_ color1 color2 t.twist_angle_
    center []

/-- `KeyboardCallback` of `03_triangle_subdivide_class/src/main.cc`, acting on the global
pointer `twist_triangle_g`. -/
def Ex03.KeyboardCallback (twist_triangle_g : Option (TwistTriangle K)) (key action : Int) :
    Option (TwistTriangle K) :=
  match twist_triangle_g with
  | none => none
  | some t =>
    let twist_delta : K := 5
    if action = GLFW_PRESS ∨ action = GLFW_REPEAT then
      if key = GLFW_KEY_0 then some (t.SetTwistAngle (t.GetTwistAngle - twist_delta))
      else if key = GLFW_KEY_9 then some (t.SetTwistAngle (t.GetTwistAngle + twist_delta))
      else if key = GLFW_KEY_1 then some (t.SetSubdivisions (max (t.GetSubdivisions - 1) 0))
      else if key = GLFW_KEY_2 then some (t.SetSubdivisions (t.GetSubdivisions + 1))
      else some t
    else some t

/-- `KeyboardCallback` of `04_sphere/src/main.cc`, acting on the global pointer
`sphere_g`; `grid_nx` and `grid_ny` are `uint`. -/
def Ex04.KeyboardCallback (sphere_g : Option (Sphere K)) (key action : Int) :
    Option (Sphere K) :=
  match sphere_g with
  | none => none
  | some s =>
    if action = GLFW_PRESS ∨ action = GLFW_REPEAT then
      let grid_nx := s.grid_nx_
      let grid_ny := s.grid_ny_
      if key = GLFW_KEY_0 then some (s.SetGridSize (uintAdd grid_nx 1) grid_ny)
      else if key = GLFW_KEY_9 then some (s.SetGridSize (uintSub grid_nx 1) grid_ny)
      else if key = GLFW_KEY_2 then some (s.SetGridSize grid_nx (uintAdd grid_ny 1))
      else if key = GLFW_KEY_1 then some (s.SetGridSize grid_nx (uintSub grid_ny 1))
      else some s
    else some s

/-- The transition on (twist angle, subdivision level) in the words of the
specification; `cap` is the largest level, when there is one. -/
def keyTransition (cap : Option Int) (p : K × Int) (key action : Int) : K × Int :=
  if action = GLFW_PRESS ∨ action = GLFW_REPEAT then
    if key = GLFW_KEY_9 then (p.1 + 5, p.2)
    else if key = GLFW_KEY_0 then (p.1 - 5, p.2)
    else if key = GLFW_KEY_2 then
      match cap with
      | none => (p.1, p.2 + 1)
      | some c => (p.1, min (p.2 + 1) c)
    else if key = GLFW_KEY_1 then (p.1, max (p.2 - 1) 0)
    else p
  else p

end Keyboard

/-! ## The subdivider with its call tree measured -/

section Traced

variable {K : Type} [Field K]

/-- Result of a call together with two measures of its call tree: the depth of nested
recursive calls below it and the number of recursive calls made. -/
structure Traced (α : Type) where
  out : α
  depth : Nat
  calls : Nat

/-- `DivideTriangle` of example 02, with every recursive call counted. -/
def DivideTriangleTraced (L : Libm K) (p0 p1 p2 : Vec3 K) (level : Int)
    (color1 color2 : Vec3 K) (twist_angle : K) (center : Vec3 K)
    (positions_and_colors : List K) : Traced (List K) :=
  if h : level ≤ 0 then
    let points := [p0, p1, p2]
    ⟨points.foldl (leafVertex L color1 twist_angle center) positions_and_colors, 0, 0⟩
  else
    let p01 := Vec3.smul (1 / 2) (p0 + p1)
    let p02 := Vec3.smul (1 / 2) (p0 + p2)
    let p12 := Vec3.smul (1 / 2) (p1 + p2)
    let r1 := DivideTriangleTraced L p0 p01 p02 (level - 1) color1 color2 twist_angle center
      positions_and_colors
    let r2 := DivideTriangleTraced L p01 p1 p12 (level - 1) color1 color2 twist_angle center
      r1.out
    let r3 := DivideTriangleTraced L p02 p12 p2 (level - 1) color1 color2 twist_angle center
      r2.out
    let r4 := DivideTriangleTraced L p01 p12 p02 (level - 1) color2 color1 twist_angle center
      r3.out
    ⟨r4.out, 1 + max (max r1.depth r2.depth) (max r3.depth r4.depth),
      4 + r1.calls + r2.calls + r3.calls + r4.calls⟩
termination_by level.toNat
decreasing_by all_goals omega

/-- `DivideTriangle` of example 01, with every recursive call counted. -/
def Legacy.DivideTriangleTraced (L : Libm K) (p0 p1 p2 : Vec3 K) (level : Int)
    (color1 color2 : Vec3 K) (twist_angle : K) (center : Vec3 K)
    (calls : List (GLCall K)) : Traced (List (GLCall K)) :=
  if h : level ≤ 0 then
    let calls := push_back calls (GLCall.glColor3f color1.x color1.y color1.z)
    let points := [p0, p1, p2]
    ⟨points.foldl (legacyVertex L twist_angle center) calls, 0, 0⟩
  else
    let p01 := Vec3.smul (1 / 2) (p0 + p1)
    let p02 := Vec3.smul (1 / 2) (p0 + p2)
    let p12 := Vec3.smul (1 / 2) (p1 + p2)
    let r1 := Legacy.DivideTriangleTraced L p0 p01 p02 (level - 1) color1 color2 twist_angle
      center calls
    let r2 := Legacy.DivideTriangleTraced L p01 p1 p12 (level - 1) color1 color2 twist_angle
      center r1.out
    let r3 := Legacy.DivideTriangleTraced L p02 p12 p2 (level - 1) color1 color2 twist_angle
      center r2.out
    let r4 := Legacy.DivideTriangleTraced L p01 p12 p02 (level - 1) color2 color1 twist_angle
      center r3.out
    ⟨r4.out, 1 + max (max r1.depth r2.depth) (max r3.depth r4.depth),
      4 + r1.calls + r2.calls + r3.calls + r4.calls⟩
termination_by level.toNat
decreasing_by all_goals omega

end Traced

/-! ## The mesh viewer (`mesh_view_phong`) -/

section MeshViewer

variable {K : Type} [LinearOrderedField K]

/-- `Mat4r`: four by four matrix, indexed by row and column. -/
abbrev Mat4r (K : Type) : Type := Matrix (Fin 4) (Fin 4) K

/-- Assignment `m(i, j) = v`. -/
def Mat4r.assign (m : Mat4r K) (i j : Fin 4) (v : K) : Mat4r K :=
  fun r c => if r = i ∧ c = j then v else m r c

/-- Assignment `m.diagonal() = d`. -/
def Mat4r.assignDiagonal (m : Mat4r K) (d : Fin 4 → K) : Mat4r K :=
  fun r c => if r = c then d r else m r c

/-- The vertex positions of a `TriMesh`, in the order of vertex iteration. -/
structure TriMesh (K : Type) where
  vertices : List (Vec3 K)

/-- `TriMesh::GetBoundingBox`: `bmin` and `bmax` are passed by reference; the pair of their
values after the call is returned. -/
def TriMesh.GetBoundingBox (m : TriMesh K) (bmin bmax : Vec3 K) : Vec3 K × Vec3 K :=
  m.vertices.foldl (fun b point =>
    (⟨min b.1.x point.x, min b.1.y point.y, min b.1.z point.z⟩,
     ⟨max b.2.x point.x, max b.2.y point.y, max b.2.z point.z⟩)) (bmin, bmax)

/-- The globals of `mesh_view_phong/src/main.cc` that the callbacks and `TransformMesh`
use. -/
structure ViewerGlobals (K : Type) where
  camera_z_pos : K
  xi : K
  yi : K
  xf : K
  yf : K
  delta_x : K
  net_x_transform : K
  delta_y : K
  net_y_transform : K
  release : Int
  sphere_g : Option (Sphere K)
  reset : Bool
  meshlist_g : List (TriMesh K)
  mesh_xform_g : Mat4r K

/-- The globals at program start, before `main` fills `sphere_g` or `meshlist_g`. -/
def ViewerGlobals.initial : ViewerGlobals K :=
  ⟨2, 0, 0, 0, 0, 0, 0, 0, 0, 0, none, false, [], 1⟩

/-- Eye position passed to `glm::lookAt` in `GetViewAndProjectionMatrices`. -/
def lookAtEye (g : ViewerGlobals K) : Vec3 K := ⟨0, 0, g.camera_z_pos⟩

/-- Target position passed to `glm::lookAt` in `GetViewAndProjectionMatrices`. -/
def lookAtTarget : Vec3 K := ⟨0, 0, -2⟩

/-- The first block of the viewer's `KeyboardCallback`: the camera keys, which act when
`sphere_g` is null. -/
def MeshView.cameraKeys (g : ViewerGlobals K) (key action : Int) : ViewerGlobals K :=
  if g.sphere_g.isNone then
    if action = GLFW_PRESS ∨ action = GLFW_REPEAT then
      if key = GLFW_KEY_X then
        if g.camera_z_pos ≥ 1 / 100 then { g with camera_z_pos := g.camera_z_pos * (9 / 10) }
        else g
      else if key = GLFW_KEY_Z then { g with camera_z_pos := g.camera_z_pos * (11 / 10) }
      else if key = GLFW_KEY_SPACE then
        { g with
          camera_z_pos := 2
          reset := true
          net_x_transform := 0
          net_y_transform := 0 }
      else g
    else g
  else g

/-- Outcome of the viewer's `KeyboardCallback`: the globals, and whether `sphere_g->` was
evaluated with `sphere_g` null (from there on the behaviour is undefined; `globals` are
the globals at that point). -/
structure CallbackResult (K : Type) where
  globals : ViewerGlobals K
  null_deref : Bool

/-- `KeyboardCallback` of `mesh_view_phong/src/main.cc`. -/
def MeshView.KeyboardCallback (g : ViewerGlobals K) (key action : Int) : CallbackResult K :=
  let g := MeshView.cameraKeys g key action
  if action = GLFW_PRESS ∨ action = GLFW_REPEAT then
    match g.sphere_g with
    | none => ⟨g, true⟩
    | some s =>
      let grid_nx := s.grid_nx_
      let grid_ny := s.grid_ny_
      if key = GLFW_KEY_0 then
        ⟨{ g with sphere_g := some (s.SetGridSize (uintAdd grid_nx 1) grid_ny) }, false⟩
      else if key = GLFW_KEY_9 then
        ⟨{ g with sphere_g := some (s.SetGridSize (uintSub grid_nx 1) grid_ny) }, false⟩
      else if key = GLFW_KEY_2 then
        ⟨{ g with sphere_g := some (s.SetGridSize grid_nx (uintAdd grid_ny 1)) }, false⟩
      else if key = GLFW_KEY_1 then
        ⟨{ g with sphere_g := some (s.SetGridSize grid_nx (uintSub grid_ny 1)) }, false⟩
      else ⟨g, false⟩
  else ⟨g, false⟩

/-- `mouse_button_callback` of `mesh_view_phong/src/main.cc`; `cursor` is the position that
`glfwGetCursorPos` reports. -/
def MeshView.mouse_button_callback (g : ViewerGlobals K) (cursor : K × K)
    (button action : Int) : ViewerGlobals K :=
  let g :=
    if button = GLFW_MOUSE_BUTTON_LEFT ∧ action = GLFW_PRESS then
      { g with
        xi := cursor.1
        yf := cursor.2
        release := 1 }
    else g
  let g :=
    if button = GLFW_MOUSE_BUTTON_LEFT ∧ action = GLFW_RELEASE ∧ g.release = 1 then
      { g with
        xf := cursor.1
        yf := cursor.2
        release := 0 }
    else g
  let g := { g with delta_x := g.xf - g.xi }
  let g := { g with net_x_transform := g.net_x_transform + g.delta_x }
  let g := { g with delta_y := g.yf - g.yi }
  { g with net_y_transform := g.net_y_transform + g.delta_y }

/-- `TransformMesh` of `mesh_view_phong/src/main.cc`: the returned matrix and the globals
after the call. The locals `bmin` and `bmax` are declared without initial values;
`bmin0` and `bmax0` are the values they happen to hold. -/
def MeshView.TransformMesh (L : Libm K) (g : ViewerGlobals K) (index : Int) (m : TriMesh K)
    (bmin0 bmax0 : Vec3 K) : Mat4r K × ViewerGlobals K :=
  let scale_xform : Mat4r K := 1
  let i : Int := (g.meshlist_g.length : Int)
  let mesh := m
  let b := mesh.GetBoundingBox bmin0 bmax0
  let bmin := b.1
  let bmax := b.2
  let xdim := bmax.x - bmin.x
  let ydim := bmax.y - bmin.y
  let zdim := bmax.z - bmin.z
  let maxdim := max xdim ydim
  let maxdim := max maxdim zdim
  let scale : K := 2 / maxdim
  let scale := scale / (i : K)
  let scale_xform := scale_xform.assignDiagonal ![scale, scale, scale, 1]
  let center : Vec3 K := Vec3.smul scale (bmin + Vec3.smul (1 / 2) (bmax - bmin))
  let size : K := 2
  let xshift : K := (index : K) * (size / (i : K)) + size / ((i * 2 : Int) : K) - size / 2
  let translate_xform : Mat4r K := 1
  let translate_xform := translate_xform.assign 0 3 (-center.x + xshift)
  let translate_xform := translate_xform.assign 1 3 (-center.y)
  let translate_xform := translate_xform.assign 2 3 (-center.z)
  let rotate_y_xform : Mat4r K := 1
  let rotate_y_angle := g.delta_x
  let c := L.cos (rotate_y_angle * L.kDEGtoRAD)
  let s := L.sin (rotate_y_angle * L.kDEGtoRAD)
  let rotate_y_xform := rotate_y_xform.assign 0 0 c
  let rotate_y_xform := rotate_y_xform.assign 0 2 s
  let rotate_y_xform := rotate_y_xform.assign 2 0 (-s)
  let rotate_y_xform := rotate_y_xform.assign 2 2 c
  let rotate_x_xform : Mat4r K := 1
  let rotate_x_angle := g.delta_y
  let c := L.cos (rotate_x_angle * L.kDEGtoRAD)
  let s := L.sin (rotate_x_angle * L.kDEGtoRAD)
  let rotate_x_xform := rotate_x_xform.assign 1 1 c
  let rotate_x_xform := rotate_x_xform.assign 2 1 s
  let rotate_x_xform := rotate_x_xform.assign 1 2 (-s)
  let rotate_x_xform := rotate_x_xform.assign 2 2 c
  let g := { g with
    mesh_xform_g := translate_xform * rotate_y_xform * rotate_x_xform * scale_xform }
  (rotate_y_xform * rotate_x_xform * translate_xform * scale_xform, g)

/-- The image of the point `p` under the affine map with matrix `M`: the first three
components of `M * (p, 1)`. -/
def transformPoint (M : Mat4r K) (p : Vec3 K) : Vec3 K :=
  ⟨Matrix.mulVec M ![p.x, p.y, p.z, 1] 0, Matrix.mulVec M ![p.x, p.y, p.z, 1] 1,
   Matrix.mulVec M ![p.x, p.y, p.z, 1] 2⟩

/-- Component-wise minimum of a non-empty list of points, in the words of the
specification. -/
def componentMin (v : Vec3 K) (vs : List (Vec3 K)) : Vec3 K :=
  vs.foldl (fun a p => ⟨min a.x p.x, min a.y p.y, min a.z p.z⟩) v

/-- Component-wise maximum of a non-empty list of points, in the words of the
specification. -/
def componentMax (v : Vec3 K) (vs : List (Vec3 K)) : Vec3 K :=
  vs.foldl (fun a p => ⟨max a.x p.x, max a.y p.y, max a.z p.z⟩) v

/-! ### Lights and uniforms -/

/-- An entry of the light list: a `PointLight` with its three fields, or an entry that
`dynamic_pointer_cast<PointLight>` turns into null (a light of another class, or a null
pointer). -/
inductive Light (K : Type) where
  | point (position_ intensity_ ambient_ : Vec3 K)
  | other

/-- The names of the uniforms that `SetLights` sets; `i` is the index that `fmt::format`
writes between the brackets. -/
inductive UniformName where
  | point_light_count
  | point_lights_position (i : Nat)
  | point_lights_intensity (i : Nat)
  | point_lights_ambient (i : Nat)
deriving DecidableEq, Repr

/-- The GL calls that upload a uniform. -/
inductive GLUniformCall (K : Type) where
  | glUniform1ui (location : Int) (value : Nat)
  | glUniform3fv (location : Int) (value : Vec3 K)

/-- `glm::mat4`: `g c r` is the entry `g[c][r]` of column `c` and row `r`. -/
abbrev GlmMat4 (K : Type) : Type := Fin 4 → Fin 4 → K

/-- The xyz part of `view_matrix * glm::vec4(v, 1)`. -/
def glmTransform (g : GlmMat4 K) (v : Vec3 K) : Vec3 K :=
  ⟨g 0 0 * v.x + g 1 0 * v.y + g 2 0 * v.z + g 3 0 * 1,
   g 0 1 * v.x + g 1 1 * v.y + g 2 1 * v.z + g 3 1 * 1,
   g 0 2 * v.x + g 1 2 * v.y + g 2 2 * v.z + g 3 2 * 1⟩

/-- `GLShader::SetUniformUInt`: the result and the GL calls issued so far.
`glGetUniformLocation` is the answer of the GL for the program. -/
def GLShader.SetUniformUInt (program_id_ : Nat) (glGetUniformLocation : UniformName → Int)
    (name : UniformName) (value : Nat) (calls : List (GLUniformCall K)) :
    Bool × List (GLUniformCall K) :=
  if program_id_ = 0 then (false, calls)
  else
    let location := glGetUniformLocation name
    if location < 0 then (false, calls)
    else (true, push_back calls (GLUniformCall.glUniform1ui location value))

/-- `GLShader::SetUniformVec3`. -/
def GLShader.SetUniformVec3 (program_id_ : Nat) (glGetUniformLocation : UniformName → Int)
    (name : UniformName) (vec : Vec3 K) (calls : List (GLUniformCall K)) :
    Bool × List (GLUniformCall K) :=
  if program_id_ = 0 then (false, calls)
  else
    let location := glGetUniformLocation name
    if location < 0 then (false, calls)
    else (true, push_back calls (GLUniformCall.glUniform3fv location vec))

/-- The loop of `SetLights` that collects the `PointLight`s of the list. -/
def collectPointLights (lights : List (Light K)) : List (Vec3 K × Vec3 K × Vec3 K) :=
  lights.foldl (fun point_lights light =>
    match light with
    | Light.point p i a => push_back point_lights (p, i, a)
    | Light.other => point_lights) []

/-- Body of the loop of `SetLights` over the collected point lights. -/
def setLightBody (program_id_ : Nat) (glGetUniformLocation : UniformName → Int)
    (view_matrix : GlmMat4 K) (point_lights : List (Vec3 K × Vec3 K × Vec3 K))
    (calls : List (GLUniformCall K)) (i : Nat) : List (GLUniformCall K) :=
  match point_lights[i]? with
  | none => calls
  | some light =>
    let light_position := glmTransform view_matrix light.1
    let calls := (GLShader.SetUniformVec3 program_id_ glGetUniformLocation
      (UniformName.point_lights_position i) light_position calls).2
    let calls := (GLShader.SetUniformVec3 program_id_ glGetUniformLocation
      (UniformName.point_lights_intensity i) light.2.1 calls).2
    (GLShader.SetUniformVec3 program_id_ glGetUniformLocation
      (UniformName.point_lights_ambient i) light.2.2 calls).2

/-- `GLPhongShader::SetLights`: the result and the GL calls it issues. -/
def GLPhongShader.SetLights (program_id_ : Nat) (glGetUniformLocation : UniformName → Int)
    (view_matrix : GlmMat4 K) (lights : List (Light K)) : Bool × List (GLUniformCall K) :=
  if program_id_ = 0 then (false, [])
  else
    let point_lights := collectPointLights lights
    let light_count := point_lights.length
    let calls := (GLShader.SetUniformUInt program_id_ glGetUniformLocation
      UniformName.point_light_count light_count []).2
    let calls := forLoop 0 point_lights.length
      (setLightBody program_id_ glGetUniformLocation view_matrix point_lights) calls
    (true, calls)

end MeshViewer

/-! ### The uploads of `SetLights`, in the words of the specification -/

section LightUploads

variable {K : Type} [LinearOrderedField K]

/-- The `PointLight`s of a light list in list order, in the words of the specification:
entries of any other kind are skipped and do not consume an index. -/
def pointLightsOf (lights : List (Light K)) : List (Vec3 K × Vec3 K × Vec3 K) :=
  lights.filterMap (fun light =>
    match light with
    | Light.point p i a => some (p, i, a)
    | Light.other => none)

/-- The upload of an unsigned uniform: one `glUniform1ui` at the location of the name; a
name whose location is negative is not uploaded. -/
def uploadUInt (location : UniformName → Int) (name : UniformName) (value : Nat) :
    List (GLUniformCall K) :=
  if location name < 0 then [] else [GLUniformCall.glUniform1ui (location name) value]

/-- The upload of a vector uniform: one `glUniform3fv` at the location of the name; a name
whose location is negative is not uploaded. -/
def uploadVec3 (location : UniformName → Int) (name : UniformName) (value : Vec3 K) :
    List (GLUniformCall K) :=
  if location name < 0 then [] else [GLUniformCall.glUniform3fv (location name) value]

/-- The uploads for a list of point lights of which the first has index `k`: for each, in
order, `point_lights[k].position` (the position in camera space), `point_lights[k].intensity`
and `point_lights[k].ambient`. -/
def pointLightUploads (location : UniformName → Int) (view_matrix : GlmMat4 K) :
    Nat → List (Vec3 K × Vec3 K × Vec3 K) → List (GLUniformCall K)
  | _, [] => []
  | k, light :: rest =>
    uploadVec3 location (UniformName.point_lights_position k)
        (glmTransform view_matrix light.1) ++
      uploadVec3 location (UniformName.point_lights_intensity k) light.2.1 ++
      uploadVec3 location (UniformName.point_lights_ambient k) light.2.2 ++
      pointLightUploads location view_matrix (k + 1) rest

end LightUploads

/-! ### Leaves named by their path from the root, in the words of the specification -/

section Paths

variable {K : Type} [Field K]

/-- The leaf reached from the triangle `p0 p1 p2` with colours `color1`, `color2` along a
path of children: child 0, 1, 2 is the corner triangle at `p0`, `p1`, `p2`, child 3 the
centre triangle, which swaps the two colours. -/
def leafOnPath : List (Fin 4) → Vec3 K → Vec3 K → Vec3 K → Vec3 K → Vec3 K → Leaf K
  | [], p0, p1, p2, color1, _ => ⟨p0, p1, p2, color1⟩
  | k :: path, p0, p1, p2, color1, color2 =>
    if k = 0 then
      leafOnPath path p0 (Vec3.smul (1 / 2) (p0 + p1)) (Vec3.smul (1 / 2) (p0 + p2))
        color1 color2
    else if k = 1 then
      leafOnPath path (Vec3.smul (1 / 2) (p0 + p1)) p1 (Vec3.smul (1 / 2) (p1 + p2))
        color1 color2
    else if k = 2 then
      leafOnPath path (Vec3.smul (1 / 2) (p0 + p2)) (Vec3.smul (1 / 2) (p1 + p2)) p2
        color1 color2
    else
      leafOnPath path (Vec3.smul (1 / 2) (p0 + p1)) (Vec3.smul (1 / 2) (p1 + p2))
        (Vec3.smul (1 / 2) (p0 + p2)) color2 color1

/-- All paths of length `n`, in lexicographic order. -/
def allPaths : Nat → List (List (Fin 4))
  | 0 => [[]]
  | n + 1 => [0, 1, 2, 3].flatMap (fun k => (allPaths n).map (fun path => k :: path))

end Paths

/-! ### Convex combinations with dyadic coefficients, in the words of the specification -/

section Dyadic

variable {K : Type} [Field K]

/-- The point `q` is a convex combination of `p0`, `p1`, `p2` whose coefficients are
multiples of `2^-n`: `q = (a p0 + b p1 + c p2) / 2^n` with naturals `a + b + c = 2^n`. -/
def DyadicCombination (n : Nat) (p0 p1 p2 q : Vec3 K) : Prop :=
  ∃ a b c : Nat, a + b + c = 2 ^ n ∧
    q = Vec3.sdiv (Vec3.smul (a : K) p0 + Vec3.smul (b : K) p1 + Vec3.smul (c : K) p2)
      (2 ^ n)

end Dyadic

/-! ### The undirected edges of an index mesh -/

section EdgeDefs

variable {α : Type}

/-- The distinct undirected edges of a list of faces. -/
def undirectedEdges [DecidableEq α] (faces : List (α × α × α)) : List (Sym2 α) :=
  ((dirEdges faces).map Sym2.mk).dedup

end EdgeDefs

/-! ### Frames and events of the mesh viewer -/

section ViewerLoop

variable {K : Type} [LinearOrderedField K]

/-- `Mat4r::inverse()`: the adjugate divided by the determinant. -/
def Mat4r.inverse (m : Mat4r K) : Mat4r K := (Matrix.det m)⁻¹ • Matrix.adjugate m

/-- `ResetMesh` of `mesh_view_phong/src/main.cc`: the returned matrix and the globals
after the call. -/
def MeshView.ResetMesh (L : Libm K) (g : ViewerGlobals K) (index : Int) (_m : TriMesh K) :
    Mat4r K × ViewerGlobals K :=
  let i : Int := (g.meshlist_g.length : Int)
  let g := if index ≥ i then { g with reset := false } else g
  let g := { g with delta_x := 0 }
  let g := { g with delta_y := 0 }
  let total_rotate_x_xform : Mat4r K := 1
  let rotate_x_angle := g.net_y_transform
  let c := L.cos (rotate_x_angle * L.kDEGtoRAD)
  let s := L.sin (rotate_x_angle * L.kDEGtoRAD)
  let total_rotate_x_xform := total_rotate_x_xform.assign 1 1 c
  let total_rotate_x_xform := total_rotate_x_xform.assign 2 1 s
  let total_rotate_x_xform := total_rotate_x_xform.assign 1 2 (-s)
  let total_rotate_x_xform := total_rotate_x_xform.assign 2 2 c
  let total_rotate_y_xform : Mat4r K := 1
  let rotate_y_angle := g.net_x_transform
  let c := L.cos (rotate_y_angle * L.kDEGtoRAD)
  let s := L.sin (rotate_y_angle * L.kDEGtoRAD)
  let total_rotate_y_xform := total_rotate_y_xform.assign 0 0 c
  let total_rotate_y_xform := total_rotate_y_xform.assign 0 2 s
  let total_rotate_y_xform := total_rotate_y_xform.assign 2 0 (-s)
  let total_rotate_y_xform := total_rotate_y_xform.assign 2 2 c
  let inv_rotate_x_xform := total_rotate_x_xform.inverse
  let inv_rotate_y_xform := total_rotate_y_xform.inverse
  (inv_rotate_y_xform * inv_rotate_x_xform, g)

/-- What one frame depends on besides the globals: for the mesh with index `i`, the values
that the uninitialised locals `bmin`, `bmax` of `TransformMesh` hold, and whether the
left operand of `ResetMesh(..) * TransformMesh(..)` is evaluated before the right one (the
language leaves the order open). -/
structure FrameEnv (K : Type) where
  locals : Nat → Vec3 K × Vec3 K
  reset_first : Bool

/-- Body of the loop of `Display()` over `meshlist_g`: the model matrices handed to the
draw calls so far and the globals. -/
def MeshView.displayBody (L : Libm K) (env : FrameEnv K)
    (s : List (Mat4r K) × ViewerGlobals K) (im : Nat × TriMesh K) :
    List (Mat4r K) × ViewerGlobals K :=
  let i : Int := (im.1 : Int)
  let g := s.2
  if g.reset = false then
    let r := MeshView.TransformMesh L g i im.2 (env.locals im.1).1 (env.locals im.1).2
    (push_back s.1 r.1, r.2)
  else if env.reset_first then
    let a := MeshView.ResetMesh L g i im.2
    let b := MeshView.TransformMesh L a.2 i im.2 (env.locals im.1).1 (env.locals im.1).2
    (push_back s.1 (a.1 * b.1), b.2)
  else
    let b := MeshView.TransformMesh L g i im.2 (env.locals im.1).1 (env.locals im.1).2
    let a := MeshView.ResetMesh L b.2 i im.2
    (push_back s.1 (a.1 * b.1), a.2)

/-- `Display()` of `mesh_view_phong/src/main.cc` (mesh mode): the model matrices of the
draw calls and the globals after the frame. -/
def MeshView.Display (L : Libm K) (env : FrameEnv K) (g : ViewerGlobals K) :
    List (Mat4r K) × ViewerGlobals K :=
  g.meshlist_g.enum.foldl (MeshView.displayBody L env) ([], g)

/-- What the main loop of the mesh viewer does between two tests of the window: a frame,
or an input event handed to its callback. -/
inductive ViewerEvent (K : Type) where
  | frame (env : FrameEnv K)
  | key (key action : Int)
  | mouse_button (cursor : K × K) (button action : Int)
  | cursor_position (xpos ypos : K)

/-- The globals after one step of the main loop. -/
def MeshView.step (L : Libm K) (g : ViewerGlobals K) : ViewerEvent K → ViewerGlobals K
  | ViewerEvent.frame env => (MeshView.Display L env g).2
  | ViewerEvent.key key action => (MeshView.KeyboardCallback g key action).globals
  | ViewerEvent.mouse_button cursor button action =>
    MeshView.mouse_button_callback g cursor button action
  | ViewerEvent.cursor_position _ _ => g

end ViewerLoop

/-! ## Conversions between Eigen and glm matrices (`utils.h`) -/

section GlmEigen

/-- The two conversions between the scalar of `glm::mat4` (single precision, `F`) and the
scalar `Real` of `Mat4r` (`D`): the widening that the comma initialiser applies, and
`cast<float>()`. -/
structure FloatCast (F D : Type) where
  toReal : F → D
  toFloat : D → F

/-- `GLMToEigen(glm_mat, m)`: the comma initialiser fills `m` row by row. -/
def GLMToEigen {F D : Type} (C : FloatCast F D) (glm_mat : GlmMat4 F) : Mat4r D :=
  Matrix.of ![
    ![C.toReal (glm_mat 0 0), C.toReal (glm_mat 1 0), C.toReal (glm_mat 2 0),
      C.toReal (glm_mat 3 0)],
    ![C.toReal (glm_mat 0 1), C.toReal (glm_mat 1 1), C.toReal (glm_mat 2 1),
      C.toReal (glm_mat 3 1)],
    ![C.toReal (glm_mat 0 2), C.toReal (glm_mat 1 2), C.toReal (glm_mat 2 2),
      C.toReal (glm_mat 3 2)],
    ![C.toReal (glm_mat 0 3), C.toReal (glm_mat 1 3), C.toReal (glm_mat 2 3),
      C.toReal (glm_mat 3 3)]]

/-- `glm::make_mat4`: the sixteen values are the four columns, one after the other. -/
def make_mat4 {F : Type} (m4_values : Fin 16 → F) : GlmMat4 F :=
  fun c r => m4_values ⟨4 * c.val + r.val, by omega⟩

/-- `EigenToGLM(matd, glm_mat)`. -/
def EigenToGLM {F D : Type} (C : FloatCast F D) (matd : Mat4r D) : GlmMat4 F :=
  let matf : Matrix (Fin 4) (Fin 4) F := fun r c => C.toFloat (matd r c)
  let m4_values : Fin 16 → F :=
    ![matf 0 0, matf 1 0, matf 2 0, matf 3 0,
      matf 0 1, matf 1 1, matf 2 1, matf 3 1,
      matf 0 2, matf 1 2, matf 2 2, matf 3 2,
      matf 0 3, matf 1 3, matf 2 3, matf 3 3]
  make_mat4 m4_values

end GlmEigen

/-! ## The orthographic view volume of the triangle examples -/

section Ortho

variable {K : Type} [LinearOrderedField K]

/-- The arguments of a call of `glOrtho` or `glm::ortho`. -/
structure OrthoArgs (K : Type) where
  left : K
  right : K
  bottom : K
  top : K
  zNear : K
  zFar : K

/-- `WindowResizeCallback` of `01_triangle_subdivide_legacy/src/main.cc`: the arguments it
passes to `glOrtho`. -/
def Legacy.WindowResizeCallback (width height : Int) : OrthoArgs K :=
  let aspect : K := (width : K) / (height : K)
  let xy : K × K := if aspect > 1 then (aspect, 1) else (1, 1 / aspect)
  let xmax := xy.1
  let ymax := xy.2
  ⟨-xmax, xmax, -ymax, ymax, -1, 1⟩

/-- `GetViewAndProjectionMatrices` of `02_triangle_subdivide/src/main.cc`: the arguments it
passes to `glm::ortho`; `window_size_g` is the global that the resize callback sets. -/
def Ex02.GetViewAndProjectionMatrices (window_size_g : Int × Int) : OrthoArgs K :=
  let aspect : K := (window_size_g.1 : K) / (window_size_g.2 : K)
  let xy : K × K := if aspect > 1 then (aspect, 1) else (1, 1 / aspect)
  let xmax := xy.1
  let ymax := xy.2
  ⟨-xmax, xmax, -ymax, ymax, -1, 1⟩

/-- `GetViewAndProjectionMatrices` of `03_triangle_subdivide_class/src/main.cc`. -/
def Ex03.GetViewAndProjectionMatrices (window_size_g : Int × Int) : OrthoArgs K :=
  let aspect : K := (window_size_g.1 : K) / (window_size_g.2 : K)
  let xy : K × K := if aspect > 1 then (aspect, 1) else (1, 1 / aspect)
  let xmax := xy.1
  let ymax := xy.2
  ⟨-xmax, xmax, -ymax, ymax, -1, 1⟩

end Ortho

/-! ## The GL buffers of `TwistTriangle` -/

section TwistBuffers

variable {K : Type} [LinearOrderedField K]

/-- `GLShader::Use` seen from the caller: false for program id 0, else true. -/
def GLShader.Use (program_id_ : Nat) : Bool := !(program_id_ = 0)

/-- `TwistTriangle::DeleteGLBuffers`. -/
def TwistTriangle.DeleteGLBuffers (t : TwistTriangle K) : TwistTriangle K :=
  if t.vao_ = 0 then t
  else
    let t := if t.positions_colors_vbo_ ≠ 0 then { t with positions_colors_vbo_ := 0 } else t
    { t with vao_ := 0 }

/-- `TwistTriangle::UpdateGLBuffers(glshader, force_update)`; `glshader` is the program id
of the shader, `none` for a null pointer, and `gen_vao`, `gen_vbo` are the names that
`glGenVertexArrays` and `glGenBuffers` hand out. -/
def TwistTriangle.UpdateGLBuffers (L : Libm K) (t : TwistTriangle K) (glshader : Option Nat)
    (force_update : Bool) (gen_vao gen_vbo : Nat) : TwistTriangle K :=
  if !t.gl_buffers_dirty_ && !force_update then t
  else
    match glshader with
    | none => t
    | some program_id_ =>
      if !GLShader.Use program_id_ then t
      else
        let t := t.DeleteGLBuffers
        let t := if t.vao_ = 0 then { t with vao_ := gen_vao } else t
        let positions_and_colors := t.generate L
        let t := { t with vertex_count_ := positions_and_colors.length / 6 }
        let t := { t with positions_colors_vbo_ := gen_vbo }
        { t with gl_buffers_dirty_ := false }

/-- The effect of `TwistTriangle::DrawGL` on the object. -/
def TwistTriangle.DrawGL (L : Libm K) (t : TwistTriangle K) (gen_vao gen_vbo : Nat) :
    TwistTriangle K :=
  match t.glshader_ with
  | none => t
  | some program_id_ =>
    if !GLShader.Use program_id_ then t
    else if t.gl_buffers_dirty_ ∨ t.vao_ = 0 ∨ t.positions_colors_vbo_ = 0 then
      t.UpdateGLBuffers L t.glshader_ false gen_vao gen_vbo
    else t

/-- `TwistTriangle::SetGLShader`. -/
def TwistTriangle.SetGLShader (t : TwistTriangle K) (shader : Option Nat) : TwistTriangle K :=
  { t with glshader_ := shader }

/-- A call of a public member function of `TwistTriangle` that can change the object. -/
inductive TwistCall (K : Type) where
  | SetSubdivisions (subdivisions : Int)
  | SetTwistAngle (twist_angle : K)
  | SetGLShader (shader : Option Nat)
  | DeleteGLBuffers
  | UpdateGLBuffers (glshader : Option Nat) (force_update : Bool) (gen_vao gen_vbo : Nat)
  | DrawGL (gen_vao gen_vbo : Nat)

/-- The object after the call. -/
def TwistTriangle.call (L : Libm K) (t : TwistTriangle K) : TwistCall K → TwistTriangle K
  | TwistCall.SetSubdivisions subdivisions => t.SetSubdivisions subdivisions
  | TwistCall.SetTwistAngle twist_angle => t.SetTwistAngle twist_angle
  | TwistCall.SetGLShader shader => t.SetGLShader shader
  | TwistCall.DeleteGLBuffers => t.DeleteGLBuffers
  | TwistCall.UpdateGLBuffers glshader force_update gen_vao gen_vbo =>
    t.UpdateGLBuffers L glshader force_update gen_vao gen_vbo
  | TwistCall.DrawGL gen_vao gen_vbo => t.DrawGL L gen_vao gen_vbo

end TwistBuffers

/-! # Lemmas and theorems -/

namespace Vec3

variable {K : Type}

@[simp] theorem add_x [Add K] (a b : Vec3 K) : (a + b).x = a.x + b.x := rfl
@[simp] theorem add_y [Add K] (a b : Vec3 K) : (a + b).y = a.y + b.y := rfl
@[simp] theorem add_z [Add K] (a b : Vec3 K) : (a + b).z = a.z + b.z := rfl
@[simp] theorem sub_x [Sub K] (a b : Vec3 K) : (a - b).x = a.x - b.x := rfl
@[simp] theorem sub_y [Sub K] (a b : Vec3 K) : (a - b).y = a.y - b.y := rfl
@[simp] theorem sub_z [Sub K] (a b : Vec3 K) : (a - b).z = a.z - b.z := rfl
@[simp] theorem smul_x [Mul K] (s : K) (a : Vec3 K) : (smul s a).x = s * a.x := rfl
@[simp] theorem smul_y [Mul K] (s : K) (a : Vec3 K) : (smul s a).y = s * a.y := rfl
@[simp] theorem smul_z [Mul K] (s : K) (a : Vec3 K) : (smul s a).z = s * a.z := rfl
@[simp] theorem sdiv_x [Div K] (a : Vec3 K) (s : K) : (sdiv a s).x = a.x / s := rfl
@[simp] theorem sdiv_y [Div K] (a : Vec3 K) (s : K) : (sdiv a s).y = a.y / s := rfl
@[simp] theorem sdiv_z [Div K] (a : Vec3 K) (s : K) : (sdiv a s).z = a.z / s := rfl

@[ext] theorem ext {a b : Vec3 K} (hx : a.x = b.x) (hy : a.y = b.y) (hz : a.z = b.z) :
    a = b := by
  cases a; cases b; simp_all

end Vec3

section TriangleLemmas

variable {K : Type} [Field K]

theorem DivideTriangle_leaf (L : Libm K) (p0 p1 p2 : Vec3 K) (level : Int)
    (color1 color2 : Vec3 K) (twist_angle : K) (center : Vec3 K) (buf : List K)
    (h : level ≤ 0) :
    DivideTriangle L p0 p1 p2 level color1 color2 twist_angle center buf =
      buf ++ leafFloats L twist_angle center ⟨p0, p1, p2, color1⟩ := by
  rw [DivideTriangle]
  simp [h, leafVertex, push_back, leafFloats, vertexFloats]

theorem DivideTriangle_split (L : Libm K) (p0 p1 p2 : Vec3 K) (level : Int)
    (color1 color2 : Vec3 K) (twist_angle : K) (center : Vec3 K) (buf : List K)
    (h : 0 < level) :
    DivideTriangle L p0 p1 p2 level color1 color2 twist_angle center buf =
      DivideTriangle L (Vec3.smul (1 / 2) (p0 + p1)) (Vec3.smul (1 / 2) (p1 + p2))
        (Vec3.smul (1 / 2) (p0 + p2)) (level - 1) color2 color1 twist_angle center
        (DivideTriangle L (Vec3.smul (1 / 2) (p0 + p2)) (Vec3.smul (1 / 2) (p1 + p2)) p2
          (level - 1) color1 color2 twist_angle center
          (DivideTriangle L (Vec3.smul (1 / 2) (p0 + p1)) p1 (Vec3.smul (1 / 2) (p1 + p2))
            (level - 1) color1 color2 twist_angle center
            (DivideTriangle L p0 (Vec3.smul (1 / 2) (p0 + p1)) (Vec3.smul (1 / 2) (p0 + p2))
              (level - 1) color1 color2 twist_angle center buf))) := by
  rw [DivideTriangle]
  simp [not_le.mpr h]

theorem DivideTriangle_eq_leaves_aux (L : Libm K) (twist_angle : K) (center : Vec3 K) :
    ∀ (n : Nat) (level : Int), level.toNat = n →
      ∀ (p0 p1 p2 color1 color2 : Vec3 K) (buf : List K),
        DivideTriangle L p0 p1 p2 level color1 color2 twist_angle center buf =
          buf ++ (leafTriangles n p0 p1 p2 color1 color2).flatMap
            (leafFloats L twist_angle center) := by
  intro n
  induction n with
  | zero =>
    intro level hl p0 p1 p2 color1 color2 buf
    have h : level ≤ 0 := by omega
    rw [DivideTriangle_leaf L p0 p1 p2 level color1 color2 twist_angle center buf h]
    simp [leafTriangles]
  | succ n ih =>
    intro level hl p0 p1 p2 color1 color2 buf
    have h : 0 < level := by omega
    have h1 : (level - 1).toNat = n := by omega
    rw [DivideTriangle_split L p0 p1 p2 level color1 color2 twist_angle center buf h]
    rw [ih (level - 1) h1, ih (level - 1) h1, ih (level - 1) h1, ih (level - 1) h1]
    simp [leafTriangles, List.flatMap_append, List.append_assoc]

/-- The buffer after `DivideTriangle` is the buffer before it followed by the floats of
the leaves of the recursion, in order. -/
theorem DivideTriangle_eq_leaves (L : Libm K) (p0 p1 p2 : Vec3 K) (level : Int)
    (color1 color2 : Vec3 K) (twist_angle : K) (center : Vec3 K) (buf : List K) :
    DivideTriangle L p0 p1 p2 level color1 color2 twist_angle center buf =
      buf ++ (leafTriangles level.toNat p0 p1 p2 color1 color2).flatMap
        (leafFloats L twist_angle center) :=
  DivideTriangle_eq_leaves_aux L twist_angle center level.toNat level rfl p0 p1 p2
    color1 color2 buf

theorem leafTriangles_length (n : Nat) (p0 p1 p2 color1 color2 : Vec3 K) :
    (leafTriangles n p0 p1 p2 color1 color2).length = 4 ^ n := by
  induction n generalizing p0 p1 p2 color1 color2 with
  | zero => simp [leafTriangles]
  | succ n ih =>
    simp only [leafTriangles, List.length_append, ih]
    ring

theorem flatMap_leafFloats_length (L : Libm K) (twist_angle : K) (center : Vec3 K)
    (ls : List (Leaf K)) :
    (ls.flatMap (leafFloats L twist_angle center)).length = 18 * ls.length := by
  induction ls with
  | nil => simp
  | cons l ls ih =>
    simp only [List.flatMap_cons, List.length_append, ih, List.length_cons]
    simp [leafFloats, vertexFloats]
    ring

theorem TwistTriangle_eq_leaves_aux (L : Libm K) (twist_angle : K) (center : Vec3 K) :
    ∀ (n : Nat) (level : Int), level.toNat = n →
      ∀ (p0 p1 p2 color1 color2 : Vec3 K) (buf : List K),
        TwistTriangle.DivideTriangle L p0 p1 p2 level color1 color2 twist_angle center buf =
          buf ++ (leafTriangles n p0 p1 p2 color1 color2).flatMap
            (leafFloats L twist_angle center) := by
  intro n
  induction n with
  | zero =>
    intro level hl p0 p1 p2 color1 color2 buf
    have h : level ≤ 0 := by omega
    rw [TwistTriangle.DivideTriangle]
    simp [h, leafVertex, push_back, leafFloats, vertexFloats, leafTriangles]
  | succ n ih =>
    intro level hl p0 p1 p2 color1 color2 buf
    have h : ¬ level ≤ 0 := by omega
    have h1 : (level - 1).toNat = n := by omega
    rw [TwistTriangle.DivideTriangle]
    simp only [h, dite_false]
    rw [ih (level - 1) h1, ih (level - 1) h1, ih (level - 1) h1, ih (level - 1) h1]
    simp [leafTriangles, List.flatMap_append, List.append_assoc]

theorem Legacy_eq_leaves_aux (L : Libm K) (twist_angle : K) (center : Vec3 K) :
    ∀ (n : Nat) (level : Int), level.toNat = n →
      ∀ (p0 p1 p2 color1 color2 : Vec3 K) (calls : List (GLCall K)),
        Legacy.DivideTriangle L p0 p1 p2 level color1 color2 twist_angle center calls =
          calls ++ (leafTriangles n p0 p1 p2 color1 color2).flatMap
            (leafCalls L twist_angle center) := by
  intro n
  induction n with
  | zero =>
    intro level hl p0 p1 p2 color1 color2 calls
    have h : level ≤ 0 := by omega
    rw [Legacy.DivideTriangle]
    simp [h, legacyVertex, push_back, leafCalls, leafTriangles]
  | succ n ih =>
    intro level hl p0 p1 p2 color1 color2 calls
    have h : ¬ level ≤ 0 := by omega
    have h1 : (level - 1).toNat = n := by omega
    rw [Legacy.DivideTriangle]
    simp only [h, dite_false]
    rw [ih (level - 1) h1, ih (level - 1) h1, ih (level - 1) h1, ih (level - 1) h1]
    simp [leafTriangles, List.flatMap_append, List.append_assoc]

/-- The vertices (position, colour) of a list of leaves, three per leaf. -/
theorem leafFloats_eq_vertices (L : Libm K) (twist_angle : K) (center : Vec3 K)
    (ls : List (Leaf K)) :
    ls.flatMap (leafFloats L twist_angle center) =
      (ls.flatMap (fun l =>
        [(twistPoint L twist_angle center l.q0, l.color),
         (twistPoint L twist_angle center l.q1, l.color),
         (twistPoint L twist_angle center l.q2, l.color)])).flatMap
        (fun v => [v.1.x, v.1.y, v.1.z, v.2.x, v.2.y, v.2.z]) := by
  induction ls with
  | nil => simp
  | cons l ls ih =>
    simp only [List.flatMap_cons, List.flatMap_append, ih]
    simp [leafFloats, vertexFloats]

/-- C1. For every triangle, colour pair, twist angle, centre and level `n ≥ 0`,
`DivideTriangle` (examples 02 and 03) appends exactly `3 * 4^n` vertices, each laid out as
six floats (position `x, y, z`, then colour `r, g, b`), that is `18 * 4^n` floats; called
on an empty buffer, the vertex count `size / 6` is `3 * 4^n`. -/
theorem DivideTriangle_vertex_count (L : Libm K) (p0 p1 p2 : Vec3 K) (n : Nat)
    (color1 color2 : Vec3 K) (twist_angle : K) (center : Vec3 K) (buf : List K) :
    (∃ verts : List (Vec3 K × Vec3 K), verts.length = 3 * 4 ^ n ∧
      DivideTriangle L p0 p1 p2 (n : Int) color1 color2 twist_angle center buf =
        buf ++ verts.flatMap (fun v => [v.1.x, v.1.y, v.1.z, v.2.x, v.2.y, v.2.z]) ∧
      TwistTriangle.DivideTriangle L p0 p1 p2 (n : Int) color1 color2 twist_angle center buf =
        buf ++ verts.flatMap (fun v => [v.1.x, v.1.y, v.1.z, v.2.x, v.2.y, v.2.z])) ∧
    (DivideTriangle L p0 p1 p2 (n : Int) color1 color2 twist_angle center buf).length =
      buf.length + 18 * 4 ^ n ∧
    (DivideTriangle L p0 p1 p2 (n : Int) color1 color2 twist_angle center []).length / 6 =
      3 * 4 ^ n := by
  have hn : ((n : Int)).toNat = n := by simp
  have e1 := DivideTriangle_eq_leaves_aux L twist_angle center n (n : Int) hn p0 p1 p2
    color1 color2
  have e3 := TwistTriangle_eq_leaves_aux L twist_angle center n (n : Int) hn p0 p1 p2
    color1 color2
  refine ⟨⟨(leafTriangles n p0 p1 p2 color1 color2).flatMap (fun l =>
        [(twistPoint L twist_angle center l.q0, l.color),
         (twistPoint L twist_angle center l.q1, l.color),
         (twistPoint L twist_angle center l.q2, l.color)]), ?_, ?_, ?_⟩, ?_, ?_⟩
  · have : ∀ ls : List (Leaf K), (ls.flatMap (fun l =>
        [(twistPoint L twist_angle center l.q0, l.color),
         (twistPoint L twist_angle center l.q1, l.color),
         (twistPoint L twist_angle center l.q2, l.color)])).length = 3 * ls.length := by
      intro ls
      induction ls with
      | nil => simp
      | cons l ls ih =>
        simp only [List.flatMap_cons, List.length_append, ih, List.length_cons]
        simp
        ring
    rw [this, leafTriangles_length]
  · rw [e1 buf, leafFloats_eq_vertices]
  · rw [e3 buf, leafFloats_eq_vertices]
  · rw [e1 buf, List.length_append, flatMap_leafFloats_length, leafTriangles_length]
  · rw [e1 [], List.nil_append, flatMap_leafFloats_length, leafTriangles_length]
    omega

/-- C9. Examples 02 and 03 append the same floats; and the legacy example 01 issues, for
the same arguments, for each leaf triangle in the same order one `glColor3f` followed by
three `glVertex3f` whose values are the colour and the three positions that the buffer
holds for that triangle. -/
theorem DivideTriangle_examples_agree (L : Libm K) (p0 p1 p2 : Vec3 K) (level : Int)
    (color1 color2 : Vec3 K) (twist_angle : K) (center : Vec3 K) (buf : List K)
    (calls : List (GLCall K)) :
    TwistTriangle.DivideTriangle L p0 p1 p2 level color1 color2 twist_angle center buf =
      DivideTriangle L p0 p1 p2 level color1 color2 twist_angle center buf ∧
    ∃ tris : List (Vec3 K × Vec3 K × Vec3 K × Vec3 K),
      Legacy.DivideTriangle L p0 p1 p2 level color1 color2 twist_angle center calls =
        calls ++ tris.flatMap (fun t =>
          [GLCall.glColor3f t.1.x t.1.y t.1.z,
           GLCall.glVertex3f t.2.1.x t.2.1.y t.2.1.z,
           GLCall.glVertex3f t.2.2.1.x t.2.2.1.y t.2.2.1.z,
           GLCall.glVertex3f t.2.2.2.x t.2.2.2.y t.2.2.2.z]) ∧
      DivideTriangle L p0 p1 p2 level color1 color2 twist_angle center buf =
        buf ++ tris.flatMap (fun t =>
          [t.2.1.x, t.2.1.y, t.2.1.z, t.1.x, t.1.y, t.1.z,
           t.2.2.1.x, t.2.2.1.y, t.2.2.1.z, t.1.x, t.1.y, t.1.z,
           t.2.2.2.x, t.2.2.2.y, t.2.2.2.z, t.1.x, t.1.y, t.1.z]) := by
  have e1 := DivideTriangle_eq_leaves_aux L twist_angle center level.toNat level rfl p0 p1 p2
    color1 color2 buf
  have e2 := Legacy_eq_leaves_aux L twist_angle center level.toNat level rfl p0 p1 p2
    color1 color2 calls
  have e3 := TwistTriangle_eq_leaves_aux L twist_angle center level.toNat level rfl p0 p1 p2
    color1 color2 buf
  refine ⟨by rw [e1, e3], (leafTriangles level.toNat p0 p1 p2 color1 color2).map (fun l =>
    (l.color, twistPoint L twist_angle center l.q0, twistPoint L twist_angle center l.q1,
      twistPoint L twist_angle center l.q2)), ?_, ?_⟩
  · rw [e2]
    congr 1
    induction leafTriangles level.toNat p0 p1 p2 color1 color2 with
    | nil => simp
    | cons l ls ih => simp [leafCalls, ih]
  · rw [e1]
    congr 1
    induction leafTriangles level.toNat p0 p1 p2 color1 color2 with
    | nil => simp
    | cons l ls ih => simp [leafFloats, vertexFloats, ih]

end TriangleLemmas

section TriangleReal

theorem twistPoint_eq_rotate (L : Libm ℝ) (twist_angle : ℝ) (center p : Vec3 ℝ) :
    twistPoint L twist_angle center p =
      rotateAboutZ (L.cos (twist_angle * (p - center).norm L * L.kDEGtoRAD))
        (L.sin (twist_angle * (p - center).norm L * L.kDEGtoRAD)) center p := by
  apply Vec3.ext <;> simp [twistPoint, Mat3.mulVec, Mat3.Identity, rotateAboutZ] <;> ring

theorem rotateAboutZ_squaredNorm (c s : ℝ) (h : c ^ 2 + s ^ 2 = 1) (center p : Vec3 ℝ) :
    (rotateAboutZ c s center p - center).squaredNorm = (p - center).squaredNorm := by
  simp only [rotateAboutZ, Vec3.squaredNorm, Vec3.sub_x, Vec3.sub_y, Vec3.sub_z]
  have hc : c ^ 2 = 1 - s ^ 2 := by linarith
  ring_nf
  rw [hc]
  ring

/-- C3. At level `≤ 0` the three vertices `p0, p1, p2` are emitted in this order (as
floats in examples 02 and 03, as `glVertex3f` calls in example 01), each at
`center + R (p - center)` with `R` the rotation about the z axis by the angle
`twist_angle * |p - center|` (converted by `kDEGtoRAD`); over the reals the emitted point
has the distance of `p` from `center` and the z coordinate of `p`, `center` itself is not
moved, and with `twist_angle = 0` every point is emitted where it is. -/
theorem DivideTriangle_leaf_rotation (kDEGtoRAD kPi k2Pi : ℝ) (p0 p1 p2 : Vec3 ℝ)
    (level : Int) (color1 color2 : Vec3 ℝ) (twist_angle : ℝ) (center : Vec3 ℝ)
    (buf : List ℝ) (h : level ≤ 0) :
    let L : Libm ℝ := ⟨Real.cos, Real.sin, Real.sqrt, kDEGtoRAD, kPi, k2Pi⟩
    let dist : Vec3 ℝ → ℝ := fun p =>
      Real.sqrt ((p.x - center.x) ^ 2 + (p.y - center.y) ^ 2 + (p.z - center.z) ^ 2)
    let R : Vec3 ℝ → Vec3 ℝ := fun p =>
      rotateAboutZ (Real.cos (twist_angle * dist p * kDEGtoRAD))
        (Real.sin (twist_angle * dist p * kDEGtoRAD)) center p
    DivideTriangle L p0 p1 p2 level color1 color2 twist_angle center buf =
        buf ++ (vertexFloats (R p0) color1 ++ vertexFloats (R p1) color1 ++
          vertexFloats (R p2) color1) ∧
      TwistTriangle.DivideTriangle L p0 p1 p2 level color1 color2 twist_angle center buf =
        buf ++ (vertexFloats (R p0) color1 ++ vertexFloats (R p1) color1 ++
          vertexFloats (R p2) color1) ∧
      (∀ calls : List (GLCall ℝ),
        Legacy.DivideTriangle L p0 p1 p2 level color1 color2 twist_angle center calls =
          calls ++ [GLCall.glColor3f color1.x color1.y color1.z,
            GLCall.glVertex3f (R p0).x (R p0).y (R p0).z,
            GLCall.glVertex3f (R p1).x (R p1).y (R p1).z,
            GLCall.glVertex3f (R p2).x (R p2).y (R p2).z]) ∧
      (∀ p, dist (R p) = dist p ∧ (R p).z = p.z) ∧
      R center = center ∧
      (twist_angle = 0 → ∀ p, R p = p) := by
  intro L dist R
  have hnorm : ∀ p : Vec3 ℝ, (p - center).norm L = dist p := by
    intro p
    simp only [Vec3.norm, Vec3.squaredNorm, Vec3.sub_x, Vec3.sub_y, Vec3.sub_z, dist, L]
    congr 1
    ring
  have htw : ∀ p : Vec3 ℝ, twistPoint L twist_angle center p = R p := by
    intro p
    rw [twistPoint_eq_rotate, hnorm]
  have h0 : level.toNat = 0 := by omega
  refine ⟨?_, ?_, ?_, ?_, ?_, ?_⟩
  · rw [DivideTriangle_leaf L p0 p1 p2 level color1 color2 twist_angle center buf h]
    simp only [leafFloats, htw]
  · rw [TwistTriangle_eq_leaves_aux L twist_angle center 0 level h0]
    simp only [leafTriangles, List.flatMap_cons, List.flatMap_nil, List.append_nil,
      leafFloats, htw]
  · intro calls
    rw [Legacy_eq_leaves_aux L twist_angle center 0 level h0]
    simp only [leafTriangles, List.flatMap_cons, List.flatMap_nil, List.append_nil,
      leafCalls, htw]
  · intro p
    constructor
    · have h1 := rotateAboutZ_squaredNorm (Real.cos (twist_angle * dist p * kDEGtoRAD))
        (Real.sin (twist_angle * dist p * kDEGtoRAD))
        (Real.cos_sq_add_sin_sq _) center p
      have h2 := hnorm (R p)
      have h3 := hnorm p
      rw [← h2, ← h3]
      simp only [Vec3.norm]
      exact congrArg L.sqrt h1
    · simp [R, rotateAboutZ]
  · apply Vec3.ext <;> simp [R, rotateAboutZ]
  · intro h0 p
    apply Vec3.ext <;> simp [R, rotateAboutZ, h0]

/-- Witness for C3 at level `0`: the twist of the centre is the centre. -/
theorem DivideTriangle_leaf_rotation_witness :
    rotateAboutZ
        (Real.cos (2 * Real.sqrt (((0 : ℝ) - 0) ^ 2 + ((0 : ℝ) - 0) ^ 2 + ((0 : ℝ) - 0) ^ 2)
          * (Real.pi / 180)))
        (Real.sin (2 * Real.sqrt (((0 : ℝ) - 0) ^ 2 + ((0 : ℝ) - 0) ^ 2 + ((0 : ℝ) - 0) ^ 2)
          * (Real.pi / 180)))
        (⟨0, 0, 0⟩ : Vec3 ℝ) ⟨0, 0, 0⟩ = ⟨0, 0, 0⟩ :=
  (DivideTriangle_leaf_rotation (Real.pi / 180) Real.pi (2 * Real.pi) ⟨0, 1, 0⟩ ⟨1, 0, 0⟩ ⟨-1, 0, 0⟩ 0 ⟨1, 0, 0⟩ ⟨0, 1, 0⟩ 2
    ⟨0, 0, 0⟩ [] (le_refl 0)).2.2.2.2.1

/-- C2. For every level `n ≥ 1` the output (examples 02 and 03, which compute the same
function) is the concatenation of the outputs at level
`n - 1` of the corner children `(p0,m01,m02)`, `(m01,p1,m12)`, `(m02,m12,p2)` with
`(color1, color2)` and of the centre child `(m01,m12,m02)` with the colours swapped,
`mij = (pi + pj) / 2`; each corner child is the parent scaled by `1/2` about that corner
and the centre child is the parent scaled by `-1/2` about the centroid, its vertices
listed from the image of `p2` on. -/
theorem DivideTriangle_children (L : Libm ℝ) (p0 p1 p2 : Vec3 ℝ) (level : Int)
    (color1 color2 : Vec3 ℝ) (twist_angle : ℝ) (center : Vec3 ℝ) (h : 1 ≤ level) :
    let m01 : Vec3 ℝ := Vec3.sdiv (p0 + p1) 2
    let m02 : Vec3 ℝ := Vec3.sdiv (p0 + p2) 2
    let m12 : Vec3 ℝ := Vec3.sdiv (p1 + p2) 2
    let g : Vec3 ℝ := Vec3.sdiv (p0 + p1 + p2) 3
    let out : Vec3 ℝ → Vec3 ℝ → Vec3 ℝ → Vec3 ℝ → Vec3 ℝ → List ℝ := fun a b c col1 col2 =>
      DivideTriangle L a b c (level - 1) col1 col2 twist_angle center []
    (∀ buf : List ℝ,
      DivideTriangle L p0 p1 p2 level color1 color2 twist_angle center buf =
        buf ++ (out p0 m01 m02 color1 color2 ++ out m01 p1 m12 color1 color2 ++
          out m02 m12 p2 color1 color2 ++ out m01 m12 m02 color2 color1)) ∧
    (∀ (a b c col1 col2 : Vec3 ℝ) (l : Int) (buf : List ℝ),
      TwistTriangle.DivideTriangle L a b c l col1 col2 twist_angle center buf =
        DivideTriangle L a b c l col1 col2 twist_angle center buf) ∧
    (p0, m01, m02) = (scaleAbout (1 / 2) p0 p0, scaleAbout (1 / 2) p0 p1,
      scaleAbout (1 / 2) p0 p2) ∧
    (m01, p1, m12) = (scaleAbout (1 / 2) p1 p0, scaleAbout (1 / 2) p1 p1,
      scaleAbout (1 / 2) p1 p2) ∧
    (m02, m12, p2) = (scaleAbout (1 / 2) p2 p0, scaleAbout (1 / 2) p2 p1,
      scaleAbout (1 / 2) p2 p2) ∧
    (m01, m12, m02) = (scaleAbout (-(1 / 2)) g p2, scaleAbout (-(1 / 2)) g p0,
      scaleAbout (-(1 / 2)) g p1) := by
  intro m01 m02 m12 g out
  have hm : ∀ a b : Vec3 ℝ, Vec3.smul (1 / 2) (a + b) = Vec3.sdiv (a + b) 2 := by
    intro a b
    apply Vec3.ext <;> simp <;> ring
  refine ⟨?_, ?_, ?_, ?_, ?_, ?_⟩
  rotate_left
  · intro a b c col1 col2 l buf
    rw [TwistTriangle_eq_leaves_aux L twist_angle center l.toNat l rfl,
      DivideTriangle_eq_leaves_aux L twist_angle center l.toNat l rfl]
  rotate_right
  · intro buf
    have h0 : 0 < level := by omega
    rw [DivideTriangle_split L p0 p1 p2 level color1 color2 twist_angle center buf h0]
    simp only [hm]
    simp only [out]
    rw [DivideTriangle_eq_leaves L _ _ _ (level - 1) color2 color1,
      DivideTriangle_eq_leaves L _ _ _ (level - 1) color1 color2,
      DivideTriangle_eq_leaves L _ _ _ (level - 1) color1 color2,
      DivideTriangle_eq_leaves L _ _ _ (level - 1) color1 color2,
      DivideTriangle_eq_leaves L _ _ _ (level - 1) color2 color1 twist_angle center [],
      DivideTriangle_eq_leaves L _ _ _ (level - 1) color1 color2 twist_angle center [],
      DivideTriangle_eq_leaves L _ _ _ (level - 1) color1 color2 twist_angle center [],
      DivideTriangle_eq_leaves L _ _ _ (level - 1) color1 color2 twist_angle center []]
    simp [List.append_assoc]
  all_goals
    simp only [Prod.mk.injEq]
    refine ⟨?_, ?_, ?_⟩ <;> apply Vec3.ext <;>
      simp [scaleAbout, m01, m02, m12, g] <;> ring

/-- Witness for C2 at level `1`. -/
theorem DivideTriangle_children_witness :
    ((Vec3.sdiv ((⟨0, 1, 0⟩ : Vec3 ℝ) + ⟨1, 0, 0⟩) 2, (⟨1, 0, 0⟩ : Vec3 ℝ),
      Vec3.sdiv ((⟨1, 0, 0⟩ : Vec3 ℝ) + ⟨-1, 0, 0⟩) 2) =
      (scaleAbout (1 / 2) (⟨1, 0, 0⟩ : Vec3 ℝ) ⟨0, 1, 0⟩,
       scaleAbout (1 / 2) (⟨1, 0, 0⟩ : Vec3 ℝ) ⟨1, 0, 0⟩,
       scaleAbout (1 / 2) (⟨1, 0, 0⟩ : Vec3 ℝ) ⟨-1, 0, 0⟩)) :=
  (DivideTriangle_children ⟨Real.cos, Real.sin, Real.sqrt, Real.pi / 180, Real.pi, 2 * Real.pi⟩ ⟨0, 1, 0⟩ ⟨1, 0, 0⟩
    ⟨-1, 0, 0⟩ 1 ⟨1, 0, 0⟩ ⟨0, 1, 0⟩ 2 ⟨0, 0, 0⟩ (le_refl 1)).2.2.2.1

theorem CyclicEq_shift {α : Type} {a : α × α × α} {x y z : α}
    (h : CyclicEq a (x, y, z)) : CyclicEq a (y, z, x) := by
  rcases h with h | h | h
  · exact Or.inr (Or.inr (by simpa using h))
  · exact Or.inl (by simpa using h)
  · exact Or.inr (Or.inl (by simpa using h))

theorem CyclicEq_of_eq {α : Type} {a b c : α × α × α} (h : CyclicEq a b) (hbc : b = c) :
    CyclicEq a c := hbc ▸ h

/-- Leaves of a corner child, seen from the parent: same orientation. -/
theorem corner_translate (s : ℝ) (t o p0 p1 p2 : Vec3 ℝ) :
    (t + Vec3.smul s (Vec3.smul (1 / 2) (o + p0)),
     t + Vec3.smul s (Vec3.smul (1 / 2) (o + p1)),
     t + Vec3.smul s (Vec3.smul (1 / 2) (o + p2))) =
    ((t + Vec3.smul (s * (1 / 2)) o) + Vec3.smul (s * (1 / 2)) p0,
     (t + Vec3.smul (s * (1 / 2)) o) + Vec3.smul (s * (1 / 2)) p1,
     (t + Vec3.smul (s * (1 / 2)) o) + Vec3.smul (s * (1 / 2)) p2) := by
  simp only [Prod.mk.injEq]
  refine ⟨?_, ?_, ?_⟩ <;> apply Vec3.ext <;> simp <;> ring

/-- Leaves of the centre child, seen from the parent: opposite orientation, shifted. -/
theorem centre_translate (s : ℝ) (t p0 p1 p2 : Vec3 ℝ) :
    (t + Vec3.smul s (Vec3.smul (1 / 2) (p0 + p1)),
     t + Vec3.smul s (Vec3.smul (1 / 2) (p1 + p2)),
     t + Vec3.smul s (Vec3.smul (1 / 2) (p0 + p2))) =
    ((t + Vec3.smul (s * (1 / 2)) (p0 + p1 + p2)) + Vec3.smul (-(s * (1 / 2))) p2,
     (t + Vec3.smul (s * (1 / 2)) (p0 + p1 + p2)) + Vec3.smul (-(s * (1 / 2))) p0,
     (t + Vec3.smul (s * (1 / 2)) (p0 + p1 + p2)) + Vec3.smul (-(s * (1 / 2))) p1) := by
  simp only [Prod.mk.injEq]
  refine ⟨?_, ?_, ?_⟩ <;> apply Vec3.ext <;> simp <;> ring

theorem sameWay_of_corner (n : Nat) (o p0 p1 p2 r0 r1 r2 : Vec3 ℝ) (l : Leaf ℝ)
    (h0 : r0 = Vec3.smul (1 / 2) (o + p0)) (h1 : r1 = Vec3.smul (1 / 2) (o + p1))
    (h2 : r2 = Vec3.smul (1 / 2) (o + p2))
    (h : PointsSameWay n r0 r1 r2 l) : PointsSameWay (n + 1) p0 p1 p2 l := by
  subst h0 h1 h2
  obtain ⟨t, ht⟩ := h
  refine ⟨t + Vec3.smul ((1 / 2) ^ n * (1 / 2)) o, ?_⟩
  rw [corner_translate] at ht
  rw [pow_succ]
  exact ht

theorem oppositeWay_of_corner (n : Nat) (o p0 p1 p2 r0 r1 r2 : Vec3 ℝ) (l : Leaf ℝ)
    (h0 : r0 = Vec3.smul (1 / 2) (o + p0)) (h1 : r1 = Vec3.smul (1 / 2) (o + p1))
    (h2 : r2 = Vec3.smul (1 / 2) (o + p2))
    (h : PointsOppositeWay n r0 r1 r2 l) : PointsOppositeWay (n + 1) p0 p1 p2 l := by
  subst h0 h1 h2
  obtain ⟨t, ht⟩ := h
  refine ⟨t + Vec3.smul (-(1 / 2) ^ n * (1 / 2)) o, ?_⟩
  rw [corner_translate] at ht
  rw [pow_succ, ← neg_mul]
  exact ht

theorem oppositeWay_of_centre (n : Nat) (p0 p1 p2 : Vec3 ℝ) (l : Leaf ℝ)
    (h : PointsSameWay n (Vec3.smul (1 / 2) (p0 + p1)) (Vec3.smul (1 / 2) (p1 + p2))
      (Vec3.smul (1 / 2) (p0 + p2)) l) : PointsOppositeWay (n + 1) p0 p1 p2 l := by
  obtain ⟨t, ht⟩ := h
  refine ⟨t + Vec3.smul ((1 / 2) ^ n * (1 / 2)) (p0 + p1 + p2), ?_⟩
  rw [centre_translate] at ht
  rw [pow_succ]
  exact CyclicEq_shift ht

theorem sameWay_of_centre (n : Nat) (p0 p1 p2 : Vec3 ℝ) (l : Leaf ℝ)
    (h : PointsOppositeWay n (Vec3.smul (1 / 2) (p0 + p1)) (Vec3.smul (1 / 2) (p1 + p2))
      (Vec3.smul (1 / 2) (p0 + p2)) l) : PointsSameWay (n + 1) p0 p1 p2 l := by
  obtain ⟨t, ht⟩ := h
  refine ⟨t + Vec3.smul (-(1 / 2) ^ n * (1 / 2)) (p0 + p1 + p2), ?_⟩
  rw [centre_translate] at ht
  rw [pow_succ]
  have e : -(-(1 / 2 : ℝ) ^ n * (1 / 2)) = (1 / 2) ^ n * (1 / 2) := by ring
  rw [e] at ht
  exact CyclicEq_shift ht

/-- Every leaf either points the way of the input and has the first colour, or points the
opposite way and has the second colour. -/
theorem leaf_orientation_colour (n : Nat) :
    ∀ (p0 p1 p2 color1 color2 : Vec3 ℝ), ∀ l ∈ leafTriangles n p0 p1 p2 color1 color2,
      (PointsSameWay n p0 p1 p2 l ∧ l.color = color1) ∨
      (PointsOppositeWay n p0 p1 p2 l ∧ l.color = color2) := by
  induction n with
  | zero =>
    intro p0 p1 p2 color1 color2 l hl
    simp only [leafTriangles, List.mem_singleton] at hl
    subst hl
    refine Or.inl ⟨⟨⟨0, 0, 0⟩, Or.inl ?_⟩, rfl⟩
    simp only [Prod.mk.injEq]
    refine ⟨?_, ?_, ?_⟩ <;> apply Vec3.ext <;> simp
  | succ n ih =>
    intro p0 p1 p2 color1 color2 l hl
    simp only [leafTriangles, List.mem_append] at hl
    rcases hl with ((hl | hl) | hl) | hl
    · rcases ih _ _ _ _ _ l hl with ⟨hs, hc⟩ | ⟨ho, hc⟩
      · refine Or.inl ⟨sameWay_of_corner n p0 p0 p1 p2 _ _ _ l ?_ ?_ ?_ hs, hc⟩ <;>
          apply Vec3.ext <;> simp <;> ring
      · refine Or.inr ⟨oppositeWay_of_corner n p0 p0 p1 p2 _ _ _ l ?_ ?_ ?_ ho, hc⟩ <;>
          apply Vec3.ext <;> simp <;> ring
    · rcases ih _ _ _ _ _ l hl with ⟨hs, hc⟩ | ⟨ho, hc⟩
      · refine Or.inl ⟨sameWay_of_corner n p1 p0 p1 p2 _ _ _ l ?_ ?_ ?_ hs, hc⟩ <;>
          apply Vec3.ext <;> simp <;> ring
      · refine Or.inr ⟨oppositeWay_of_corner n p1 p0 p1 p2 _ _ _ l ?_ ?_ ?_ ho, hc⟩ <;>
          apply Vec3.ext <;> simp <;> ring
    · rcases ih _ _ _ _ _ l hl with ⟨hs, hc⟩ | ⟨ho, hc⟩
      · refine Or.inl ⟨sameWay_of_corner n p2 p0 p1 p2 _ _ _ l ?_ ?_ ?_ hs, hc⟩ <;>
          apply Vec3.ext <;> simp <;> ring
      · refine Or.inr ⟨oppositeWay_of_corner n p2 p0 p1 p2 _ _ _ l ?_ ?_ ?_ ho, hc⟩ <;>
          apply Vec3.ext <;> simp <;> ring
    · rcases ih _ _ _ _ _ l hl with ⟨hs, hc⟩ | ⟨ho, hc⟩
      · exact Or.inr ⟨oppositeWay_of_centre n p0 p1 p2 l hs, hc⟩
      · exact Or.inl ⟨sameWay_of_centre n p0 p1 p2 l ho, hc⟩

/-- A leaf can point both ways only when the input triangle is a single point. -/
theorem sameWay_oppositeWay_degenerate (n : Nat) (p0 p1 p2 : Vec3 ℝ) (l : Leaf ℝ)
    (hs : PointsSameWay n p0 p1 p2 l) (ho : PointsOppositeWay n p0 p1 p2 l) :
    p0 = p1 ∧ p1 = p2 := by
  obtain ⟨t, h1⟩ := hs
  obtain ⟨u, h2⟩ := ho
  have hpos : ((1 : ℝ) / 2) ^ n ≠ 0 := pow_ne_zero n (by norm_num)
  generalize ((1 : ℝ) / 2) ^ n = s at h1 h2 hpos
  rcases h1 with h1 | h1 | h1 <;> rcases h2 with h2 | h2 | h2 <;>
  · have e := h1.symm.trans h2
    simp only [Prod.mk.injEq] at e
    obtain ⟨e0, e1, e2⟩ := e
    have x0 := congrArg Vec3.x e0
    have x1 := congrArg Vec3.x e1
    have x2 := congrArg Vec3.x e2
    have y0 := congrArg Vec3.y e0
    have y1 := congrArg Vec3.y e1
    have y2 := congrArg Vec3.y e2
    have z0 := congrArg Vec3.z e0
    have z1 := congrArg Vec3.z e1
    have z2 := congrArg Vec3.z e2
    simp only [Vec3.add_x, Vec3.add_y, Vec3.add_z, Vec3.smul_x, Vec3.smul_y, Vec3.smul_z,
      neg_mul] at x0 x1 x2 y0 y1 y2 z0 z1 z2
    constructor <;> apply Vec3.ext <;> apply mul_left_cancel₀ hpos <;> linarith

/-- Why "up to cyclic vertex order" is needed for the leaves that point the way of the
input as well: at level `2` the centre child of the centre child of the triangle
`(0,1,0), (1,0,0), (-1,0,0)` is a leaf with the first colour, and its vertices, in the
order of emission, are not a translate of `p0, p1, p2` scaled by `2^-2` in that order. -/
theorem centre_of_centre_leaf_shifted (color1 color2 : Vec3 ℝ) :
    ∃ l ∈ leafTriangles 2 (⟨0, 1, 0⟩ : Vec3 ℝ) ⟨1, 0, 0⟩ ⟨-1, 0, 0⟩ color1 color2,
      l.color = color1 ∧
      PointsSameWay 2 (⟨0, 1, 0⟩ : Vec3 ℝ) ⟨1, 0, 0⟩ ⟨-1, 0, 0⟩ l ∧
      ¬ ∃ t : Vec3 ℝ, (l.q0, l.q1, l.q2) =
        (t + Vec3.smul ((1 / 2) ^ 2) (⟨0, 1, 0⟩ : Vec3 ℝ),
         t + Vec3.smul ((1 / 2) ^ 2) (⟨1, 0, 0⟩ : Vec3 ℝ),
         t + Vec3.smul ((1 / 2) ^ 2) (⟨-1, 0, 0⟩ : Vec3 ℝ)) := by
  have hmem : (⟨Vec3.smul (1 / 2) (Vec3.smul (1 / 2) ((⟨0, 1, 0⟩ : Vec3 ℝ) + ⟨1, 0, 0⟩) +
        Vec3.smul (1 / 2) ((⟨1, 0, 0⟩ : Vec3 ℝ) + ⟨-1, 0, 0⟩)),
      Vec3.smul (1 / 2) (Vec3.smul (1 / 2) ((⟨1, 0, 0⟩ : Vec3 ℝ) + ⟨-1, 0, 0⟩) +
        Vec3.smul (1 / 2) ((⟨0, 1, 0⟩ : Vec3 ℝ) + ⟨-1, 0, 0⟩)),
      Vec3.smul (1 / 2) (Vec3.smul (1 / 2) ((⟨0, 1, 0⟩ : Vec3 ℝ) + ⟨1, 0, 0⟩) +
        Vec3.smul (1 / 2) ((⟨0, 1, 0⟩ : Vec3 ℝ) + ⟨-1, 0, 0⟩)), color1⟩ : Leaf ℝ) ∈
      leafTriangles 2 (⟨0, 1, 0⟩ : Vec3 ℝ) ⟨1, 0, 0⟩ ⟨-1, 0, 0⟩ color1 color2 := by
    simp only [leafTriangles, List.mem_append, List.mem_singleton, or_true]
  refine ⟨_, hmem, rfl, ?_, ?_⟩
  · rcases leaf_orientation_colour 2 _ _ _ color1 color2 _ hmem with ⟨hs, -⟩ | ⟨ho, -⟩
    · exact hs
    · exfalso
      obtain ⟨t, ht⟩ := ho
      rcases ht with ht | ht | ht <;>
      · simp only [Prod.mk.injEq] at ht
        obtain ⟨e0, e1, e2⟩ := ht
        have x0 := congrArg Vec3.x e0
        have x1 := congrArg Vec3.x e1
        have x2 := congrArg Vec3.x e2
        have y0 := congrArg Vec3.y e0
        have y1 := congrArg Vec3.y e1
        have y2 := congrArg Vec3.y e2
        simp only [Vec3.add_x, Vec3.add_y, Vec3.smul_x, Vec3.smul_y] at x0 x1 x2 y0 y1 y2
        norm_num at x0 x1 x2 y0 y1 y2
        linarith
  · rintro ⟨t, ht⟩
    simp only [Prod.mk.injEq] at ht
    obtain ⟨e0, e1, -⟩ := ht
    have x0 := congrArg Vec3.x e0
    have x1 := congrArg Vec3.x e1
    simp only [Vec3.add_x, Vec3.smul_x] at x0 x1
    norm_num at x0 x1
    linarith

/-- C10, as amended. For every level `n ≥ 0` and every input triangle whose vertices are
not all the same point: the buffer is the floats of the leaves of the recursion, each leaf
with one colour on its three vertices; a leaf that points the way of the input (a
translate of the input scaled by `2^-n`, up to cyclic vertex order) has `color1`, a leaf
that points the opposite way (scaled by `-2^-n`) has `color2`, and every leaf is of one of
the two kinds. -/
theorem DivideTriangle_leaf_colours (L : Libm ℝ) (p0 p1 p2 : Vec3 ℝ) (n : Nat)
    (color1 color2 : Vec3 ℝ) (twist_angle : ℝ) (center : Vec3 ℝ) (buf : List ℝ)
    (hnd : ¬ (p0 = p1 ∧ p1 = p2)) :
    DivideTriangle L p0 p1 p2 (n : Int) color1 color2 twist_angle center buf =
      buf ++ (leafTriangles n p0 p1 p2 color1 color2).flatMap
        (leafFloats L twist_angle center) ∧
    ∀ l ∈ leafTriangles n p0 p1 p2 color1 color2,
      (PointsSameWay n p0 p1 p2 l → l.color = color1) ∧
      (PointsOppositeWay n p0 p1 p2 l → l.color = color2) ∧
      (PointsSameWay n p0 p1 p2 l ∨ PointsOppositeWay n p0 p1 p2 l) := by
  refine ⟨DivideTriangle_eq_leaves_aux L twist_angle center n (n : Int) (by simp) p0 p1 p2
    color1 color2 buf, ?_⟩
  intro l hl
  rcases leaf_orientation_colour n p0 p1 p2 color1 color2 l hl with ⟨hs, hc⟩ | ⟨ho, hc⟩
  · exact ⟨fun _ => hc,
      fun ho => absurd (sameWay_oppositeWay_degenerate n p0 p1 p2 l hs ho) hnd, Or.inl hs⟩
  · exact ⟨fun hs => absurd (sameWay_oppositeWay_degenerate n p0 p1 p2 l hs ho) hnd,
      fun _ => hc, Or.inr ho⟩

/-- Witness for the amended C10: the root triangle of the examples at level `1`. -/
theorem DivideTriangle_leaf_colours_witness :
    DivideTriangle ⟨Real.cos, Real.sin, Real.sqrt, Real.pi / 180, Real.pi, 2 * Real.pi⟩ (⟨0, 1, 0⟩ : Vec3 ℝ) ⟨1, 0, 0⟩
        ⟨-1, 0, 0⟩ ((1 : Nat) : Int) ⟨1, 0, 0⟩ ⟨0, 1, 0⟩ 2 ⟨0, 0, 0⟩ [] =
      [] ++ (leafTriangles 1 (⟨0, 1, 0⟩ : Vec3 ℝ) ⟨1, 0, 0⟩ ⟨-1, 0, 0⟩ ⟨1, 0, 0⟩
        ⟨0, 1, 0⟩).flatMap (leafFloats ⟨Real.cos, Real.sin, Real.sqrt, Real.pi / 180, Real.pi, 2 * Real.pi⟩ 2 ⟨0, 0, 0⟩) :=
  (DivideTriangle_leaf_colours ⟨Real.cos, Real.sin, Real.sqrt, Real.pi / 180, Real.pi, 2 * Real.pi⟩ ⟨0, 1, 0⟩ ⟨1, 0, 0⟩
    ⟨-1, 0, 0⟩ 1 ⟨1, 0, 0⟩ ⟨0, 1, 0⟩ 2 ⟨0, 0, 0⟩ []
    (by
      intro h
      have := congrArg Vec3.x h.1
      norm_num at this)).1

/-- C10 fails as stated: for the triangle whose three vertices are the origin, at level
`0`, the one leaf is emitted with `color1 = (1,0,0)` although it is a translate of the
input scaled by `-1`, for which the claim asks `color2 = (0,1,0)`. -/
theorem DivideTriangle_leaf_colours_degenerate :
    ¬ (∀ l ∈ leafTriangles 0 (⟨0, 0, 0⟩ : Vec3 ℝ) ⟨0, 0, 0⟩ ⟨0, 0, 0⟩ ⟨1, 0, 0⟩ ⟨0, 1, 0⟩,
      (PointsSameWay 0 (⟨0, 0, 0⟩ : Vec3 ℝ) ⟨0, 0, 0⟩ ⟨0, 0, 0⟩ l → l.color = ⟨1, 0, 0⟩) ∧
      (PointsOppositeWay 0 (⟨0, 0, 0⟩ : Vec3 ℝ) ⟨0, 0, 0⟩ ⟨0, 0, 0⟩ l →
        l.color = ⟨0, 1, 0⟩) ∧
      (PointsSameWay 0 (⟨0, 0, 0⟩ : Vec3 ℝ) ⟨0, 0, 0⟩ ⟨0, 0, 0⟩ l ∨
        PointsOppositeWay 0 (⟨0, 0, 0⟩ : Vec3 ℝ) ⟨0, 0, 0⟩ ⟨0, 0, 0⟩ l)) ∧
    DivideTriangle ⟨Real.cos, Real.sin, Real.sqrt, Real.pi / 180, Real.pi, 2 * Real.pi⟩ (⟨0, 0, 0⟩ : Vec3 ℝ) ⟨0, 0, 0⟩
        ⟨0, 0, 0⟩ 0 ⟨1, 0, 0⟩ ⟨0, 1, 0⟩ 0 ⟨0, 0, 0⟩ [] =
      [0, 0, 0, 1, 0, 0, 0, 0, 0, 1, 0, 0, 0, 0, 0, 1, 0, 0] := by
  constructor
  · intro h
    have h1 := (h ⟨⟨0, 0, 0⟩, ⟨0, 0, 0⟩, ⟨0, 0, 0⟩, ⟨1, 0, 0⟩⟩
      (by simp [leafTriangles])).2.1
      ⟨⟨0, 0, 0⟩, Or.inl (by
        simp only [Prod.mk.injEq]
        refine ⟨?_, ?_, ?_⟩ <;> apply Vec3.ext <;> simp)⟩
    have h2 := congrArg Vec3.x h1
    norm_num at h2
  · rw [DivideTriangle_leaf _ _ _ _ _ _ _ _ _ _ (le_refl 0)]
    simp [leafFloats, vertexFloats, twistPoint, Mat3.mulVec, Mat3.Identity, Vec3.norm,
      Vec3.squaredNorm]

end TriangleReal

/-! ## The sphere builder: what the loops compute -/

theorem BuildState_eq {K : Type} {a b : BuildState K} (h1 : a.positions = b.positions)
    (h2 : a.normals = b.normals) (h3 : a.vertex_indices = b.vertex_indices)
    (h4 : a.vertex_id = b.vertex_id) (h5 : a.face_indices = b.face_indices) : a = b := by
  cases a
  cases b
  simp_all

/-- A loop whose body only appends entries read from the table. -/
theorem forLoop_faces {K : Type} (g : MatXi → Nat → List (Option Int))
    (body : BuildState K → Nat → BuildState K)
    (hb : ∀ s i, body s i = { s with face_indices := s.face_indices ++ g s.vertex_indices i })
    (lo hi : Nat) (s : BuildState K) :
    forLoop lo hi body s =
      { s with face_indices :=
          s.face_indices ++ (List.range' lo (hi - lo)).flatMap (g s.vertex_indices) } := by
  unfold forLoop
  generalize List.range' lo (hi - lo) = l
  induction l generalizing s with
  | nil => simp
  | cons a l ih =>
    rw [List.foldl_cons, ih, hb]
    simp [List.append_assoc]

section SphereLoops

set_option linter.unusedSectionVars false

variable {K : Type} [LinearOrderedField K]

theorem forLoop_succ {σ : Type} (lo hi : Nat) (body : σ → Nat → σ) (s : σ) (h : lo ≤ hi) :
    forLoop lo (hi + 1) body s = body (forLoop lo hi body s) hi := by
  unfold forLoop
  have e : hi + 1 - lo = (hi - lo) + 1 := by omega
  rw [e, List.range'_1_concat, List.foldl_append]
  have e2 : lo + (hi - lo) = hi := by omega
  simp [e2]

theorem forLoop_self {σ : Type} (lo : Nat) (body : σ → Nat → σ) (s : σ) :
    forLoop lo lo body s = s := by
  simp [forLoop]

/-- One ring of the vertex loop. -/
theorem vertexRow (L : Libm K) (center : Vec3 K) (radius ps ts dphi dtheta : K) (j : Nat)
    (m : Nat) (s : BuildState K) :
    forLoop 0 m (vertexBody L center radius ps ts dphi dtheta j) s =
      ⟨s.positions ++ (List.range' 0 m).map
          (fun i => center + gridPoint L radius ps ts dphi dtheta j i),
       s.normals ++ (List.range' 0 m).map
          (fun i => (gridPoint L radius ps ts dphi dtheta j i).normalized L),
       fun r c => if r = j ∧ c < m then some (s.vertex_id + (c : Int))
          else s.vertex_indices r c,
       s.vertex_id + (m : Int), s.face_indices⟩ := by
  induction m with
  | zero =>
    apply BuildState_eq <;> simp [forLoop_self]
  | succ m ih =>
    rw [forLoop_succ 0 m _ s (Nat.zero_le m), ih]
    apply BuildState_eq
    · simp [vertexBody, push_back, gridPoint, List.range'_1_concat]
    · simp [vertexBody, push_back, gridPoint, List.range'_1_concat]
    · funext r c
      simp only [vertexBody, MatXi.assign]
      by_cases h1 : r = j ∧ c = m
      · obtain ⟨hr, hc⟩ := h1
        subst hr hc
        simp
      · simp only [h1, if_false]
        by_cases h2 : r = j ∧ c < m
        · have h3 : r = j ∧ c < m + 1 := ⟨h2.1, by omega⟩
          simp [h2, h3]
        · have h3 : ¬ (r = j ∧ c < m + 1) := by
            intro h
            rcases Nat.lt_succ_iff_lt_or_eq.mp h.2 with h4 | h4
            · exact h2 ⟨h.1, h4⟩
            · exact h1 ⟨h.1, h4⟩
          simp [h2, h3]
    · simp only [vertexBody]
      push_cast
      ring
    · simp [vertexBody]

/-- The whole vertex loop: rings `1` to `m`. -/
theorem vertexLoop (L : Libm K) (center : Vec3 K) (radius ps ts dphi dtheta : K)
    (grid_nx : Nat) (m : Nat) (s : BuildState K) :
    forLoop 1 (m + 1) (fun s j =>
        forLoop 0 grid_nx (vertexBody L center radius ps ts dphi dtheta j) s) s =
      ⟨s.positions ++ (List.range' 1 m).flatMap (fun j => (List.range' 0 grid_nx).map
          (fun i => center + gridPoint L radius ps ts dphi dtheta j i)),
       s.normals ++ (List.range' 1 m).flatMap (fun j => (List.range' 0 grid_nx).map
          (fun i => (gridPoint L radius ps ts dphi dtheta j i).normalized L)),
       fun r c => if 1 ≤ r ∧ r ≤ m ∧ c < grid_nx
          then some (s.vertex_id + (((r - 1) * grid_nx + c : Nat) : Int))
          else s.vertex_indices r c,
       s.vertex_id + ((m * grid_nx : Nat) : Int), s.face_indices⟩ := by
  induction m with
  | zero =>
    apply BuildState_eq
    · simp [forLoop_self]
    · simp [forLoop_self]
    · funext r c
      have h : ¬ (1 ≤ r ∧ r ≤ 0 ∧ c < grid_nx) := by omega
      simp only [forLoop_self, h, if_false]
    · simp [forLoop_self]
    · simp [forLoop_self]
  | succ m ih =>
    rw [forLoop_succ 1 (m + 1) _ s (by omega), ih, vertexRow]
    apply BuildState_eq
    · simp [List.range'_1_concat, Nat.add_comm 1 m]
    · simp [List.range'_1_concat, Nat.add_comm 1 m]
    · funext r c
      simp only []
      by_cases h1 : r = m + 1
      · subst h1
        by_cases h2 : c < grid_nx
        · have h3 : 1 ≤ m + 1 ∧ m + 1 ≤ m + 1 ∧ c < grid_nx := ⟨by omega, le_refl _, h2⟩
          simp only [h2, h3, and_self, if_true, Option.some.injEq]
          rw [Nat.add_sub_cancel]
          push_cast
          ring
        · have h3 : ¬ (1 ≤ m + 1 ∧ m + 1 ≤ m + 1 ∧ c < grid_nx) := fun h => h2 h.2.2
          have h4 : ¬ (1 ≤ m + 1 ∧ m + 1 ≤ m ∧ c < grid_nx) := fun h => h2 h.2.2
          simp [h2, h3, h4]
      · have h5 : (r ≤ m + 1) ↔ (r ≤ m) := by omega
        simp only [h1, false_and, if_false, h5]
    · simp only []
      push_cast
      ring
    · simp

theorem quadLoop (grid_nx lo hi : Nat) (s : BuildState K) :
    forLoop lo hi (fun s j => forLoop 0 grid_nx (quadBody grid_nx j) s) s =
      { s with face_indices := (s.face_indices ++ (List.range' lo (hi - lo)).flatMap
          (fun j => (List.range' 0 grid_nx).flatMap (quadEntries grid_nx s.vertex_indices j))) } := by
  apply forLoop_faces (fun T j => (List.range' 0 grid_nx).flatMap (quadEntries grid_nx T j))
  intro s j
  rw [forLoop_faces (fun T i => quadEntries grid_nx T j i) (quadBody grid_nx j)]
  · simp
  · intro s i
    simp [quadBody, quadEntries, push_back]

theorem bottomLoop (grid_nx : Nat) (bottom_index : Int) (s : BuildState K) :
    forLoop 0 grid_nx (bottomBody grid_nx bottom_index) s =
      { s with face_indices := (s.face_indices ++ (List.range' 0 grid_nx).flatMap
          (bottomEntries grid_nx bottom_index s.vertex_indices)) } := by
  rw [forLoop_faces (fun T i => bottomEntries grid_nx bottom_index T i)
    (bottomBody grid_nx bottom_index)]
  · simp
  · intro s i
    simp [bottomBody, bottomEntries, push_back]

theorem topLoop (grid_nx grid_ny : Nat) (top_index : Int) (s : BuildState K) :
    forLoop 0 grid_nx (topBody grid_nx grid_ny top_index) s =
      { s with face_indices := (s.face_indices ++ (List.range' 0 grid_nx).flatMap
          (topEntries grid_nx grid_ny top_index s.vertex_indices)) } := by
  rw [forLoop_faces (fun T i => topEntries grid_nx grid_ny top_index T i)
    (topBody grid_nx grid_ny top_index)]
  · simp
  · intro s i
    simp [topBody, topEntries, push_back]

/-- What `BuildWatertightSphere` returns for an accepted resolution, in closed form. -/
theorem BuildWatertightSphere_eq (L : Libm K) (center : Vec3 K) (radius : K)
    (grid_nx grid_ny : Nat) (positions normals : List (Vec3 K))
    (face_indices : List (Option Int)) (hx : 1 ≤ grid_nx) (hy : 1 ≤ grid_ny) :
    BuildWatertightSphere L center radius grid_nx grid_ny positions normals face_indices =
      ⟨true,
       gridPositions L center radius grid_nx grid_ny ++
         [center + ⟨0, 0, -radius⟩, center + ⟨0, 0, radius⟩],
       gridNormals L radius grid_nx grid_ny ++
         [Vec3.normalized L ⟨0, 0, -radius⟩, Vec3.normalized L ⟨0, 0, radius⟩],
       rawFaces grid_nx grid_ny (gridTable grid_nx grid_ny)⟩ := by
  obtain ⟨m, rfl⟩ : ∃ m, grid_ny = m + 1 := ⟨grid_ny - 1, by omega⟩
  have hg : ¬ (grid_nx < 1 ∨ m + 1 < 1) := by omega
  simp only [BuildWatertightSphere, hg, if_false, vertexLoop, quadLoop, bottomLoop, topLoop,
    push_back]
  have hT : (fun r c => if 1 ≤ r ∧ r ≤ m ∧ c < grid_nx
      then some ((0 : Int) + (((r - 1) * grid_nx + c : Nat) : Int)) else none) =
      gridTable grid_nx (m + 1) := by
    funext r c
    simp [gridTable]
  simp only [hT, SphereMesh.mk.injEq, true_and, gridPositions, gridNormals, rawFaces,
    List.nil_append, List.append_assoc, Nat.add_sub_cancel]
  refine ⟨by simp, by simp, ?_⟩
  have e1 : m - 1 = m + 1 - 2 := by omega
  have e2 : (0 : Int) + ((m * grid_nx : Nat) : Int) = ((grid_nx * m : Nat) : Int) := by
    rw [Nat.mul_comm]
    simp
  have e3 : ((grid_nx * m : Nat) : Int) + 1 = ((grid_nx * m + 1 : Nat) : Int) := by
    push_cast
    ring
  rw [e1, e2, e3]

end SphereLoops

/-! ## The index buffer in symbolic form -/

theorem gridTable_valid (grid_nx grid_ny j i : Nat) (h1 : 1 ≤ j) (h2 : j + 1 ≤ grid_ny)
    (h3 : i < grid_nx) :
    gridTable grid_nx grid_ny j i = some (vertexNumber grid_nx grid_ny (GV.grid j i)) := by
  have h : 1 ≤ j ∧ j ≤ grid_ny - 1 ∧ i < grid_nx := ⟨h1, by omega, h3⟩
  simp only [gridTable, h, and_self, if_true, vertexNumber]

theorem nxt_lt (grid_nx i : Nat) (h : 1 ≤ grid_nx) : nxt grid_nx i < grid_nx :=
  Nat.mod_lt _ (by omega)

theorem length_flatMap_const {α β : Type} (f : α → List β) (k : Nat)
    (hf : ∀ a, (f a).length = k) (l : List α) : (l.flatMap f).length = l.length * k := by
  induction l with
  | nil => simp
  | cons a l ih =>
    simp only [List.flatMap_cons, List.length_append, ih, hf, List.length_cons]
    ring

/-- For at least two rings the index buffer is the symbolic face list, vertex by vertex. -/
theorem rawFaces_eq_sym (grid_nx grid_ny : Nat) (hx : 1 ≤ grid_nx) (hy : 2 ≤ grid_ny) :
    rawFaces grid_nx grid_ny (gridTable grid_nx grid_ny) =
      (symFaces grid_nx grid_ny).flatMap (faceEntries grid_nx grid_ny) := by
  simp only [rawFaces, symFaces, gridFaces, List.flatMap_append, List.flatMap_assoc,
    List.flatMap_map, List.append_assoc]
  congr 1
  · apply List.flatMap_congr
    intro j hj
    apply List.flatMap_congr
    intro i hi
    simp only [List.mem_range'_1] at hj hi
    have hn : (i + 1) % grid_nx < grid_nx := nxt_lt grid_nx i hx
    simp only [quadEntries, quadFaces, faceEntries, List.flatMap_cons, List.flatMap_nil,
      List.append_nil, List.cons_append, List.nil_append, nxt]
    rw [gridTable_valid grid_nx grid_ny j i (by omega) (by omega) (by omega),
      gridTable_valid grid_nx grid_ny j ((i + 1) % grid_nx) (by omega) (by omega) hn,
      gridTable_valid grid_nx grid_ny (j + 1) ((i + 1) % grid_nx) (by omega) (by omega) hn,
      gridTable_valid grid_nx grid_ny (j + 1) i (by omega) (by omega) (by omega)]
  · congr 1
    · apply List.flatMap_congr
      intro i hi
      simp only [List.mem_range'_1] at hi
      have hn : (i + 1) % grid_nx < grid_nx := nxt_lt grid_nx i hx
      simp only [bottomEntries, bottomFace, faceEntries, nxt]
      rw [gridTable_valid grid_nx grid_ny 1 i (by omega) (by omega) (by omega),
        gridTable_valid grid_nx grid_ny 1 ((i + 1) % grid_nx) (by omega) (by omega) hn]
      simp [vertexNumber]
    · apply List.flatMap_congr
      intro i hi
      simp only [List.mem_range'_1] at hi
      have hn : (i + 1) % grid_nx < grid_nx := nxt_lt grid_nx i hx
      simp only [topEntries, topFace, faceEntries, nxt]
      rw [gridTable_valid grid_nx grid_ny (grid_ny - 1) i (by omega) (by omega) (by omega),
        gridTable_valid grid_nx grid_ny (grid_ny - 1) ((i + 1) % grid_nx) (by omega) (by omega) hn]
      simp [vertexNumber]

theorem gridFaces_length (grid_nx grid_ny : Nat) :
    (gridFaces grid_nx grid_ny).length = 2 * grid_nx * (grid_ny - 2) := by
  unfold gridFaces
  rw [length_flatMap_const _ (grid_nx * 2)]
  · simp
    ring
  · intro j
    rw [length_flatMap_const _ 2]
    · simp
    · intro i
      simp [quadFaces]

theorem symFaces_length (grid_nx grid_ny : Nat) (hy : 2 ≤ grid_ny) :
    (symFaces grid_nx grid_ny).length = 2 * grid_nx * (grid_ny - 1) := by
  simp only [symFaces, List.length_append, gridFaces_length, List.length_map,
    List.length_range']
  obtain ⟨k, rfl⟩ : ∃ k, grid_ny = k + 2 := ⟨grid_ny - 2, by omega⟩
  simp only [Nat.add_sub_cancel]
  have : k + 2 - 1 = k + 1 := by omega
  rw [this]
  ring

section SphereSizes

set_option linter.unusedSectionVars false

variable {K : Type} [LinearOrderedField K]

theorem gridPositions_length (L : Libm K) (center : Vec3 K) (radius : K)
    (grid_nx grid_ny : Nat) :
    (gridPositions L center radius grid_nx grid_ny).length = grid_nx * (grid_ny - 1) := by
  unfold gridPositions
  rw [length_flatMap_const _ grid_nx]
  · simp
    ring
  · intro j
    simp

theorem gridNormals_length (L : Libm K) (radius : K) (grid_nx grid_ny : Nat) :
    (gridNormals L radius grid_nx grid_ny).length = grid_nx * (grid_ny - 1) := by
  unfold gridNormals
  rw [length_flatMap_const _ grid_nx]
  · simp
    ring
  · intro j
    simp

theorem DeleteGLBuffers_fields (s : Sphere K) :
    s.DeleteGLBuffers.center_ = s.center_ ∧ s.DeleteGLBuffers.radius_ = s.radius_ ∧
    s.DeleteGLBuffers.grid_nx_ = s.grid_nx_ ∧ s.DeleteGLBuffers.grid_ny_ = s.grid_ny_ := by
  unfold Sphere.DeleteGLBuffers
  by_cases h1 : s.positions_normals_vbo_ ≠ 0 <;> by_cases h2 : s.faces_ebo_ ≠ 0 <;>
    simp [h1, h2]

/-- C6. For `grid_nx ≥ 1` and `grid_ny ≥ 2` the builder returns `true`; positions and
normals have `grid_nx * (grid_ny - 1) + 2` entries, the rings in row-major order followed
by the bottom and the top pole; the index buffer holds the `2 * grid_nx * (grid_ny - 2)`
quad triangles, then the `grid_nx` triangles of the bottom fan, then those of the top
fan, `6 * grid_nx * (grid_ny - 1)` indices in all; and `Sphere::UpdateGLBuffers`, when it
rebuilds, stores these two sizes. -/
theorem BuildWatertightSphere_sizes (L : Libm K) (center : Vec3 K) (radius : K)
    (grid_nx grid_ny : Nat) (positions normals : List (Vec3 K))
    (face_indices : List (Option Int)) (hx : 1 ≤ grid_nx) (hy : 2 ≤ grid_ny) :
    let m := BuildWatertightSphere L center radius grid_nx grid_ny positions normals
      face_indices
    m.ok = true ∧
    m.positions.length = grid_nx * (grid_ny - 1) + 2 ∧
    m.normals.length = grid_nx * (grid_ny - 1) + 2 ∧
    m.positions = gridPositions L center radius grid_nx grid_ny ++
      [center + ⟨0, 0, -radius⟩, center + ⟨0, 0, radius⟩] ∧
    m.normals = gridNormals L radius grid_nx grid_ny ++
      [Vec3.normalized L ⟨0, 0, -radius⟩, Vec3.normalized L ⟨0, 0, radius⟩] ∧
    m.face_indices =
      (gridFaces grid_nx grid_ny).flatMap (faceEntries grid_nx grid_ny) ++
      ((List.range' 0 grid_nx).map (bottomFace grid_nx)).flatMap
        (faceEntries grid_nx grid_ny) ++
      ((List.range' 0 grid_nx).map (topFace grid_nx grid_ny)).flatMap
        (faceEntries grid_nx grid_ny) ∧
    (gridFaces grid_nx grid_ny).length = 2 * grid_nx * (grid_ny - 2) ∧
    ((List.range' 0 grid_nx).map (bottomFace grid_nx)).length = grid_nx ∧
    ((List.range' 0 grid_nx).map (topFace grid_nx grid_ny)).length = grid_nx ∧
    m.face_indices.length = 6 * grid_nx * (grid_ny - 1) ∧
    ∀ (s : Sphere K) (force_update : Bool) (gen_vbo gen_ebo : Nat),
      s.grid_nx_ = grid_nx → s.grid_ny_ = grid_ny →
      (s.gl_buffers_dirty_ = true ∨ force_update = true) →
      (s.UpdateGLBuffers L force_update gen_vbo gen_ebo).vertex_count_ =
        grid_nx * (grid_ny - 1) + 2 ∧
      (s.UpdateGLBuffers L force_update gen_vbo gen_ebo).face_indices_count_ =
        6 * grid_nx * (grid_ny - 1) := by
  intro m
  have hm : m = _ := BuildWatertightSphere_eq L center radius grid_nx grid_ny positions
    normals face_indices hx (by omega)
  have hlen : ∀ (c : Vec3 K) (r : K) (P N : List (Vec3 K)) (F : List (Option Int)),
      (BuildWatertightSphere L c r grid_nx grid_ny P N F).positions.length =
        grid_nx * (grid_ny - 1) + 2 ∧
      (BuildWatertightSphere L c r grid_nx grid_ny P N F).face_indices.length =
        6 * grid_nx * (grid_ny - 1) := by
    intro c r P N F
    rw [BuildWatertightSphere_eq L c r grid_nx grid_ny P N F hx (by omega)]
    refine ⟨by simp [gridPositions_length], ?_⟩
    simp only []
    rw [rawFaces_eq_sym grid_nx grid_ny hx hy,
      length_flatMap_const (faceEntries grid_nx grid_ny) 3 (fun f => by simp [faceEntries]),
      symFaces_length grid_nx grid_ny hy]
    ring
  refine ⟨by rw [hm], (hlen _ _ _ _ _).1, ?_, by rw [hm], by rw [hm], ?_, gridFaces_length _ _,
    by simp, by simp, (hlen _ _ _ _ _).2, ?_⟩
  · rw [hm]
    simp [gridNormals_length]
  · rw [hm]
    simp only []
    rw [rawFaces_eq_sym grid_nx grid_ny hx hy]
    simp only [symFaces, List.flatMap_append, List.append_assoc]
  · intro s force_update gen_vbo gen_ebo h1 h2 h3
    have hc : (!s.gl_buffers_dirty_ && !force_update) = false := by
      rcases h3 with h | h <;> simp [h]
    obtain ⟨-, -, d3, d4⟩ := DeleteGLBuffers_fields s
    simp only [Sphere.UpdateGLBuffers, hc, Bool.false_eq_true, if_false, d3, d4, h1, h2]
    exact hlen _ _ _ _ _

/-- Witness for C6: the default resolution `10 x 10`. -/
theorem BuildWatertightSphere_sizes_witness :
    (BuildWatertightSphere (⟨Real.cos, Real.sin, Real.sqrt, Real.pi / 180, Real.pi, 2 * Real.pi⟩ : Libm ℝ)
      ⟨0, 0, 0⟩ 1 10 10 [] [] []).positions.length = 10 * (10 - 1) + 2 :=
  (BuildWatertightSphere_sizes (⟨Real.cos, Real.sin, Real.sqrt, Real.pi / 180, Real.pi, 2 * Real.pi⟩ : Libm ℝ)
    ⟨0, 0, 0⟩ 1 10 10 [] [] [] (by decide) (by decide)).2.1

theorem vertexPairs_fst (L : Libm K) (center : Vec3 K) (radius : K)
    (grid_nx grid_ny : Nat) :
    (vertexPairs L center radius grid_nx grid_ny).map Prod.fst =
      gridPositions L center radius grid_nx grid_ny ++
        [center + ⟨0, 0, -radius⟩, center + ⟨0, 0, radius⟩] := by
  simp [vertexPairs, gridPositions, List.map_flatMap, Function.comp_def]

theorem vertexPairs_snd (L : Libm K) (center : Vec3 K) (radius : K)
    (grid_nx grid_ny : Nat) :
    (vertexPairs L center radius grid_nx grid_ny).map Prod.snd =
      gridNormals L radius grid_nx grid_ny ++
        [Vec3.normalized L ⟨0, 0, -radius⟩, Vec3.normalized L ⟨0, 0, radius⟩] := by
  simp [vertexPairs, gridNormals, List.map_flatMap, Function.comp_def]

end SphereSizes

section SphereReal

/-- A vector of length `radius > 0` is `radius` times its normalisation, which has
length one. -/
theorem normalized_of_squaredNorm (L : Libm ℝ) (hs : L.sqrt = Real.sqrt) (v : Vec3 ℝ)
    (radius : ℝ) (hr : 0 < radius) (hv : v.squaredNorm = radius ^ 2) :
    (Vec3.normalized L v).norm L = 1 ∧ Vec3.smul radius (Vec3.normalized L v) = v := by
  have hpos : 0 < v.squaredNorm := by rw [hv]; positivity
  have hsq : L.sqrt v.squaredNorm = radius := by
    rw [hs, hv, Real.sqrt_sq hr.le]
  have hn : Vec3.normalized L v = Vec3.sdiv v radius := by
    simp only [Vec3.normalized, hpos, if_true, hsq]
  have hr0 : radius ≠ 0 := ne_of_gt hr
  rw [hn]
  constructor
  · have h1 : (Vec3.sdiv v radius).squaredNorm = 1 := by
      simp only [Vec3.squaredNorm, Vec3.sdiv_x, Vec3.sdiv_y, Vec3.sdiv_z]
      simp only [Vec3.squaredNorm] at hv
      field_simp
      linarith
    simp only [Vec3.norm, h1, hs, Real.sqrt_one]
  · apply Vec3.ext <;> simp <;> field_simp

theorem gridPoint_squaredNorm (kDEGtoRAD kPi k2Pi radius ps ts dphi dtheta : ℝ) (j i : Nat) :
    (gridPoint ⟨Real.cos, Real.sin, Real.sqrt, kDEGtoRAD, kPi, k2Pi⟩ radius ps ts dphi dtheta
      j i).squaredNorm = radius ^ 2 := by
  simp only [gridPoint, Vec3.squaredNorm]
  have h1 := Real.cos_sq_add_sin_sq (ps + dphi * (i : ℝ))
  have h2 := Real.cos_sq_add_sin_sq (ts + (j : ℝ) * dtheta)
  have e : radius * Real.cos (ps + dphi * ↑i) * Real.sin (ts + ↑j * dtheta) *
        (radius * Real.cos (ps + dphi * ↑i) * Real.sin (ts + ↑j * dtheta)) +
      radius * Real.sin (ps + dphi * ↑i) * Real.sin (ts + ↑j * dtheta) *
        (radius * Real.sin (ps + dphi * ↑i) * Real.sin (ts + ↑j * dtheta)) +
      -radius * Real.cos (ts + ↑j * dtheta) * (-radius * Real.cos (ts + ↑j * dtheta)) =
      radius ^ 2 * (Real.sin (ts + ↑j * dtheta) ^ 2 *
        (Real.cos (ps + dphi * ↑i) ^ 2 + Real.sin (ps + dphi * ↑i) ^ 2) +
        Real.cos (ts + ↑j * dtheta) ^ 2) := by ring
  rw [e, h1, mul_one, add_comm, h2, mul_one]

end SphereReal

/-! ## The symbolic mesh is an oriented closed surface -/

/-- The column after `i` is `i + 1`, or `0` after the last column. -/
theorem nxt_spec (grid_nx i : Nat) (h : i < grid_nx) :
    (i + 1 < grid_nx ∧ nxt grid_nx i = i + 1) ∨ (i + 1 = grid_nx ∧ nxt grid_nx i = 0) := by
  unfold nxt
  by_cases h1 : i + 1 < grid_nx
  · exact Or.inl ⟨h1, Nat.mod_eq_of_lt h1⟩
  · have h2 : i + 1 = grid_nx := by omega
    exact Or.inr ⟨h2, by rw [h2, Nat.mod_self]⟩

/-- Every column is the column after some column. -/
theorem nxt_surj (grid_nx c : Nat) (h : c < grid_nx) :
    ∃ i, i < grid_nx ∧ nxt grid_nx i = c := by
  by_cases h0 : c = 0
  · refine ⟨grid_nx - 1, by omega, ?_⟩
    unfold nxt
    have : grid_nx - 1 + 1 = grid_nx := by omega
    rw [this, Nat.mod_self, h0]
  · refine ⟨c - 1, by omega, ?_⟩
    unfold nxt
    have : c - 1 + 1 = c := by omega
    rw [this, Nat.mod_eq_of_lt h]

/-- The shape of the faces of the symbolic mesh. -/
theorem mem_symFaces (grid_nx grid_ny : Nat) (f : GV × GV × GV)
    (hf : f ∈ symFaces grid_nx grid_ny) :
    ∃ j i i', i < grid_nx ∧ i' = nxt grid_nx i ∧
      ((i + 1 < grid_nx ∧ i' = i + 1) ∨ (i + 1 = grid_nx ∧ i' = 0)) ∧
      ((1 ≤ j ∧ j + 2 ≤ grid_ny ∧
          (f = (GV.grid j i, GV.grid j i', GV.grid (j + 1) i') ∨
           f = (GV.grid j i, GV.grid (j + 1) i', GV.grid (j + 1) i))) ∨
        f = (GV.bottom, GV.grid 1 i', GV.grid 1 i) ∨
        f = (GV.top, GV.grid (grid_ny - 1) i, GV.grid (grid_ny - 1) i')) := by
  simp only [symFaces, gridFaces, List.mem_append, List.mem_flatMap, List.mem_map,
    List.mem_range'_1, quadFaces, List.mem_cons, List.mem_singleton, List.not_mem_nil,
    or_false, bottomFace, topFace] at hf
  rcases hf with ⟨j, hj, i, hi, hq⟩ | ⟨i, hi, hb⟩ | ⟨i, hi, ht⟩
  · exact ⟨j, i, nxt grid_nx i, by omega, rfl, nxt_spec grid_nx i (by omega),
      Or.inl ⟨hj.1, by omega, hq⟩⟩
  · exact ⟨1, i, nxt grid_nx i, by omega, rfl, nxt_spec grid_nx i (by omega),
      Or.inr (Or.inl hb.symm)⟩
  · exact ⟨1, i, nxt grid_nx i, by omega, rfl, nxt_spec grid_nx i (by omega),
      Or.inr (Or.inr ht.symm)⟩

/-- With at least two columns every face has three distinct corners. -/
theorem symFaces_distinct (grid_nx grid_ny : Nat) (hx : 2 ≤ grid_nx) (f : GV × GV × GV)
    (hf : f ∈ symFaces grid_nx grid_ny) : DistinctCorners f := by
  obtain ⟨j, i, i', hi, -, hN, hshape⟩ := mem_symFaces grid_nx grid_ny f hf
  rcases hshape with ⟨-, -, rfl | rfl⟩ | rfl | rfl <;>
    simp only [DistinctCorners, ne_eq, GV.grid.injEq, not_and, reduceCtorEq, not_false_eq_true,
      true_and, and_true] <;> omega

/-- With at least three columns and two rings, two faces that share a directed edge are
the same face. -/
theorem symFaces_edge_unique (grid_nx grid_ny : Nat) (hx : 3 ≤ grid_nx) (hy : 2 ≤ grid_ny)
    (f g : GV × GV × GV) (hf : f ∈ symFaces grid_nx grid_ny)
    (hg : g ∈ symFaces grid_nx grid_ny) (e : GV × GV) (he1 : e ∈ faceEdges f)
    (he2 : e ∈ faceEdges g) : f = g := by
  obtain ⟨j, i, i', hi, -, hN, hshape⟩ := mem_symFaces grid_nx grid_ny f hf
  obtain ⟨k, c, c', hc, -, hM, hshape2⟩ := mem_symFaces grid_nx grid_ny g hg
  rcases hshape with ⟨hj1, hj2, rfl | rfl⟩ | rfl | rfl <;>
  rcases hshape2 with ⟨hk1, hk2, rfl | rfl⟩ | rfl | rfl <;>
  simp only [faceEdges, List.mem_cons, List.mem_singleton, List.not_mem_nil, or_false]
    at he1 he2 <;>
  rcases he1 with rfl | rfl | rfl <;>
  simp only [Prod.mk.injEq, GV.grid.injEq, reduceCtorEq, and_false, false_and, or_false,
    false_or, and_true, true_and] at he2 ⊢ <;>
  omega

theorem quad1_mem (grid_nx grid_ny j i : Nat) (h1 : 1 ≤ j) (h2 : j + 2 ≤ grid_ny)
    (h3 : i < grid_nx) :
    (GV.grid j i, GV.grid j (nxt grid_nx i), GV.grid (j + 1) (nxt grid_nx i)) ∈
      symFaces grid_nx grid_ny := by
  simp only [symFaces, gridFaces, List.mem_append, List.mem_flatMap, List.mem_range'_1,
    quadFaces, List.mem_cons, List.mem_singleton, List.not_mem_nil, or_false]
  exact Or.inl ⟨j, ⟨h1, by omega⟩, i, ⟨by omega, by omega⟩, Or.inl rfl⟩

theorem quad2_mem (grid_nx grid_ny j i : Nat) (h1 : 1 ≤ j) (h2 : j + 2 ≤ grid_ny)
    (h3 : i < grid_nx) :
    (GV.grid j i, GV.grid (j + 1) (nxt grid_nx i), GV.grid (j + 1) i) ∈
      symFaces grid_nx grid_ny := by
  simp only [symFaces, gridFaces, List.mem_append, List.mem_flatMap, List.mem_range'_1,
    quadFaces, List.mem_cons, List.mem_singleton, List.not_mem_nil, or_false]
  exact Or.inl ⟨j, ⟨h1, by omega⟩, i, ⟨by omega, by omega⟩, Or.inr rfl⟩

theorem bottomFace_mem (grid_nx grid_ny i : Nat) (h3 : i < grid_nx) :
    (GV.bottom, GV.grid 1 (nxt grid_nx i), GV.grid 1 i) ∈ symFaces grid_nx grid_ny := by
  simp only [symFaces, List.mem_append, List.mem_map, List.mem_range'_1, bottomFace]
  exact Or.inr (Or.inl ⟨i, ⟨by omega, by omega⟩, rfl⟩)

theorem topFace_mem (grid_nx grid_ny i : Nat) (h3 : i < grid_nx) :
    (GV.top, GV.grid (grid_ny - 1) i, GV.grid (grid_ny - 1) (nxt grid_nx i)) ∈
      symFaces grid_nx grid_ny := by
  simp only [symFaces, List.mem_append, List.mem_map, List.mem_range'_1, topFace]
  exact Or.inr (Or.inr ⟨i, ⟨by omega, by omega⟩, rfl⟩)

theorem mem_dirEdges {α : Type} (faces : List (α × α × α)) (e : α × α) :
    e ∈ dirEdges faces ↔ ∃ f ∈ faces, e ∈ faceEdges f := by
  simp [dirEdges, List.mem_flatMap]

theorem edge_H_fwd (grid_nx grid_ny j i : Nat) (h1 : 1 ≤ j) (h2 : j + 1 ≤ grid_ny)
    (h3 : i < grid_nx) :
    (GV.grid j i, GV.grid j (nxt grid_nx i)) ∈ dirEdges (symFaces grid_nx grid_ny) := by
  rw [mem_dirEdges]
  by_cases h : j + 2 ≤ grid_ny
  · exact ⟨_, quad1_mem grid_nx grid_ny j i h1 h h3, by simp [faceEdges]⟩
  · have e : j = grid_ny - 1 := by omega
    subst e
    exact ⟨_, topFace_mem grid_nx grid_ny i h3, by simp [faceEdges]⟩

theorem edge_H_bwd (grid_nx grid_ny j i : Nat) (h1 : 1 ≤ j) (h2 : j + 1 ≤ grid_ny)
    (h3 : i < grid_nx) :
    (GV.grid j (nxt grid_nx i), GV.grid j i) ∈ dirEdges (symFaces grid_nx grid_ny) := by
  rw [mem_dirEdges]
  by_cases h : j = 1
  · subst h
    exact ⟨_, bottomFace_mem grid_nx grid_ny i h3, by simp [faceEdges]⟩
  · obtain ⟨k, rfl⟩ : ∃ k, j = k + 1 := ⟨j - 1, by omega⟩
    exact ⟨_, quad2_mem grid_nx grid_ny k i (by omega) (by omega) h3, by simp [faceEdges]⟩

theorem edge_V_up (grid_nx grid_ny j c : Nat) (h1 : 1 ≤ j) (h2 : j + 2 ≤ grid_ny)
    (h3 : c < grid_nx) :
    (GV.grid j c, GV.grid (j + 1) c) ∈ dirEdges (symFaces grid_nx grid_ny) := by
  rw [mem_dirEdges]
  obtain ⟨i, hi, rfl⟩ := nxt_surj grid_nx c h3
  exact ⟨_, quad1_mem grid_nx grid_ny j i h1 h2 hi, by simp [faceEdges]⟩

theorem edge_V_dn (grid_nx grid_ny j c : Nat) (h1 : 1 ≤ j) (h2 : j + 2 ≤ grid_ny)
    (h3 : c < grid_nx) :
    (GV.grid (j + 1) c, GV.grid j c) ∈ dirEdges (symFaces grid_nx grid_ny) := by
  rw [mem_dirEdges]
  exact ⟨_, quad2_mem grid_nx grid_ny j c h1 h2 h3, by simp [faceEdges]⟩

theorem edge_D_up (grid_nx grid_ny j i : Nat) (h1 : 1 ≤ j) (h2 : j + 2 ≤ grid_ny)
    (h3 : i < grid_nx) :
    (GV.grid j i, GV.grid (j + 1) (nxt grid_nx i)) ∈ dirEdges (symFaces grid_nx grid_ny) := by
  rw [mem_dirEdges]
  exact ⟨_, quad2_mem grid_nx grid_ny j i h1 h2 h3, by simp [faceEdges]⟩

theorem edge_D_dn (grid_nx grid_ny j i : Nat) (h1 : 1 ≤ j) (h2 : j + 2 ≤ grid_ny)
    (h3 : i < grid_nx) :
    (GV.grid (j + 1) (nxt grid_nx i), GV.grid j i) ∈ dirEdges (symFaces grid_nx grid_ny) := by
  rw [mem_dirEdges]
  exact ⟨_, quad1_mem grid_nx grid_ny j i h1 h2 h3, by simp [faceEdges]⟩

theorem edge_B_out (grid_nx grid_ny c : Nat) (h3 : c < grid_nx) :
    (GV.bottom, GV.grid 1 c) ∈ dirEdges (symFaces grid_nx grid_ny) := by
  rw [mem_dirEdges]
  obtain ⟨i, hi, rfl⟩ := nxt_surj grid_nx c h3
  exact ⟨_, bottomFace_mem grid_nx grid_ny i hi, by simp [faceEdges]⟩

theorem edge_B_in (grid_nx grid_ny c : Nat) (h3 : c < grid_nx) :
    (GV.grid 1 c, GV.bottom) ∈ dirEdges (symFaces grid_nx grid_ny) := by
  rw [mem_dirEdges]
  exact ⟨_, bottomFace_mem grid_nx grid_ny c h3, by simp [faceEdges]⟩

theorem edge_T_out (grid_nx grid_ny c : Nat) (h3 : c < grid_nx) :
    (GV.top, GV.grid (grid_ny - 1) c) ∈ dirEdges (symFaces grid_nx grid_ny) := by
  rw [mem_dirEdges]
  exact ⟨_, topFace_mem grid_nx grid_ny c h3, by simp [faceEdges]⟩

theorem edge_T_in (grid_nx grid_ny c : Nat) (h3 : c < grid_nx) :
    (GV.grid (grid_ny - 1) c, GV.top) ∈ dirEdges (symFaces grid_nx grid_ny) := by
  rw [mem_dirEdges]
  obtain ⟨i, hi, rfl⟩ := nxt_surj grid_nx c h3
  exact ⟨_, topFace_mem grid_nx grid_ny i hi, by simp [faceEdges]⟩

/-- With at least two rings, the reverse of every directed edge of the mesh is a directed
edge of the mesh. -/
theorem symFaces_swap_mem (grid_nx grid_ny : Nat) (hy : 2 ≤ grid_ny) (e : GV × GV)
    (he : e ∈ dirEdges (symFaces grid_nx grid_ny)) :
    e.swap ∈ dirEdges (symFaces grid_nx grid_ny) := by
  obtain ⟨f, hf, he1⟩ := (mem_dirEdges _ _).mp he
  obtain ⟨j, i, i', hi, hn, -, hshape⟩ := mem_symFaces grid_nx grid_ny f hf
  have hi' : i' < grid_nx := by rw [hn]; exact nxt_lt grid_nx i (by omega)
  rcases hshape with ⟨hj1, hj2, rfl | rfl⟩ | rfl | rfl <;>
    simp only [faceEdges, List.mem_cons, List.mem_singleton, List.not_mem_nil, or_false]
      at he1 <;>
    rcases he1 with rfl | rfl | rfl <;> simp only [Prod.swap_prod_mk]
  · rw [hn]; exact edge_H_bwd grid_nx grid_ny j i hj1 (by omega) hi
  · exact edge_V_dn grid_nx grid_ny j i' hj1 hj2 hi'
  · rw [hn]; exact edge_D_up grid_nx grid_ny j i hj1 hj2 hi
  · rw [hn]; exact edge_D_dn grid_nx grid_ny j i hj1 hj2 hi
  · rw [hn]; exact edge_H_fwd grid_nx grid_ny (j + 1) i (by omega) (by omega) hi
  · exact edge_V_up grid_nx grid_ny j i hj1 hj2 hi
  · exact edge_B_in grid_nx grid_ny i' hi'
  · rw [hn]; exact edge_H_fwd grid_nx grid_ny 1 i (le_refl 1) (by omega) hi
  · exact edge_B_out grid_nx grid_ny i hi
  · exact edge_T_in grid_nx grid_ny i hi
  · rw [hn]; exact edge_H_bwd grid_nx grid_ny (grid_ny - 1) i (by omega) (by omega) hi
  · exact edge_T_out grid_nx grid_ny i' hi'

/-! ### No face is listed twice -/

theorem pairwise_range'_of_ne (r : Nat → Nat → Prop) (s n : Nat)
    (h : ∀ a b, a ≠ b → r a b) : (List.range' s n).Pairwise r :=
  (List.nodup_range' s n).pairwise_of_forall_ne (fun a _ b _ hab => h a b hab)

theorem quadFaces_fst (grid_nx j i : Nat) (x : GV × GV × GV)
    (hx : x ∈ quadFaces grid_nx j i) : x.1 = GV.grid j i := by
  simp only [quadFaces, List.mem_cons, List.mem_singleton, List.not_mem_nil, or_false] at hx
  rcases hx with rfl | rfl <;> rfl

theorem gridFaces_fst (grid_nx grid_ny : Nat) (x : GV × GV × GV)
    (hx : x ∈ gridFaces grid_nx grid_ny) : ∃ j i, x.1 = GV.grid j i := by
  simp only [gridFaces, List.mem_flatMap] at hx
  obtain ⟨j, -, i, -, h⟩ := hx
  exact ⟨j, i, quadFaces_fst grid_nx j i x h⟩

theorem gridFaces_nodup (grid_nx grid_ny : Nat) : (gridFaces grid_nx grid_ny).Nodup := by
  unfold gridFaces
  rw [List.nodup_flatMap]
  constructor
  · intro j _
    rw [List.nodup_flatMap]
    constructor
    · intro i _
      simp [quadFaces]
    · apply pairwise_range'_of_ne
      intro a b hab
      simp only [Function.onFun, List.disjoint_left]
      intro x h1 h2
      have e1 := quadFaces_fst grid_nx j a x h1
      have e2 := quadFaces_fst grid_nx j b x h2
      rw [e1] at e2
      simp only [GV.grid.injEq, true_and] at e2
      exact hab e2
  · apply pairwise_range'_of_ne
    intro a b hab
    simp only [Function.onFun, List.disjoint_left, List.mem_flatMap]
    rintro x ⟨i, -, h1⟩ ⟨k, -, h2⟩
    have e1 := quadFaces_fst grid_nx a i x h1
    have e2 := quadFaces_fst grid_nx b k x h2
    rw [e1] at e2
    simp only [GV.grid.injEq] at e2
    exact hab e2.1

theorem symFaces_nodup (grid_nx grid_ny : Nat) : (symFaces grid_nx grid_ny).Nodup := by
  unfold symFaces
  rw [List.nodup_append]
  refine ⟨gridFaces_nodup grid_nx grid_ny, ?_, ?_⟩
  · rw [List.nodup_append]
    refine ⟨?_, ?_, ?_⟩
    · apply List.Nodup.map_on _ (List.nodup_range' 0 grid_nx)
      intro a _ b _ h
      simp only [bottomFace, Prod.mk.injEq, GV.grid.injEq, true_and] at h
      exact h.2
    · apply List.Nodup.map_on _ (List.nodup_range' 0 grid_nx)
      intro a _ b _ h
      simp only [topFace, Prod.mk.injEq, GV.grid.injEq, true_and] at h
      exact h.1
    · rw [List.disjoint_left]
      intro x h1 h2
      simp only [List.mem_map, bottomFace, topFace] at h1 h2
      obtain ⟨a, -, rfl⟩ := h1
      obtain ⟨b, -, h⟩ := h2
      simp at h
  · rw [List.disjoint_left]
    intro x h1 h2
    obtain ⟨j, i, e⟩ := gridFaces_fst grid_nx grid_ny x h1
    simp only [List.mem_append, List.mem_map, bottomFace, topFace] at h2
    rcases h2 with ⟨a, -, rfl⟩ | ⟨a, -, rfl⟩ <;> simp at e

/-! ### Vertex numbers name the vertices -/

theorem mul_add_lt_of_lt (n a b i k : Nat) (hk : i < n) (h : a < b) :
    a * n + i < b * n + k := by
  have h1 : (a + 1) * n ≤ b * n := Nat.mul_le_mul_right n h
  rw [Nat.add_mul, Nat.one_mul] at h1
  omega

theorem mul_add_inj (n a b i k : Nat) (hi : i < n) (hk : k < n)
    (h : a * n + i = b * n + k) : a = b ∧ i = k := by
  rcases Nat.lt_trichotomy a b with h1 | h1 | h1
  · have := mul_add_lt_of_lt n a b i k hi h1
    omega
  · subst h1
    exact ⟨rfl, by omega⟩
  · have := mul_add_lt_of_lt n b a k i hk h1
    omega

theorem grid_number_lt (grid_nx grid_ny j i : Nat) (h1 : 1 ≤ j) (h2 : j + 1 ≤ grid_ny)
    (h3 : i < grid_nx) : (j - 1) * grid_nx + i < grid_nx * (grid_ny - 1) := by
  have h := mul_add_lt_of_lt grid_nx (j - 1) (grid_ny - 1) i 0 h3 (by omega)
  rw [Nat.mul_comm grid_nx]
  omega

/-- Different vertices of the mesh have different numbers. -/
theorem vertexNumber_inj (grid_nx grid_ny : Nat) (a b : GV) (ha : a.Valid grid_nx grid_ny)
    (hb : b.Valid grid_nx grid_ny)
    (h : vertexNumber grid_nx grid_ny a = vertexNumber grid_nx grid_ny b) : a = b := by
  cases a with
  | grid j i =>
    cases b with
    | grid k c =>
      simp only [vertexNumber, Nat.cast_inj] at h
      simp only [GV.Valid] at ha hb
      obtain ⟨e1, e2⟩ := mul_add_inj grid_nx (j - 1) (k - 1) i c ha.2.2 hb.2.2 h
      have : j = k := by omega
      rw [this, e2]
    | bottom =>
      simp only [vertexNumber, Nat.cast_inj] at h
      simp only [GV.Valid] at ha
      have := grid_number_lt grid_nx grid_ny j i ha.1 ha.2.1 ha.2.2
      omega
    | top =>
      simp only [vertexNumber, Nat.cast_inj] at h
      simp only [GV.Valid] at ha
      have := grid_number_lt grid_nx grid_ny j i ha.1 ha.2.1 ha.2.2
      omega
  | bottom =>
    cases b with
    | grid k c =>
      simp only [vertexNumber, Nat.cast_inj] at h
      simp only [GV.Valid] at hb
      have := grid_number_lt grid_nx grid_ny k c hb.1 hb.2.1 hb.2.2
      omega
    | bottom => rfl
    | top =>
      simp only [vertexNumber, Nat.cast_inj] at h
      omega
  | top =>
    cases b with
    | grid k c =>
      simp only [vertexNumber, Nat.cast_inj] at h
      simp only [GV.Valid] at hb
      have := grid_number_lt grid_nx grid_ny k c hb.1 hb.2.1 hb.2.2
      omega
    | bottom =>
      simp only [vertexNumber, Nat.cast_inj] at h
      omega
    | top => rfl

/-- Every number in the index buffer is the number of an emitted vertex. -/
theorem vertexNumber_range (grid_nx grid_ny : Nat) (a : GV) (ha : a.Valid grid_nx grid_ny) :
    0 ≤ vertexNumber grid_nx grid_ny a ∧
      vertexNumber grid_nx grid_ny a < ((grid_nx * (grid_ny - 1) + 2 : Nat) : Int) := by
  cases a with
  | grid j i =>
    simp only [GV.Valid] at ha
    have := grid_number_lt grid_nx grid_ny j i ha.1 ha.2.1 ha.2.2
    simp only [vertexNumber]
    constructor
    · exact Int.natCast_nonneg _
    · exact_mod_cast (by omega : (j - 1) * grid_nx + i < grid_nx * (grid_ny - 1) + 2)
  | bottom =>
    simp only [vertexNumber]
    constructor
    · exact Int.natCast_nonneg _
    · exact_mod_cast (by omega : grid_nx * (grid_ny - 1) < grid_nx * (grid_ny - 1) + 2)
  | top =>
    simp only [vertexNumber]
    constructor
    · exact Int.natCast_nonneg _
    · exact_mod_cast (by omega : grid_nx * (grid_ny - 1) + 1 < grid_nx * (grid_ny - 1) + 2)

/-- With at least two rings the corners of every face are vertices of the mesh. -/
theorem symFaces_valid (grid_nx grid_ny : Nat) (hy : 2 ≤ grid_ny) (f : GV × GV × GV)
    (hf : f ∈ symFaces grid_nx grid_ny) :
    f.1.Valid grid_nx grid_ny ∧ f.2.1.Valid grid_nx grid_ny ∧ f.2.2.Valid grid_nx grid_ny := by
  obtain ⟨j, i, i', hi, hn, -, hshape⟩ := mem_symFaces grid_nx grid_ny f hf
  have hi' : i' < grid_nx := by rw [hn]; exact nxt_lt grid_nx i (by omega)
  rcases hshape with ⟨hj1, hj2, rfl | rfl⟩ | rfl | rfl <;>
    simp only [GV.Valid, and_true, true_and] <;> omega

/-! ### Counting the faces at an edge -/

theorem countP_eq_one_of_unique {α : Type} (p : α → Bool) (l : List α) (hl : l.Nodup)
    (x : α) (hx : x ∈ l) (hp : p x = true) (hu : ∀ y ∈ l, p y = true → y = x) :
    l.countP p = 1 := by
  induction l with
  | nil => simp at hx
  | cons a l ih =>
    rw [List.nodup_cons] at hl
    rw [List.countP_cons]
    rcases List.mem_cons.mp hx with rfl | hx'
    · have h0 : l.countP p = 0 := by
        rw [List.countP_eq_zero]
        intro y hy hpy
        have := hu y (List.mem_cons_of_mem _ hy) hpy
        subst this
        exact hl.1 hy
      simp [h0, hp]
    · have h1 := ih hl.2 hx' (fun y hy hpy => hu y (List.mem_cons_of_mem _ hy) hpy)
      have h2 : ¬ (p a = true) := by
        intro hpa
        have := hu a (List.mem_cons_self _ _) hpa
        subst this
        exact hl.1 hx'
      simp [h1, h2]

theorem countP_or_of_not_both {α : Type} (p q : α → Bool) (l : List α)
    (h : ∀ x ∈ l, ¬ (p x = true ∧ q x = true)) :
    l.countP (fun x => p x || q x) = l.countP p + l.countP q := by
  induction l with
  | nil => simp
  | cons a l ih =>
    have h1 := ih (fun x hx => h x (List.mem_cons_of_mem _ hx))
    have h2 := h a (List.mem_cons_self _ _)
    rw [List.countP_cons, List.countP_cons, List.countP_cons, h1]
    cases hp : p a <;> cases hq : q a <;> simp_all <;> omega

/-- A face with three distinct corners does not have an edge in both directions. -/
theorem not_both_directions {α : Type} (f : α × α × α) (hd : DistinctCorners f) (e : α × α)
    (h1 : e ∈ faceEdges f) (h2 : e.swap ∈ faceEdges f) : False := by
  obtain ⟨a, b, c⟩ := f
  obtain ⟨u, v⟩ := e
  simp only [DistinctCorners, ne_eq] at hd
  simp only [faceEdges, List.mem_cons, List.mem_singleton, List.not_mem_nil, or_false,
    Prod.mk.injEq, Prod.swap_prod_mk] at h1 h2
  obtain ⟨d1, d2, d3⟩ := hd
  rcases h1 with ⟨rfl, rfl⟩ | ⟨rfl, rfl⟩ | ⟨rfl, rfl⟩ <;>
    rcases h2 with ⟨h, h'⟩ | ⟨h, h'⟩ | ⟨h, h'⟩ <;>
    first
    | exact absurd h d1 | exact absurd h d2 | exact absurd h d3
    | exact absurd h' d1 | exact absurd h' d2 | exact absurd h' d3
    | exact absurd h.symm d1 | exact absurd h.symm d2 | exact absurd h.symm d3
    | exact absurd h'.symm d1 | exact absurd h'.symm d2 | exact absurd h'.symm d3

/-- In the symbolic mesh every directed edge lies in exactly one face. -/
theorem symFaces_dir_count (grid_nx grid_ny : Nat) (hx : 3 ≤ grid_nx) (hy : 2 ≤ grid_ny)
    (e : GV × GV) (he : e ∈ dirEdges (symFaces grid_nx grid_ny)) :
    facesWithDirEdge (symFaces grid_nx grid_ny) e = 1 := by
  obtain ⟨f, hf, he1⟩ := (mem_dirEdges _ _).mp he
  unfold facesWithDirEdge
  apply countP_eq_one_of_unique _ _ (symFaces_nodup grid_nx grid_ny) f hf
  · simpa using he1
  · intro g hg hpg
    have he2 : e ∈ faceEdges g := by simpa using hpg
    exact symFaces_edge_unique grid_nx grid_ny hx hy g f hg hf e he2 he1

/-- In the symbolic mesh every undirected edge lies in exactly two faces. -/
theorem symFaces_edge_count (grid_nx grid_ny : Nat) (hx : 3 ≤ grid_nx) (hy : 2 ≤ grid_ny)
    (e : GV × GV) (he : e ∈ dirEdges (symFaces grid_nx grid_ny)) :
    facesWithEdge (symFaces grid_nx grid_ny) e = 2 := by
  have h1 := symFaces_dir_count grid_nx grid_ny hx hy e he
  have h2 := symFaces_dir_count grid_nx grid_ny hx hy e.swap
    (symFaces_swap_mem grid_nx grid_ny hy e he)
  unfold facesWithEdge
  unfold facesWithDirEdge at h1 h2
  have h3 := countP_or_of_not_both (fun f => decide (e ∈ faceEdges f))
    (fun f => decide (e.swap ∈ faceEdges f)) (symFaces grid_nx grid_ny)
    (fun f hf hb => not_both_directions f
      (symFaces_distinct grid_nx grid_ny (by omega) f hf) e (by simpa using hb.1)
      (by simpa using hb.2))
  have h4 : (symFaces grid_nx grid_ny).countP
      (fun f => decide (e ∈ faceEdges f ∨ e.swap ∈ faceEdges f)) =
      (symFaces grid_nx grid_ny).countP
        (fun f => decide (e ∈ faceEdges f) || decide (e.swap ∈ faceEdges f)) := by
    apply List.countP_congr
    intro f _
    simp
  rw [h4, h3, h1, h2]

/-! ### From the symbolic mesh to the index buffer -/

theorem facesOf_faceEntries (grid_nx grid_ny : Nat) (l : List (GV × GV × GV)) :
    facesOf (l.flatMap (faceEntries grid_nx grid_ny)) = l.map (faceNumbers grid_nx grid_ny) := by
  induction l with
  | nil => simp [facesOf]
  | cons f l ih =>
    simp only [List.flatMap_cons, faceEntries, List.cons_append, List.nil_append, facesOf,
      List.map_cons, faceNumbers]
    rw [← ih]
    rfl

theorem faceEdges_faceNumbers (grid_nx grid_ny : Nat) (f : GV × GV × GV) :
    faceEdges (faceNumbers grid_nx grid_ny f) =
      (faceEdges f).map (edgeNumbers grid_nx grid_ny) := by
  simp [faceEdges, faceNumbers, edgeNumbers]

theorem faceEdges_valid (grid_nx grid_ny : Nat) (f : GV × GV × GV)
    (hv : f.1.Valid grid_nx grid_ny ∧ f.2.1.Valid grid_nx grid_ny ∧
      f.2.2.Valid grid_nx grid_ny) (e : GV × GV) (he : e ∈ faceEdges f) :
    e.1.Valid grid_nx grid_ny ∧ e.2.Valid grid_nx grid_ny := by
  simp only [faceEdges, List.mem_cons, List.mem_singleton, List.not_mem_nil, or_false] at he
  rcases he with rfl | rfl | rfl
  · exact ⟨hv.1, hv.2.1⟩
  · exact ⟨hv.2.1, hv.2.2⟩
  · exact ⟨hv.2.2, hv.1⟩

/-- An edge of valid vertices lies in a face of the index buffer exactly when it lies in
the symbolic face. -/
theorem edgeNumbers_mem_iff (grid_nx grid_ny : Nat) (hy : 2 ≤ grid_ny) (e : GV × GV)
    (hv : e.1.Valid grid_nx grid_ny ∧ e.2.Valid grid_nx grid_ny) (g : GV × GV × GV)
    (hg : g ∈ symFaces grid_nx grid_ny) :
    edgeNumbers grid_nx grid_ny e ∈ faceEdges (faceNumbers grid_nx grid_ny g) ↔
      e ∈ faceEdges g := by
  rw [faceEdges_faceNumbers, List.mem_map]
  constructor
  · rintro ⟨e1, he1, h⟩
    have hv1 := faceEdges_valid grid_nx grid_ny g (symFaces_valid grid_nx grid_ny hy g hg) e1 he1
    simp only [edgeNumbers, Prod.mk.injEq, Option.some.injEq] at h
    have a1 := vertexNumber_inj grid_nx grid_ny e1.1 e.1 hv1.1 hv.1 h.1
    have a2 := vertexNumber_inj grid_nx grid_ny e1.2 e.2 hv1.2 hv.2 h.2
    have : e1 = e := Prod.ext a1 a2
    rw [← this]
    exact he1
  · intro h
    exact ⟨e, h, rfl⟩

theorem facesWithDirEdge_numbers (grid_nx grid_ny : Nat) (hy : 2 ≤ grid_ny) (e : GV × GV)
    (hv : e.1.Valid grid_nx grid_ny ∧ e.2.Valid grid_nx grid_ny) :
    facesWithDirEdge ((symFaces grid_nx grid_ny).map (faceNumbers grid_nx grid_ny))
        (edgeNumbers grid_nx grid_ny e) =
      facesWithDirEdge (symFaces grid_nx grid_ny) e := by
  unfold facesWithDirEdge
  rw [List.countP_map]
  apply List.countP_congr
  intro g hg
  simp only [Function.comp_apply, decide_eq_true_eq]
  exact edgeNumbers_mem_iff grid_nx grid_ny hy e hv g hg

theorem facesWithEdge_numbers (grid_nx grid_ny : Nat) (hy : 2 ≤ grid_ny) (e : GV × GV)
    (hv : e.1.Valid grid_nx grid_ny ∧ e.2.Valid grid_nx grid_ny) :
    facesWithEdge ((symFaces grid_nx grid_ny).map (faceNumbers grid_nx grid_ny))
        (edgeNumbers grid_nx grid_ny e) =
      facesWithEdge (symFaces grid_nx grid_ny) e := by
  unfold facesWithEdge
  rw [List.countP_map]
  apply List.countP_congr
  intro g hg
  simp only [Function.comp_apply, decide_eq_true_eq]
  have h1 := edgeNumbers_mem_iff grid_nx grid_ny hy e hv g hg
  have h2 := edgeNumbers_mem_iff grid_nx grid_ny hy e.swap ⟨hv.2, hv.1⟩ g hg
  have h3 : (edgeNumbers grid_nx grid_ny e).swap = edgeNumbers grid_nx grid_ny e.swap := rfl
  rw [h3, h1, h2]

/-- The faces of the index buffer are the symbolic faces, numbered. -/
theorem facesOf_BuildWatertightSphere {K : Type} [LinearOrderedField K] (L : Libm K)
    (center : Vec3 K) (radius : K) (grid_nx grid_ny : Nat) (positions normals : List (Vec3 K))
    (face_indices : List (Option Int)) (hx : 1 ≤ grid_nx) (hy : 2 ≤ grid_ny) :
    facesOf (BuildWatertightSphere L center radius grid_nx grid_ny positions normals
      face_indices).face_indices =
      (symFaces grid_nx grid_ny).map (faceNumbers grid_nx grid_ny) := by
  rw [BuildWatertightSphere_eq L center radius grid_nx grid_ny positions normals face_indices
    hx (by omega)]
  simp only []
  rw [rawFaces_eq_sym grid_nx grid_ny hx hy, facesOf_faceEntries]

/-- The numbered mesh is consistently oriented. -/
theorem numbered_oriented (grid_nx grid_ny : Nat) (hx : 3 ≤ grid_nx) (hy : 2 ≤ grid_ny) :
    ConsistentlyOriented ((symFaces grid_nx grid_ny).map (faceNumbers grid_nx grid_ny)) := by
  intro F hF e he
  obtain ⟨f, hf, rfl⟩ := List.mem_map.mp hF
  rw [faceEdges_faceNumbers, List.mem_map] at he
  obtain ⟨e0, he0, rfl⟩ := he
  have hv := faceEdges_valid grid_nx grid_ny f (symFaces_valid grid_nx grid_ny hy f hf) e0 he0
  have hmem : e0 ∈ dirEdges (symFaces grid_nx grid_ny) := (mem_dirEdges _ _).mpr ⟨f, hf, he0⟩
  have h3 : (edgeNumbers grid_nx grid_ny e0).swap = edgeNumbers grid_nx grid_ny e0.swap := rfl
  constructor
  · rw [facesWithDirEdge_numbers grid_nx grid_ny hy e0 hv]
    exact symFaces_dir_count grid_nx grid_ny hx hy e0 hmem
  · rw [h3, facesWithDirEdge_numbers grid_nx grid_ny hy e0.swap ⟨hv.2, hv.1⟩]
    exact symFaces_dir_count grid_nx grid_ny hx hy e0.swap
      (symFaces_swap_mem grid_nx grid_ny hy e0 hmem)

/-- The numbered mesh is a watertight manifold. -/
theorem numbered_watertight (grid_nx grid_ny : Nat) (hx : 3 ≤ grid_nx) (hy : 2 ≤ grid_ny) :
    WatertightManifold ((symFaces grid_nx grid_ny).map (faceNumbers grid_nx grid_ny)) := by
  constructor
  · intro F hF
    obtain ⟨f, hf, rfl⟩ := List.mem_map.mp hF
    have hd := symFaces_distinct grid_nx grid_ny (by omega) f hf
    have hv := symFaces_valid grid_nx grid_ny hy f hf
    simp only [DistinctCorners, faceNumbers, ne_eq, Option.some.injEq] at hd ⊢
    exact ⟨fun h => hd.1 (vertexNumber_inj grid_nx grid_ny _ _ hv.1 hv.2.1 h),
      fun h => hd.2.1 (vertexNumber_inj grid_nx grid_ny _ _ hv.2.1 hv.2.2 h),
      fun h => hd.2.2 (vertexNumber_inj grid_nx grid_ny _ _ hv.2.2 hv.1 h)⟩
  · intro F hF e he
    obtain ⟨f, hf, rfl⟩ := List.mem_map.mp hF
    rw [faceEdges_faceNumbers, List.mem_map] at he
    obtain ⟨e0, he0, rfl⟩ := he
    have hv := faceEdges_valid grid_nx grid_ny f (symFaces_valid grid_nx grid_ny hy f hf) e0 he0
    rw [facesWithEdge_numbers grid_nx grid_ny hy e0 hv]
    exact symFaces_edge_count grid_nx grid_ny hx hy e0 ((mem_dirEdges _ _).mpr ⟨f, hf, he0⟩)

/-! ## The claims about the mesh of `BuildWatertightSphere` -/

section SphereClaims

variable {K : Type} [LinearOrderedField K]

/-- C4, as amended. For every `grid_nx ≥ 3` and `grid_ny ≥ 2` the index mesh that
`BuildWatertightSphere` emits is a watertight manifold: every face has three pairwise
distinct vertex indices, and every undirected edge of a face is shared by exactly two
faces. -/
theorem BuildWatertightSphere_watertight (L : Libm K) (center : Vec3 K) (radius : K)
    (grid_nx grid_ny : Nat) (positions normals : List (Vec3 K))
    (face_indices : List (Option Int)) (hx : 3 ≤ grid_nx) (hy : 2 ≤ grid_ny) :
    WatertightManifold (facesOf (BuildWatertightSphere L center radius grid_nx grid_ny
      positions normals face_indices).face_indices) := by
  rw [facesOf_BuildWatertightSphere L center radius grid_nx grid_ny positions normals
    face_indices (by omega) hy]
  exact numbered_watertight grid_nx grid_ny hx hy

/-- Witness for the amended C4: three columns and two rings. -/
theorem BuildWatertightSphere_watertight_witness :
    WatertightManifold (facesOf (BuildWatertightSphere
      (⟨Real.cos, Real.sin, Real.sqrt, Real.pi / 180, Real.pi, 2 * Real.pi⟩ : Libm ℝ) ⟨0, 0, 0⟩ 1 3 2
      [] [] []).face_indices) :=
  BuildWatertightSphere_watertight (⟨Real.cos, Real.sin, Real.sqrt, Real.pi / 180, Real.pi, 2 * Real.pi⟩ : Libm ℝ)
    ⟨0, 0, 0⟩ 1 3 2 [] [] [] (by decide) (by decide)

/-- C4 fails as stated: the resolution `grid_nx = 1`, `grid_ny = 2` is accepted, and the
mesh has the face `(1, 0, 0)`, with a repeated vertex index. -/
theorem BuildWatertightSphere_not_watertight :
    (BuildWatertightSphere (⟨Real.cos, Real.sin, Real.sqrt, Real.pi / 180, Real.pi, 2 * Real.pi⟩ : Libm ℝ)
      ⟨0, 0, 0⟩ 1 1 2 [] [] []).ok = true ∧
    facesOf (BuildWatertightSphere (⟨Real.cos, Real.sin, Real.sqrt, Real.pi / 180, Real.pi, 2 * Real.pi⟩ : Libm ℝ)
      ⟨0, 0, 0⟩ 1 1 2 [] [] []).face_indices =
      [(some 1, some 0, some 0), (some 2, some 0, some 0)] ∧
    ¬ WatertightManifold (facesOf (BuildWatertightSphere
      (⟨Real.cos, Real.sin, Real.sqrt, Real.pi / 180, Real.pi, 2 * Real.pi⟩ : Libm ℝ) ⟨0, 0, 0⟩ 1 1 2
      [] [] []).face_indices) := by
  have hf : facesOf (BuildWatertightSphere
      (⟨Real.cos, Real.sin, Real.sqrt, Real.pi / 180, Real.pi, 2 * Real.pi⟩ : Libm ℝ) ⟨0, 0, 0⟩ 1 1 2
      [] [] []).face_indices = [(some 1, some 0, some 0), (some 2, some 0, some 0)] := by
    rw [facesOf_BuildWatertightSphere _ _ _ 1 2 _ _ _ (by decide) (by decide)]
    decide
  refine ⟨?_, hf, ?_⟩
  · rw [BuildWatertightSphere_eq _ _ _ 1 2 _ _ _ (by decide) (by decide)]
  · rw [hf]
    intro h
    have h1 := h.1 (some 1, some 0, some 0) (by simp)
    simp [DistinctCorners] at h1

/-- With at least two rings every entry of the index buffer was read from an assigned
table entry and is the number of an emitted vertex. -/
theorem BuildWatertightSphere_indices_in_range (L : Libm K) (center : Vec3 K) (radius : K)
    (grid_nx grid_ny : Nat) (positions normals : List (Vec3 K))
    (face_indices : List (Option Int)) (hx : 1 ≤ grid_nx) (hy : 2 ≤ grid_ny) :
    ∀ x ∈ (BuildWatertightSphere L center radius grid_nx grid_ny positions normals
        face_indices).face_indices,
      ∃ v : Int, x = some v ∧ 0 ≤ v ∧
        v < ((BuildWatertightSphere L center radius grid_nx grid_ny positions normals
          face_indices).positions.length : Int) := by
  intro x hxm
  rw [BuildWatertightSphere_eq L center radius grid_nx grid_ny positions normals
    face_indices hx (by omega)] at hxm ⊢
  simp only [] at hxm ⊢
  rw [rawFaces_eq_sym grid_nx grid_ny hx hy, List.mem_flatMap] at hxm
  obtain ⟨f, hf, hxf⟩ := hxm
  have hv := symFaces_valid grid_nx grid_ny hy f hf
  have hlen : (gridPositions L center radius grid_nx grid_ny ++
      [center + ⟨0, 0, -radius⟩, center + ⟨0, 0, radius⟩]).length =
      grid_nx * (grid_ny - 1) + 2 := by
    simp [gridPositions_length]
  rw [hlen]
  simp only [faceEntries, List.mem_cons, List.mem_singleton, List.not_mem_nil, or_false] at hxf
  rcases hxf with rfl | rfl | rfl
  · exact ⟨_, rfl, vertexNumber_range grid_nx grid_ny _ hv.1⟩
  · exact ⟨_, rfl, vertexNumber_range grid_nx grid_ny _ hv.2.1⟩
  · exact ⟨_, rfl, vertexNumber_range grid_nx grid_ny _ hv.2.2⟩

/-- C7 at the accepted resolution `grid_nx = 1`, `grid_ny = 1`: the builder returns `true`,
no ring vertex exists, and the four table entries read by the two fans were never
assigned (`none`). -/
theorem BuildWatertightSphere_reads_unassigned :
    (BuildWatertightSphere (⟨Real.cos, Real.sin, Real.sqrt, Real.pi / 180, Real.pi, 2 * Real.pi⟩ : Libm ℝ)
      ⟨0, 0, 0⟩ 1 1 1 [] [] []).ok = true ∧
    (BuildWatertightSphere (⟨Real.cos, Real.sin, Real.sqrt, Real.pi / 180, Real.pi, 2 * Real.pi⟩ : Libm ℝ)
      ⟨0, 0, 0⟩ 1 1 1 [] [] []).positions.length = 2 ∧
    (BuildWatertightSphere (⟨Real.cos, Real.sin, Real.sqrt, Real.pi / 180, Real.pi, 2 * Real.pi⟩ : Libm ℝ)
      ⟨0, 0, 0⟩ 1 1 1 [] [] []).face_indices =
      [some 0, none, none, some 1, none, none] := by
  rw [BuildWatertightSphere_eq _ _ _ 1 1 _ _ _ (by decide) (by decide)]
  refine ⟨rfl, ?_, ?_⟩
  · simp [gridPositions]
  · decide

/-- C8. For every `grid_nx ≥ 3` and `grid_ny ≥ 3` the mesh is consistently oriented and
closed: every directed edge of a face occurs in exactly one face and so does its reverse.
The faces are those of the grid with the column after `i` being `(i + 1) mod grid_nx`,
so the last column is joined to column `0`; each ring has `grid_nx` vertices and vertices
at different places of the grid have different numbers. `SetGridSize` stores only
resolutions of at least `3 x 3`, and the default is `10 x 10`. -/
theorem BuildWatertightSphere_oriented (L : Libm K) (center : Vec3 K) (radius : K)
    (grid_nx grid_ny : Nat) (positions normals : List (Vec3 K))
    (face_indices : List (Option Int)) (hx : 3 ≤ grid_nx) (hy : 3 ≤ grid_ny) :
    ConsistentlyOriented (facesOf (BuildWatertightSphere L center radius grid_nx grid_ny
      positions normals face_indices).face_indices) ∧
    facesOf (BuildWatertightSphere L center radius grid_nx grid_ny positions normals
      face_indices).face_indices = (symFaces grid_nx grid_ny).map (faceNumbers grid_nx grid_ny) ∧
    nxt grid_nx (grid_nx - 1) = 0 ∧
    (BuildWatertightSphere L center radius grid_nx grid_ny positions normals
      face_indices).positions.length = grid_nx * (grid_ny - 1) + 2 ∧
    (∀ a b : GV, a.Valid grid_nx grid_ny → b.Valid grid_nx grid_ny →
      vertexNumber grid_nx grid_ny a = vertexNumber grid_nx grid_ny b → a = b) ∧
    (∀ (s : Sphere K) (a b : Nat),
      3 ≤ (s.SetGridSize a b).grid_nx_ ∧ 3 ≤ (s.SetGridSize a b).grid_ny_) ∧
    (Sphere.default : Sphere K).grid_nx_ = 10 ∧ (Sphere.default : Sphere K).grid_ny_ = 10 := by
  have hf := facesOf_BuildWatertightSphere L center radius grid_nx grid_ny positions normals
    face_indices (by omega) (by omega)
  refine ⟨?_, hf, ?_, ?_, ?_, ?_, rfl, rfl⟩
  · rw [hf]
    exact numbered_oriented grid_nx grid_ny hx (by omega)
  · unfold nxt
    have : grid_nx - 1 + 1 = grid_nx := by omega
    rw [this, Nat.mod_self]
  · rw [BuildWatertightSphere_eq L center radius grid_nx grid_ny positions normals
      face_indices (by omega) (by omega)]
    simp [gridPositions_length]
  · intro a b ha hb h
    exact vertexNumber_inj grid_nx grid_ny a b ha hb h
  · intro s a b
    simp only [Sphere.SetGridSize]
    exact ⟨le_max_right _ _, le_max_right _ _⟩

/-- Witness for C8: the default resolution `10 x 10`. -/
theorem BuildWatertightSphere_oriented_witness :
    ConsistentlyOriented (facesOf (BuildWatertightSphere
      (⟨Real.cos, Real.sin, Real.sqrt, Real.pi / 180, Real.pi, 2 * Real.pi⟩ : Libm ℝ) ⟨0, 0, 0⟩ 1 10 10
      [] [] []).face_indices) :=
  (BuildWatertightSphere_oriented (⟨Real.cos, Real.sin, Real.sqrt, Real.pi / 180, Real.pi, 2 * Real.pi⟩ : Libm ℝ)
    ⟨0, 0, 0⟩ 1 10 10 [] [] [] (by decide) (by decide)).1

end SphereClaims

/-! ## Keyboard control: transitions and ranges -/

section KeyboardLemmas

set_option linter.unusedSectionVars false

variable {K : Type} [LinearOrderedField K]

theorem CLAMP_range (x hi : Int) (h : 0 ≤ hi) : 0 ≤ CLAMP x 0 hi ∧ CLAMP x 0 hi ≤ hi := by
  unfold CLAMP
  split_ifs <;> omega

theorem CLAMP_of_mem (x lo hi : Int) (h1 : lo ≤ x) (h2 : x ≤ hi) : CLAMP x lo hi = x := by
  unfold CLAMP
  split_ifs <;> omega

/-- C11. In examples 01 and 02 `KeyboardCallback` is the stated transition on (twist angle,
subdivision level): on PRESS or REPEAT key 9 adds 5, key 0 subtracts 5, key 2 adds 1 to
the level, key 1 replaces it by `max (level - 1) 0`; every other key and every other
action changes nothing. Example 03 makes the same transition on the fields of the
`TwistTriangle` object, whose level is between 0 and `max_subdivisions_ = 10`, except that
key 2 yields `min (level + 1) 10`. -/
theorem KeyboardCallback_transition (twist_angle : K) (level : Int) (key action : Int)
    (t : TwistTriangle K) (hmax : t.max_subdivisions_ = 10) (h0 : 0 ≤ t.subdivisions_)
    (h10 : t.subdivisions_ ≤ 10) :
    ((Legacy.KeyboardCallback ⟨twist_angle, level⟩ key action).twist_angle_g,
      (Legacy.KeyboardCallback ⟨twist_angle, level⟩ key action).triangle_subdivisions_g) =
        keyTransition none (twist_angle, level) key action ∧
    ((Ex02.KeyboardCallback ⟨twist_angle, level⟩ key action).1.twist_angle_g,
      (Ex02.KeyboardCallback ⟨twist_angle, level⟩ key action).1.triangle_subdivisions_g) =
        keyTransition none (twist_angle, level) key action ∧
    (Ex03.KeyboardCallback (some t) key action).map
        (fun t' => (t'.GetTwistAngle, t'.GetSubdivisions)) =
      some (keyTransition (some 10) (t.GetTwistAngle, t.GetSubdivisions) key action) := by
  have e1 : (GLFW_KEY_0 : Int) ≠ GLFW_KEY_9 := by decide
  have e2 : (GLFW_KEY_1 : Int) ≠ GLFW_KEY_9 := by decide
  have e3 : (GLFW_KEY_1 : Int) ≠ GLFW_KEY_0 := by decide
  have e4 : (GLFW_KEY_2 : Int) ≠ GLFW_KEY_9 := by decide
  have e5 : (GLFW_KEY_2 : Int) ≠ GLFW_KEY_0 := by decide
  have e6 : (GLFW_KEY_1 : Int) ≠ GLFW_KEY_2 := by decide
  refine ⟨?_, ?_, ?_⟩
  · unfold Legacy.KeyboardCallback keyTransition
    by_cases ha : action = GLFW_PRESS ∨ action = GLFW_REPEAT
    · by_cases k0 : key = GLFW_KEY_0
      · simp [ha, k0, e1]
      · by_cases k9 : key = GLFW_KEY_9
        · simp [ha, k9, e1.symm]
        · by_cases k1 : key = GLFW_KEY_1
          · simp [ha, k1, e2, e3, e6]
          · by_cases k2 : key = GLFW_KEY_2
            · simp [ha, k2, e4, e5, e6.symm]
            · simp [ha, k0, k9, k1, k2]
    · simp [ha]
  · unfold Ex02.KeyboardCallback keyTransition
    by_cases ha : action = GLFW_PRESS ∨ action = GLFW_REPEAT
    · by_cases k0 : key = GLFW_KEY_0
      · simp [ha, k0, e1]
      · by_cases k9 : key = GLFW_KEY_9
        · simp [ha, k9, e1.symm]
        · by_cases k1 : key = GLFW_KEY_1
          · simp [ha, k1, e2, e3, e6]
          · by_cases k2 : key = GLFW_KEY_2
            · simp [ha, k2, e4, e5, e6.symm]
            · simp [ha, k0, k9, k1, k2]
    · simp [ha]
  · unfold Ex03.KeyboardCallback keyTransition
    by_cases ha : action = GLFW_PRESS ∨ action = GLFW_REPEAT
    · by_cases k0 : key = GLFW_KEY_0
      · simp [ha, k0, e1, TwistTriangle.SetTwistAngle, TwistTriangle.GetTwistAngle,
          TwistTriangle.GetSubdivisions]
      · by_cases k9 : key = GLFW_KEY_9
        · simp [ha, k9, e1.symm, TwistTriangle.SetTwistAngle, TwistTriangle.GetTwistAngle,
            TwistTriangle.GetSubdivisions]
        · by_cases k1 : key = GLFW_KEY_1
          · have hc : CLAMP (max (t.subdivisions_ - 1) 0) 0 10 = max (t.subdivisions_ - 1) 0 :=
              CLAMP_of_mem _ _ _ (le_max_right _ _) (max_le (by omega) (by omega))
            simp [ha, k1, e2, e3, e6, TwistTriangle.SetSubdivisions,
              TwistTriangle.GetTwistAngle, TwistTriangle.GetSubdivisions, hmax, hc]
          · by_cases k2 : key = GLFW_KEY_2
            · have hc : CLAMP (t.subdivisions_ + 1) 0 10 = min (t.subdivisions_ + 1) 10 := by
                unfold CLAMP
                split_ifs <;> omega
              simp [ha, k2, e4, e5, e6.symm, TwistTriangle.SetSubdivisions,
                TwistTriangle.GetTwistAngle, TwistTriangle.GetSubdivisions, hmax, hc]
            · simp [ha, k0, k9, k1, k2]
    · simp [ha]

/-- Witness for C11: key 2 on a freshly constructed `TwistTriangle`. -/
theorem KeyboardCallback_transition_witness :
    ((Legacy.KeyboardCallback (⟨0, 0⟩ : TriangleGlobals ℚ) GLFW_KEY_2 GLFW_PRESS).twist_angle_g,
      (Legacy.KeyboardCallback (⟨0, 0⟩ : TriangleGlobals ℚ) GLFW_KEY_2
        GLFW_PRESS).triangle_subdivisions_g) =
      keyTransition none ((0 : ℚ), (0 : Int)) GLFW_KEY_2 GLFW_PRESS :=
  (KeyboardCallback_transition (0 : ℚ) 0 GLFW_KEY_2 GLFW_PRESS (TwistTriangle.new 0)
    (by decide) (by decide) (by decide)).1

end KeyboardLemmas

section SubdivisionRange

set_option linter.unusedSectionVars false

variable {K : Type} [LinearOrderedField K]

theorem Legacy_level_nonneg (g : TriangleGlobals K) (key action : Int)
    (h : 0 ≤ g.triangle_subdivisions_g) :
    0 ≤ (Legacy.KeyboardCallback g key action).triangle_subdivisions_g := by
  unfold Legacy.KeyboardCallback
  simp only []
  split_ifs <;> first | exact h | exact le_max_right _ _ | (simp only []; omega)

theorem Ex02_level_nonneg (g : TriangleGlobals K) (key action : Int)
    (h : 0 ≤ g.triangle_subdivisions_g) :
    0 ≤ (Ex02.KeyboardCallback g key action).1.triangle_subdivisions_g := by
  unfold Ex02.KeyboardCallback
  simp only []
  split_ifs <;> first | exact h | exact le_max_right _ _ | (simp only []; omega)

/-- The class invariant of `TwistTriangle`: the largest level is 10 and the level is
between 0 and 10. -/
theorem SetSubdivisions_range (t : TwistTriangle K) (n : Int) (h : t.max_subdivisions_ = 10) :
    (t.SetSubdivisions n).max_subdivisions_ = 10 ∧ 0 ≤ (t.SetSubdivisions n).subdivisions_ ∧
      (t.SetSubdivisions n).subdivisions_ ≤ 10 := by
  have hr := CLAMP_range n 10 (by decide)
  simp only [TwistTriangle.SetSubdivisions, h]
  exact ⟨trivial, hr.1, hr.2⟩

theorem SetSubdivisions_fold_range (ns : List Int) (t : TwistTriangle K)
    (h : t.max_subdivisions_ = 10 ∧ 0 ≤ t.subdivisions_ ∧ t.subdivisions_ ≤ 10) :
    (ns.foldl TwistTriangle.SetSubdivisions t).max_subdivisions_ = 10 ∧
      0 ≤ (ns.foldl TwistTriangle.SetSubdivisions t).subdivisions_ ∧
      (ns.foldl TwistTriangle.SetSubdivisions t).subdivisions_ ≤ 10 := by
  induction ns generalizing t with
  | nil => exact h
  | cons n ns ih => exact ih _ (SetSubdivisions_range t n h.1)

theorem Ex03_callback_range (t : TwistTriangle K) (key action : Int)
    (h : t.max_subdivisions_ = 10 ∧ 0 ≤ t.subdivisions_ ∧ t.subdivisions_ ≤ 10) :
    ∃ t', Ex03.KeyboardCallback (some t) key action = some t' ∧
      t'.max_subdivisions_ = 10 ∧ 0 ≤ t'.subdivisions_ ∧ t'.subdivisions_ ≤ 10 := by
  unfold Ex03.KeyboardCallback
  simp only []
  split_ifs
  · exact ⟨_, rfl, h⟩
  · exact ⟨_, rfl, h⟩
  · exact ⟨_, rfl, SetSubdivisions_range t _ h.1⟩
  · exact ⟨_, rfl, SetSubdivisions_range t _ h.1⟩
  · exact ⟨_, rfl, h⟩
  · exact ⟨_, rfl, h⟩

theorem Ex03_fold_range (evs : List (Int × Int)) (t : TwistTriangle K)
    (h : t.max_subdivisions_ = 10 ∧ 0 ≤ t.subdivisions_ ∧ t.subdivisions_ ≤ 10) :
    ∃ t', evs.foldl (fun g e => Ex03.KeyboardCallback g e.1 e.2) (some t) = some t' ∧
      t'.max_subdivisions_ = 10 ∧ 0 ≤ t'.subdivisions_ ∧ t'.subdivisions_ ≤ 10 := by
  induction evs generalizing t with
  | nil => exact ⟨t, rfl, h⟩
  | cons e evs ih =>
    obtain ⟨t1, h1, hr⟩ := Ex03_callback_range t e.1 e.2 h
    simp only [List.foldl_cons, h1]
    exact ih t1 hr

theorem generate_count (L : Libm K) (t : TwistTriangle K) :
    (t.generate L).length / 6 = 3 * 4 ^ t.subdivisions_.toNat := by
  unfold TwistTriangle.generate
  simp only []
  rw [TwistTriangle_eq_leaves_aux L _ _ t.subdivisions_.toNat t.subdivisions_ rfl,
    List.nil_append, flatMap_leafFloats_length, leafTriangles_length]
  omega

/-- C12. The subdivision level stays in range: in examples 01 and 02, starting from the
initial level 0, it is `≥ 0` after every sequence of keyboard events (`int` overflow
aside); a `TwistTriangle` has `0 ≤ GetSubdivisions() ≤ 10` after construction with any
argument, after every sequence of calls of `SetSubdivisions` with any arguments and after
every sequence of keyboard events of example 03, so the floats it generates are at most
`3 * 4^10` vertices. -/
theorem subdivisions_in_range (L : Libm K) (twist_angle : K) (evs : List (Int × Int))
    (n0 : Int) (ns : List Int) :
    0 ≤ (evs.foldl (fun g e => Legacy.KeyboardCallback g e.1 e.2)
      (⟨twist_angle, 0⟩ : TriangleGlobals K)).triangle_subdivisions_g ∧
    0 ≤ (evs.foldl (fun g e => (Ex02.KeyboardCallback g e.1 e.2).1)
      (⟨twist_angle, 0⟩ : TriangleGlobals K)).triangle_subdivisions_g ∧
    (0 ≤ (TwistTriangle.new n0 : TwistTriangle K).GetSubdivisions ∧
      (TwistTriangle.new n0 : TwistTriangle K).GetSubdivisions ≤ 10) ∧
    (0 ≤ (ns.foldl TwistTriangle.SetSubdivisions
        (TwistTriangle.new n0 : TwistTriangle K)).GetSubdivisions ∧
      (ns.foldl TwistTriangle.SetSubdivisions
        (TwistTriangle.new n0 : TwistTriangle K)).GetSubdivisions ≤ 10 ∧
      ((ns.foldl TwistTriangle.SetSubdivisions
        (TwistTriangle.new n0 : TwistTriangle K)).generate L).length / 6 ≤ 3 * 4 ^ 10) ∧
    ∃ t : TwistTriangle K,
      evs.foldl (fun g e => Ex03.KeyboardCallback g e.1 e.2)
        (some (ns.foldl TwistTriangle.SetSubdivisions (TwistTriangle.new n0))) = some t ∧
      0 ≤ t.GetSubdivisions ∧ t.GetSubdivisions ≤ 10 ∧
      (t.generate L).length / 6 ≤ 3 * 4 ^ 10 := by
  have hnew : (TwistTriangle.new n0 : TwistTriangle K).max_subdivisions_ = 10 ∧
      0 ≤ (TwistTriangle.new n0 : TwistTriangle K).subdivisions_ ∧
      (TwistTriangle.new n0 : TwistTriangle K).subdivisions_ ≤ 10 :=
    SetSubdivisions_range _ n0 rfl
  have hfold := SetSubdivisions_fold_range ns (TwistTriangle.new n0 : TwistTriangle K) hnew
  have hcount : ∀ t : TwistTriangle K, 0 ≤ t.subdivisions_ → t.subdivisions_ ≤ 10 →
      (t.generate L).length / 6 ≤ 3 * 4 ^ 10 := by
    intro t h0 h10
    rw [generate_count]
    have : t.subdivisions_.toNat ≤ 10 := by omega
    exact Nat.mul_le_mul_left 3 (Nat.pow_le_pow_right (by decide) this)
  refine ⟨?_, ?_, ⟨hnew.2.1, hnew.2.2⟩, ⟨hfold.2.1, hfold.2.2, hcount _ hfold.2.1 hfold.2.2⟩, ?_⟩
  · have : ∀ (g : TriangleGlobals K), 0 ≤ g.triangle_subdivisions_g →
        0 ≤ (evs.foldl (fun g e => Legacy.KeyboardCallback g e.1 e.2)
          g).triangle_subdivisions_g := by
      induction evs with
      | nil => intro g h; exact h
      | cons e evs ih =>
        intro g h
        exact ih _ (Legacy_level_nonneg g e.1 e.2 h)
    exact this _ (le_refl 0)
  · have : ∀ (g : TriangleGlobals K), 0 ≤ g.triangle_subdivisions_g →
        0 ≤ (evs.foldl (fun g e => (Ex02.KeyboardCallback g e.1 e.2).1)
          g).triangle_subdivisions_g := by
      induction evs with
      | nil => intro g h; exact h
      | cons e evs ih =>
        intro g h
        exact ih _ (Ex02_level_nonneg g e.1 e.2 h)
    exact this _ (le_refl 0)
  · obtain ⟨t, ht, hr⟩ := Ex03_fold_range evs _ hfold
    exact ⟨t, ht, hr.2.1, hr.2.2, hcount t hr.2.1 hr.2.2⟩

end SubdivisionRange

section GridRange

set_option linter.unusedSectionVars false

variable {K : Type} [LinearOrderedField K]

theorem uintSub_one (a : Nat) (h1 : 1 ≤ a) (h2 : a < 2 ^ 32) : uintSub a 1 = a - 1 := by
  unfold uintSub
  have e : (1 : Nat) % 2 ^ 32 = 1 := by norm_num
  rw [e]
  have e2 : a + 2 ^ 32 - 1 = (a - 1) + 2 ^ 32 := by omega
  rw [e2, Nat.add_mod_right]
  exact Nat.mod_eq_of_lt (by omega)

theorem uintAdd_one (a : Nat) (h2 : a < 2 ^ 32) :
    uintAdd a 1 = if a + 1 < 2 ^ 32 then a + 1 else 0 := by
  unfold uintAdd
  split_ifs with h
  · exact Nat.mod_eq_of_lt h
  · have e : a + 1 = 2 ^ 32 := by omega
    rw [e, Nat.mod_self]

/-- One keyboard event of example 04 keeps both grid sizes between 3 and `2^32 - 1`. -/
theorem Ex04_callback_range (s : Sphere K) (key action : Int)
    (h : 3 ≤ s.grid_nx_ ∧ s.grid_nx_ < 2 ^ 32 ∧ 3 ≤ s.grid_ny_ ∧ s.grid_ny_ < 2 ^ 32) :
    ∃ s', Ex04.KeyboardCallback (some s) key action = some s' ∧
      3 ≤ s'.grid_nx_ ∧ s'.grid_nx_ < 2 ^ 32 ∧ 3 ≤ s'.grid_ny_ ∧ s'.grid_ny_ < 2 ^ 32 := by
  obtain ⟨h1, h2, h3, h4⟩ := h
  have a1 := uintAdd_one s.grid_nx_ h2
  have a2 := uintAdd_one s.grid_ny_ h4
  have b1 := uintSub_one s.grid_nx_ (by omega) h2
  have b2 := uintSub_one s.grid_ny_ (by omega) h4
  unfold Ex04.KeyboardCallback
  simp only []
  split_ifs
  · refine ⟨_, rfl, ?_⟩
    simp only [Sphere.SetGridSize, a1]
    split_ifs <;> omega
  · refine ⟨_, rfl, ?_⟩
    simp only [Sphere.SetGridSize, b1]
    omega
  · refine ⟨_, rfl, ?_⟩
    simp only [Sphere.SetGridSize, a2]
    split_ifs <;> omega
  · refine ⟨_, rfl, ?_⟩
    simp only [Sphere.SetGridSize, b2]
    omega
  · exact ⟨_, rfl, h1, h2, h3, h4⟩
  · exact ⟨_, rfl, h1, h2, h3, h4⟩

theorem Ex04_fold_range (evs : List (Int × Int)) (s : Sphere K)
    (h : 3 ≤ s.grid_nx_ ∧ s.grid_nx_ < 2 ^ 32 ∧ 3 ≤ s.grid_ny_ ∧ s.grid_ny_ < 2 ^ 32) :
    ∃ s', evs.foldl (fun g e => Ex04.KeyboardCallback g e.1 e.2) (some s) = some s' ∧
      3 ≤ s'.grid_nx_ ∧ s'.grid_nx_ < 2 ^ 32 ∧ 3 ≤ s'.grid_ny_ ∧ s'.grid_ny_ < 2 ^ 32 := by
  induction evs generalizing s with
  | nil => exact ⟨s, rfl, h⟩
  | cons e evs ih =>
    obtain ⟨s1, e1, hr⟩ := Ex04_callback_range s e.1 e.2 h
    simp only [List.foldl_cons, e1]
    exact ih s1 hr

theorem SetGridSize_nx (s : Sphere K) (a b : Nat) : (s.SetGridSize a b).grid_nx_ = max a 3 :=
  rfl

theorem SetGridSize_ny (s : Sphere K) (a b : Nat) : (s.SetGridSize a b).grid_ny_ = max b 3 :=
  rfl

/-- Pressing key 0 `n` times adds `n` to `grid_nx`, as long as the sum stays below `2^32`. -/
theorem Ex04_key0_repeat (n : Nat) (s : Sphere K) (h1 : 3 ≤ s.grid_nx_)
    (h2 : s.grid_nx_ + n < 2 ^ 32) (h3 : 3 ≤ s.grid_ny_) :
    ∃ s', (List.replicate n (GLFW_KEY_0, GLFW_PRESS)).foldl
        (fun g e => Ex04.KeyboardCallback g e.1 e.2) (some s) = some s' ∧
      s'.grid_nx_ = s.grid_nx_ + n ∧ s'.grid_ny_ = s.grid_ny_ := by
  induction n generalizing s with
  | zero => exact ⟨s, rfl, rfl, rfl⟩
  | succ n ih =>
    have hs : Ex04.KeyboardCallback (some s) GLFW_KEY_0 GLFW_PRESS =
        some (s.SetGridSize (uintAdd s.grid_nx_ 1) s.grid_ny_) := by
      simp [Ex04.KeyboardCallback]
    have a1 := uintAdd_one s.grid_nx_ (by omega)
    have hlt : s.grid_nx_ + 1 < 2 ^ 32 := by omega
    simp only [hlt, if_true] at a1
    have hx1 : (s.SetGridSize (uintAdd s.grid_nx_ 1) s.grid_ny_).grid_nx_ = s.grid_nx_ + 1 := by
      rw [SetGridSize_nx, a1]
      omega
    have hy1 : (s.SetGridSize (uintAdd s.grid_nx_ 1) s.grid_ny_).grid_ny_ = s.grid_ny_ := by
      rw [SetGridSize_ny]
      omega
    obtain ⟨s', e', hx, hy⟩ := ih (s.SetGridSize (uintAdd s.grid_nx_ 1) s.grid_ny_)
      (by omega) (by omega) (by omega)
    refine ⟨s', ?_, by omega, by omega⟩
    simp only [List.replicate_succ, List.foldl_cons, hs]
    exact e'

/-- C13, as amended. In example 04, starting from the default `10 x 10` sphere, after every
sequence of keyboard events `grid_nx ≥ 3` and `grid_ny ≥ 3`. `SetGridSize` stores
`max grid_nx 3` and `max grid_ny 3`; in every state with both sizes between 3 and
`2^32 - 1`, on PRESS or REPEAT keys 0 and 2 add 1 to `grid_nx` and `grid_ny` respectively
while the sum is below `2^32` (at `2^32 - 1` the `uint` sum is 0 and 3 is stored), keys 9
and 1 subtract 1, a decrement at 3 leaves 3, and the `uint` subtraction does not wrap. -/
theorem grid_size_range (evs : List (Int × Int)) (s : Sphere K) (action : Int)
    (ha : action = GLFW_PRESS ∨ action = GLFW_REPEAT)
    (hs : 3 ≤ s.grid_nx_ ∧ s.grid_nx_ < 2 ^ 32 ∧ 3 ≤ s.grid_ny_ ∧ s.grid_ny_ < 2 ^ 32) :
    (∃ s', evs.foldl (fun g e => Ex04.KeyboardCallback g e.1 e.2)
        (some (Sphere.default : Sphere K)) = some s' ∧
      3 ≤ s'.grid_nx_ ∧ s'.grid_nx_ < 2 ^ 32 ∧ 3 ≤ s'.grid_ny_ ∧ s'.grid_ny_ < 2 ^ 32) ∧
    (∀ a b : Nat, (s.SetGridSize a b).grid_nx_ = max a 3 ∧
      (s.SetGridSize a b).grid_ny_ = max b 3) ∧
    (∃ s', Ex04.KeyboardCallback (some s) GLFW_KEY_0 action = some s' ∧
      s'.grid_nx_ = (if s.grid_nx_ + 1 < 2 ^ 32 then s.grid_nx_ + 1 else 3) ∧
      s'.grid_ny_ = s.grid_ny_) ∧
    (∃ s', Ex04.KeyboardCallback (some s) GLFW_KEY_2 action = some s' ∧
      s'.grid_ny_ = (if s.grid_ny_ + 1 < 2 ^ 32 then s.grid_ny_ + 1 else 3) ∧
      s'.grid_nx_ = s.grid_nx_) ∧
    (∃ s', Ex04.KeyboardCallback (some s) GLFW_KEY_9 action = some s' ∧
      s'.grid_nx_ = max (s.grid_nx_ - 1) 3 ∧ s'.grid_ny_ = s.grid_ny_ ∧
      (s.grid_nx_ = 3 → s'.grid_nx_ = 3)) ∧
    (∃ s', Ex04.KeyboardCallback (some s) GLFW_KEY_1 action = some s' ∧
      s'.grid_ny_ = max (s.grid_ny_ - 1) 3 ∧ s'.grid_nx_ = s.grid_nx_ ∧
      (s.grid_ny_ = 3 → s'.grid_ny_ = 3)) ∧
    uintSub s.grid_nx_ 1 + 1 = s.grid_nx_ ∧ uintSub s.grid_ny_ 1 + 1 = s.grid_ny_ := by
  obtain ⟨h1, h2, h3, h4⟩ := hs
  have a1 := uintAdd_one s.grid_nx_ h2
  have a2 := uintAdd_one s.grid_ny_ h4
  have b1 := uintSub_one s.grid_nx_ (by omega) h2
  have b2 := uintSub_one s.grid_ny_ (by omega) h4
  have e09 : (GLFW_KEY_9 : Int) ≠ GLFW_KEY_0 := by decide
  have e02 : (GLFW_KEY_2 : Int) ≠ GLFW_KEY_0 := by decide
  have e01 : (GLFW_KEY_1 : Int) ≠ GLFW_KEY_0 := by decide
  have e92 : (GLFW_KEY_2 : Int) ≠ GLFW_KEY_9 := by decide
  have e91 : (GLFW_KEY_1 : Int) ≠ GLFW_KEY_9 := by decide
  have e21 : (GLFW_KEY_1 : Int) ≠ GLFW_KEY_2 := by decide
  have k0 : Ex04.KeyboardCallback (some s) GLFW_KEY_0 action =
      some (s.SetGridSize (uintAdd s.grid_nx_ 1) s.grid_ny_) := by
    simp only [Ex04.KeyboardCallback, ha, if_true]
  have k2 : Ex04.KeyboardCallback (some s) GLFW_KEY_2 action =
      some (s.SetGridSize s.grid_nx_ (uintAdd s.grid_ny_ 1)) := by
    simp only [Ex04.KeyboardCallback, ha, e02, e92, if_true, if_false]
  have k9 : Ex04.KeyboardCallback (some s) GLFW_KEY_9 action =
      some (s.SetGridSize (uintSub s.grid_nx_ 1) s.grid_ny_) := by
    simp only [Ex04.KeyboardCallback, ha, e09, if_true, if_false]
  have k1 : Ex04.KeyboardCallback (some s) GLFW_KEY_1 action =
      some (s.SetGridSize s.grid_nx_ (uintSub s.grid_ny_ 1)) := by
    simp only [Ex04.KeyboardCallback, ha, e01, e91, e21, if_true, if_false]
  have hd : 3 ≤ (Sphere.default : Sphere K).grid_nx_ ∧
      (Sphere.default : Sphere K).grid_nx_ < 2 ^ 32 ∧
      3 ≤ (Sphere.default : Sphere K).grid_ny_ ∧
      (Sphere.default : Sphere K).grid_ny_ < 2 ^ 32 := by
    simp only [Sphere.default, Sphere.new]
    norm_num
  refine ⟨Ex04_fold_range evs _ hd, fun a b => ⟨rfl, rfl⟩, ⟨_, k0, ?_, ?_⟩, ⟨_, k2, ?_, ?_⟩,
    ⟨_, k9, ?_, ?_, ?_⟩, ⟨_, k1, ?_, ?_, ?_⟩, by omega, by omega⟩
  · rw [SetGridSize_nx, a1]
    split_ifs <;> omega
  · rw [SetGridSize_ny]
    omega
  · rw [SetGridSize_ny, a2]
    split_ifs <;> omega
  · rw [SetGridSize_nx]
    omega
  · rw [SetGridSize_nx, b1]
  · rw [SetGridSize_ny]
    omega
  · intro h
    rw [SetGridSize_nx, b1]
    omega
  · rw [SetGridSize_ny, b2]
  · rw [SetGridSize_nx]
    omega
  · intro h
    rw [SetGridSize_ny, b2]
    omega

/-- Witness for the amended C13: the default sphere and a key press. -/
theorem grid_size_range_witness :
    ∃ s', Ex04.KeyboardCallback (some (Sphere.default : Sphere ℚ)) GLFW_KEY_0 GLFW_PRESS =
        some s' ∧
      s'.grid_nx_ = (if (Sphere.default : Sphere ℚ).grid_nx_ + 1 < 2 ^ 32
        then (Sphere.default : Sphere ℚ).grid_nx_ + 1 else 3) ∧
      s'.grid_ny_ = (Sphere.default : Sphere ℚ).grid_ny_ :=
  (grid_size_range [] (Sphere.default : Sphere ℚ) GLFW_PRESS (Or.inl rfl)
    (by norm_num [Sphere.default, Sphere.new])).2.2.1

/-- C13 fails as stated: pressing key 0 `2^32 - 11` times from the default sphere gives
`grid_nx = 2^32 - 1`, and one more press of key 0 does not add 1: the `uint` sum wraps to
0 and `SetGridSize` stores 3. -/
theorem grid_nx_wraps :
    ∃ s s' : Sphere ℚ,
      (List.replicate 4294967285 (GLFW_KEY_0, GLFW_PRESS)).foldl
        (fun g e => Ex04.KeyboardCallback g e.1 e.2) (some (Sphere.default : Sphere ℚ)) =
        some s ∧
      s.grid_nx_ = 4294967295 ∧
      Ex04.KeyboardCallback (some s) GLFW_KEY_0 GLFW_PRESS = some s' ∧
      s'.grid_nx_ = 3 ∧ s'.grid_nx_ ≠ s.grid_nx_ + 1 := by
  obtain ⟨s, hs, hx, hy⟩ := Ex04_key0_repeat 4294967285 (Sphere.default : Sphere ℚ)
    (by norm_num [Sphere.default, Sphere.new]) (by norm_num [Sphere.default, Sphere.new])
    (by norm_num [Sphere.default, Sphere.new])
  have hx' : s.grid_nx_ = 4294967295 := by
    rw [hx]
    norm_num [Sphere.default, Sphere.new]
  have hstep : Ex04.KeyboardCallback (some s) GLFW_KEY_0 GLFW_PRESS =
      some (s.SetGridSize (uintAdd s.grid_nx_ 1) s.grid_ny_) := by
    simp [Ex04.KeyboardCallback]
  refine ⟨s, _, hs, hx', hstep, ?_, ?_⟩
  · rw [SetGridSize_nx, hx']
    norm_num [uintAdd]
  · rw [SetGridSize_nx, hx']
    norm_num [uintAdd]

end GridRange

/-! ## The mesh viewer -/

section CameraControl

set_option linter.unusedSectionVars false

variable {K : Type} [LinearOrderedField K]

theorem cameraKeys_sphere (g : ViewerGlobals K) (key action : Int) :
    (MeshView.cameraKeys g key action).sphere_g = g.sphere_g := by
  unfold MeshView.cameraKeys
  split_ifs <;> rfl

theorem cameraKeys_positive (g : ViewerGlobals K) (key action : Int)
    (h : 9 / 1000 ≤ g.camera_z_pos) :
    9 / 1000 ≤ (MeshView.cameraKeys g key action).camera_z_pos := by
  unfold MeshView.cameraKeys
  split_ifs with h1 h2 h3 h4 h5 h6
  · show 9 / 1000 ≤ g.camera_z_pos * (9 / 10)
    have : (1 / 100 : K) * (9 / 10) ≤ g.camera_z_pos * (9 / 10) :=
      mul_le_mul_of_nonneg_right h4 (by norm_num)
    calc (9 / 1000 : K) = 1 / 100 * (9 / 10) := by norm_num
      _ ≤ g.camera_z_pos * (9 / 10) := this
  · exact h
  · show 9 / 1000 ≤ g.camera_z_pos * (11 / 10)
    have h0 : (0 : K) ≤ g.camera_z_pos := le_trans (by norm_num) h
    have : g.camera_z_pos * 1 ≤ g.camera_z_pos * (11 / 10) :=
      mul_le_mul_of_nonneg_left (by norm_num) h0
    rw [mul_one] at this
    exact le_trans h this
  · show (9 / 1000 : K) ≤ 2
    norm_num
  · exact h
  · exact h
  · exact h

/-- With the sphere absent `KeyboardCallback` leaves in the globals what the camera keys
leave. -/
theorem KeyboardCallback_globals_of_no_sphere (g : ViewerGlobals K) (key action : Int)
    (hs : g.sphere_g = none) :
    (MeshView.KeyboardCallback g key action).globals = MeshView.cameraKeys g key action := by
  have h := cameraKeys_sphere g key action
  rw [hs] at h
  simp only [MeshView.KeyboardCallback, h]
  split_ifs <;> rfl

/-- C14. In the mesh viewer with the sphere absent, on PRESS or REPEAT key X multiplies
`camera_z_pos` by 0.9 only when `camera_z_pos ≥ 0.01`, key Z multiplies it by 1.1 and
SPACE sets it to 2; starting from the initial value 2, after every sequence of key events
`camera_z_pos ≥ 0.009 > 0` in exact arithmetic, so the eye `(0, 0, camera_z_pos)` is never
the look-at target `(0, 0, -2)`. -/
theorem camera_stays_positive (evs : List (Int × Int)) (meshes : List (TriMesh K))
    (g : ViewerGlobals K) (action : Int) (hs : g.sphere_g = none)
    (ha : action = GLFW_PRESS ∨ action = GLFW_REPEAT) :
    (MeshView.KeyboardCallback g GLFW_KEY_X action).globals.camera_z_pos =
      (if g.camera_z_pos ≥ 1 / 100 then g.camera_z_pos * (9 / 10) else g.camera_z_pos) ∧
    (MeshView.KeyboardCallback g GLFW_KEY_Z action).globals.camera_z_pos =
      g.camera_z_pos * (11 / 10) ∧
    (MeshView.KeyboardCallback g GLFW_KEY_SPACE action).globals.camera_z_pos = 2 ∧
    9 / 1000 ≤ (evs.foldl (fun g e => (MeshView.KeyboardCallback g e.1 e.2).globals)
      { (ViewerGlobals.initial : ViewerGlobals K) with meshlist_g := meshes }).camera_z_pos ∧
    0 < (evs.foldl (fun g e => (MeshView.KeyboardCallback g e.1 e.2).globals)
      { (ViewerGlobals.initial : ViewerGlobals K) with meshlist_g := meshes }).camera_z_pos ∧
    lookAtEye (evs.foldl (fun g e => (MeshView.KeyboardCallback g e.1 e.2).globals)
      { (ViewerGlobals.initial : ViewerGlobals K) with meshlist_g := meshes }) ≠
      lookAtTarget := by
  have hinv : ∀ (evs : List (Int × Int)) (g : ViewerGlobals K), g.sphere_g = none →
      9 / 1000 ≤ g.camera_z_pos →
      9 / 1000 ≤ (evs.foldl (fun g e => (MeshView.KeyboardCallback g e.1 e.2).globals)
        g).camera_z_pos := by
    intro evs
    induction evs with
    | nil => intro g _ h; exact h
    | cons e evs ih =>
      intro g hs h
      simp only [List.foldl_cons]
      apply ih
      · rw [KeyboardCallback_globals_of_no_sphere g e.1 e.2 hs, cameraKeys_sphere, hs]
      · rw [KeyboardCallback_globals_of_no_sphere g e.1 e.2 hs]
        exact cameraKeys_positive g e.1 e.2 h
  have h0 := hinv evs
    { (ViewerGlobals.initial : ViewerGlobals K) with meshlist_g := meshes } rfl
    (by show (9 / 1000 : K) ≤ 2; norm_num)
  have hpos : 0 < (evs.foldl (fun g e => (MeshView.KeyboardCallback g e.1 e.2).globals)
      { (ViewerGlobals.initial : ViewerGlobals K) with meshlist_g := meshes }).camera_z_pos :=
    lt_of_lt_of_le (by norm_num) h0
  have ex : (GLFW_KEY_Z : Int) ≠ GLFW_KEY_X := by decide
  have es : (GLFW_KEY_SPACE : Int) ≠ GLFW_KEY_X := by decide
  have ez : (GLFW_KEY_SPACE : Int) ≠ GLFW_KEY_Z := by decide
  have hn : g.sphere_g.isNone = true := by rw [hs]; rfl
  refine ⟨?_, ?_, ?_, h0, hpos, ?_⟩
  · rw [KeyboardCallback_globals_of_no_sphere g _ _ hs]
    simp only [MeshView.cameraKeys, hn, ha, if_true]
    split_ifs <;> rfl
  · rw [KeyboardCallback_globals_of_no_sphere g _ _ hs]
    simp only [MeshView.cameraKeys, hn, ha, ex, if_true, if_false]
  · rw [KeyboardCallback_globals_of_no_sphere g _ _ hs]
    simp only [MeshView.cameraKeys, hn, ha, es, ez, if_true, if_false]
  · intro h
    have hz := congrArg Vec3.z h
    simp only [lookAtEye, lookAtTarget] at hz
    linarith

/-- Witness for C14: key X at the initial camera position. -/
theorem camera_stays_positive_witness :
    (MeshView.KeyboardCallback (ViewerGlobals.initial : ViewerGlobals ℚ) GLFW_KEY_X
        GLFW_PRESS).globals.camera_z_pos =
      (if (ViewerGlobals.initial : ViewerGlobals ℚ).camera_z_pos ≥ 1 / 100
        then (ViewerGlobals.initial : ViewerGlobals ℚ).camera_z_pos * (9 / 10)
        else (ViewerGlobals.initial : ViewerGlobals ℚ).camera_z_pos) :=
  (camera_stays_positive [] [] (ViewerGlobals.initial : ViewerGlobals ℚ) GLFW_PRESS rfl
    (Or.inl rfl)).1

end CameraControl

section BoundingBox

set_option linter.unusedSectionVars false

variable {K : Type} [LinearOrderedField K]

/-- What `GetBoundingBox` leaves in `bmin` and `bmax`: the component-wise minimum and
maximum taken over the vertex positions together with the value held before the call. -/
theorem GetBoundingBox_eq (m : TriMesh K) (bmin bmax : Vec3 K) :
    m.GetBoundingBox bmin bmax =
      (componentMin bmin m.vertices, componentMax bmax m.vertices) := by
  unfold TriMesh.GetBoundingBox componentMin componentMax
  generalize m.vertices = vs
  induction vs generalizing bmin bmax with
  | nil => rfl
  | cons v vs ih => simp only [List.foldl_cons]; exact ih _ _

/-- C15. `GetBoundingBox` never assigns `bmin` and `bmax` a vertex position before taking
minima and maxima, so the values held before the call take part: for the mesh with the
single vertex `(0, 0, 0)` and `bmin = (-1, -1, -1)`, `bmax = (1, 1, 1)` before the call,
both are unchanged after it, while the component-wise minimum and maximum of the vertex
positions are both `(0, 0, 0)`. -/
theorem GetBoundingBox_keeps_initial_values :
    TriMesh.GetBoundingBox (⟨[⟨0, 0, 0⟩]⟩ : TriMesh ℚ) ⟨-1, -1, -1⟩ ⟨1, 1, 1⟩ =
      (⟨-1, -1, -1⟩, ⟨1, 1, 1⟩) ∧
    componentMin (⟨0, 0, 0⟩ : Vec3 ℚ) [] = ⟨0, 0, 0⟩ ∧
    componentMax (⟨0, 0, 0⟩ : Vec3 ℚ) [] = ⟨0, 0, 0⟩ ∧
    TriMesh.GetBoundingBox (⟨[⟨0, 0, 0⟩]⟩ : TriMesh ℚ) ⟨-1, -1, -1⟩ ⟨1, 1, 1⟩ ≠
      (componentMin (⟨0, 0, 0⟩ : Vec3 ℚ) [], componentMax (⟨0, 0, 0⟩ : Vec3 ℚ) []) := by
  refine ⟨?_, rfl, rfl, ?_⟩
  · simp [TriMesh.GetBoundingBox]
  · simp [TriMesh.GetBoundingBox, componentMin, componentMax]

end BoundingBox

section TransformLemmas

/-- With zero mouse rotation the matrix of `TransformMesh` scales by
`2 / maxdim / N` and moves the middle of the box `[bmin, bmax]` that `GetBoundingBox`
returns to the point `(xshift, 0, 0)`. -/
theorem TransformMesh_apply (kDEGtoRAD kPi k2Pi : ℝ) (g : ViewerGlobals ℝ) (index : Int)
    (m : TriMesh ℝ) (bmin0 bmax0 p : Vec3 ℝ) (hx : g.delta_x = 0) (hy : g.delta_y = 0) :
    let L : Libm ℝ := ⟨Real.cos, Real.sin, Real.sqrt, kDEGtoRAD, kPi, k2Pi⟩
    let N : ℝ := (g.meshlist_g.length : ℝ)
    let b := m.GetBoundingBox bmin0 bmax0
    let maxdim := max (max (b.2.x - b.1.x) (b.2.y - b.1.y)) (b.2.z - b.1.z)
    let s := 2 / maxdim / N
    transformPoint (MeshView.TransformMesh L g index m bmin0 bmax0).1 p =
      ⟨s * (p.x - (b.1.x + 1 / 2 * (b.2.x - b.1.x))) +
          ((index : ℝ) * (2 / N) + 2 / (N * 2) - 2 / 2),
        s * (p.y - (b.1.y + 1 / 2 * (b.2.y - b.1.y))),
        s * (p.z - (b.1.z + 1 / 2 * (b.2.z - b.1.z)))⟩ := by
  intro L N b maxdim s
  simp only [transformPoint, MeshView.TransformMesh, hx, hy, zero_mul, L, Real.cos_zero,
    Real.sin_zero, neg_zero]
  apply Vec3.ext <;>
    simp [Matrix.mulVec, Matrix.dotProduct, Fin.sum_univ_four, Matrix.mul_apply,
      Mat4r.assign, Mat4r.assignDiagonal, Matrix.one_apply] <;>
    ring

end TransformLemmas

section TransformBox

/-- Scaling an interval about its middle: a point of `[lo, hi]` lands within half the
scaled largest extent of the middle. -/
theorem scaled_offset_bounds (s maxdim lo hi x r : ℝ) (hs : 0 ≤ s) (hd : hi - lo ≤ maxdim)
    (hr : s * maxdim = 2 * r) (h1 : lo ≤ x) (h2 : x ≤ hi) :
    -r ≤ s * (x - (lo + 1 / 2 * (hi - lo))) ∧ s * (x - (lo + 1 / 2 * (hi - lo))) ≤ r := by
  have a1 : s * (x - (lo + 1 / 2 * (hi - lo))) ≤ s * (maxdim / 2) :=
    mul_le_mul_of_nonneg_left (by linarith) hs
  have a2 : s * (-(maxdim / 2)) ≤ s * (x - (lo + 1 / 2 * (hi - lo))) :=
    mul_le_mul_of_nonneg_left (by linarith) hs
  constructor <;> nlinarith

/-- For the box `[bmin, bmax]` that `GetBoundingBox` leaves in the locals of
`TransformMesh`, whatever they held before: with `N ≥ 1` meshes, `0 ≤ index < N`, zero
mouse rotation and positive largest extent, the returned matrix maps the box into the
slot `[-1 + 2 index / N, -1 + 2 (index + 1) / N] x [-1/N, 1/N] x [-1/N, 1/N]`, its middle
to the middle of the slot, and its largest extent to `2 / N`. -/
theorem TransformMesh_computed_box (kDEGtoRAD kPi k2Pi : ℝ) (g : ViewerGlobals ℝ)
    (index : Int) (m : TriMesh ℝ) (bmin0 bmax0 : Vec3 ℝ) (hx : g.delta_x = 0)
    (hy : g.delta_y = 0) (hN : 1 ≤ g.meshlist_g.length)
    (hpos : 0 < max (max ((m.GetBoundingBox bmin0 bmax0).2.x - (m.GetBoundingBox bmin0 bmax0).1.x)
      ((m.GetBoundingBox bmin0 bmax0).2.y - (m.GetBoundingBox bmin0 bmax0).1.y))
      ((m.GetBoundingBox bmin0 bmax0).2.z - (m.GetBoundingBox bmin0 bmax0).1.z)) :
    let L : Libm ℝ := ⟨Real.cos, Real.sin, Real.sqrt, kDEGtoRAD, kPi, k2Pi⟩
    let N : ℝ := (g.meshlist_g.length : ℝ)
    let b := m.GetBoundingBox bmin0 bmax0
    let T := (MeshView.TransformMesh L g index m bmin0 bmax0).1
    (∀ p : Vec3 ℝ, b.1.x ≤ p.x → p.x ≤ b.2.x → b.1.y ≤ p.y → p.y ≤ b.2.y → b.1.z ≤ p.z →
      p.z ≤ b.2.z →
      (-1 + 2 * (index : ℝ) / N ≤ (transformPoint T p).x ∧
        (transformPoint T p).x ≤ -1 + 2 * ((index : ℝ) + 1) / N) ∧
      (-(1 / N) ≤ (transformPoint T p).y ∧ (transformPoint T p).y ≤ 1 / N) ∧
      (-(1 / N) ≤ (transformPoint T p).z ∧ (transformPoint T p).z ≤ 1 / N)) ∧
    transformPoint T ⟨b.1.x + 1 / 2 * (b.2.x - b.1.x), b.1.y + 1 / 2 * (b.2.y - b.1.y),
        b.1.z + 1 / 2 * (b.2.z - b.1.z)⟩ = ⟨(2 * (index : ℝ) + 1) / N - 1, 0, 0⟩ ∧
    max (max ((transformPoint T b.2).x - (transformPoint T b.1).x)
        ((transformPoint T b.2).y - (transformPoint T b.1).y))
      ((transformPoint T b.2).z - (transformPoint T b.1).z) = 2 / N := by
  intro L N b T
  have hN0 : (0 : ℝ) < N := by
    have : (1 : ℝ) ≤ (g.meshlist_g.length : ℝ) := by exact_mod_cast hN
    exact lt_of_lt_of_le one_pos this
  have hNne : N ≠ 0 := ne_of_gt hN0
  set maxdim := max (max (b.2.x - b.1.x) (b.2.y - b.1.y)) (b.2.z - b.1.z) with hmd
  have hmne : maxdim ≠ 0 := ne_of_gt hpos
  have hs : 0 ≤ 2 / maxdim / N := by positivity
  have hr : 2 / maxdim / N * maxdim = 2 * (1 / N) := by
    field_simp
    ring
  have hshift : (index : ℝ) * (2 / N) + 2 / (N * 2) - 2 / 2 = (2 * (index : ℝ) + 1) / N - 1 := by
    field_simp
    ring
  have hdx : b.2.x - b.1.x ≤ maxdim := le_trans (le_max_left _ _) (le_max_left _ _)
  have hdy : b.2.y - b.1.y ≤ maxdim := le_trans (le_max_right _ _) (le_max_left _ _)
  have hdz : b.2.z - b.1.z ≤ maxdim := le_max_right _ _
  have happ := fun p => TransformMesh_apply kDEGtoRAD kPi k2Pi g index m bmin0 bmax0 p hx hy
  simp only [] at happ
  refine ⟨?_, ?_, ?_⟩
  · intro p x1 x2 y1 y2 z1 z2
    have bx := scaled_offset_bounds _ maxdim _ _ p.x (1 / N) hs hdx hr x1 x2
    have hby := scaled_offset_bounds _ maxdim _ _ p.y (1 / N) hs hdy hr y1 y2
    have bz := scaled_offset_bounds _ maxdim _ _ p.z (1 / N) hs hdz hr z1 z2
    simp only [T, L, happ p, hshift]
    refine ⟨⟨?_, ?_⟩, hby, bz⟩
    · have e : -1 + 2 * (index : ℝ) / N = -(1 / N) + ((2 * (index : ℝ) + 1) / N - 1) := by
        field_simp
        ring
      rw [e]
      linarith [bx.1]
    · have e : -1 + 2 * ((index : ℝ) + 1) / N = 1 / N + ((2 * (index : ℝ) + 1) / N - 1) := by
        field_simp
        ring
      rw [e]
      linarith [bx.2]
  · simp only [T, L, happ, hshift]
    apply Vec3.ext <;> simp
  · simp only [T, L, happ]
    have e1 : ∀ lo hi c : ℝ, 2 / maxdim / N * (hi - c) - 2 / maxdim / N * (lo - c) =
        2 / maxdim / N * (hi - lo) := fun lo hi c => by ring
    have e2 : ∀ lo hi c d : ℝ, 2 / maxdim / N * (hi - c) + d - (2 / maxdim / N * (lo - c) + d) =
        2 / maxdim / N * (hi - lo) := fun lo hi c d => by ring
    rw [e1, e1, e2, ← mul_max_of_nonneg _ _ hs, ← mul_max_of_nonneg _ _ hs, hr]
    ring

end TransformBox

section TransformFailing

/-- C16. With one loaded mesh (the triangle `(1,1,1)`, `(2,1,1)`, `(1,2,2)`, whose bounding
box is `[1, 2]³`), index 0, zero mouse rotation and the uninitialised locals `bmin`, `bmax`
of `TransformMesh` holding zeros, the returned matrix is the translation by `(-1, -1, -1)`:
the bounding box of the mesh goes to `[0, 1]³`, its centre to `(1/2, 1/2, 1/2)` and not to
the slot centre `(0, 0, 0)`, and its largest extent to 1 and not to `2 / N = 2`. -/
theorem TransformMesh_box_off_centre :
    transformPoint (MeshView.TransformMesh
        (⟨Real.cos, Real.sin, Real.sqrt, Real.pi / 180, Real.pi, 2 * Real.pi⟩ : Libm ℝ)
        { (ViewerGlobals.initial : ViewerGlobals ℝ) with
          meshlist_g := [⟨[⟨1, 1, 1⟩, ⟨2, 1, 1⟩, ⟨1, 2, 2⟩]⟩] }
        0 ⟨[⟨1, 1, 1⟩, ⟨2, 1, 1⟩, ⟨1, 2, 2⟩]⟩ ⟨0, 0, 0⟩ ⟨0, 0, 0⟩).1 ⟨1, 1, 1⟩ = ⟨0, 0, 0⟩ ∧
    transformPoint (MeshView.TransformMesh
        (⟨Real.cos, Real.sin, Real.sqrt, Real.pi / 180, Real.pi, 2 * Real.pi⟩ : Libm ℝ)
        { (ViewerGlobals.initial : ViewerGlobals ℝ) with
          meshlist_g := [⟨[⟨1, 1, 1⟩, ⟨2, 1, 1⟩, ⟨1, 2, 2⟩]⟩] }
        0 ⟨[⟨1, 1, 1⟩, ⟨2, 1, 1⟩, ⟨1, 2, 2⟩]⟩ ⟨0, 0, 0⟩ ⟨0, 0, 0⟩).1 ⟨2, 2, 2⟩ = ⟨1, 1, 1⟩ ∧
    transformPoint (MeshView.TransformMesh
        (⟨Real.cos, Real.sin, Real.sqrt, Real.pi / 180, Real.pi, 2 * Real.pi⟩ : Libm ℝ)
        { (ViewerGlobals.initial : ViewerGlobals ℝ) with
          meshlist_g := [⟨[⟨1, 1, 1⟩, ⟨2, 1, 1⟩, ⟨1, 2, 2⟩]⟩] }
        0 ⟨[⟨1, 1, 1⟩, ⟨2, 1, 1⟩, ⟨1, 2, 2⟩]⟩ ⟨0, 0, 0⟩ ⟨0, 0, 0⟩).1 ⟨3 / 2, 3 / 2, 3 / 2⟩ =
      ⟨1 / 2, 1 / 2, 1 / 2⟩ ∧
    (⟨1 / 2, 1 / 2, 1 / 2⟩ : Vec3 ℝ) ≠ ⟨(2 * ((0 : Int) : ℝ) + 1) / 1 - 1, 0, 0⟩ := by
  have happ := fun p => TransformMesh_apply (Real.pi / 180) Real.pi (2 * Real.pi)
    { (ViewerGlobals.initial : ViewerGlobals ℝ) with
      meshlist_g := [⟨[⟨1, 1, 1⟩, ⟨2, 1, 1⟩, ⟨1, 2, 2⟩]⟩] }
    0 ⟨[⟨1, 1, 1⟩, ⟨2, 1, 1⟩, ⟨1, 2, 2⟩]⟩ ⟨0, 0, 0⟩ ⟨0, 0, 0⟩ p rfl rfl
  simp only [] at happ
  refine ⟨?_, ?_, ?_, ?_⟩
  · rw [happ]
    apply Vec3.ext <;> norm_num [TriMesh.GetBoundingBox]
  · rw [happ]
    apply Vec3.ext <;> norm_num [TriMesh.GetBoundingBox]
  · rw [happ]
    apply Vec3.ext <;> norm_num [TriMesh.GetBoundingBox]
  · intro h
    have hx := congrArg Vec3.x h
    norm_num at hx

end TransformFailing

section MouseControl

set_option linter.unusedSectionVars false

variable {K : Type} [LinearOrderedField K]

/-- A left-button press at `(x0, y0)` followed by a left-button release at `(x1, y1)`:
`delta_x` is `x1 - x0`, but the press stores `y0` in `yf`, `yi` keeps the value it had, and
`delta_y` is `y1` minus that value. -/
theorem mouse_press_release (g : ViewerGlobals K) (x0 y0 x1 y1 : K) :
    (MeshView.mouse_button_callback
        (MeshView.mouse_button_callback g (x0, y0) GLFW_MOUSE_BUTTON_LEFT GLFW_PRESS)
        (x1, y1) GLFW_MOUSE_BUTTON_LEFT GLFW_RELEASE).delta_x = x1 - x0 ∧
    (MeshView.mouse_button_callback
        (MeshView.mouse_button_callback g (x0, y0) GLFW_MOUSE_BUTTON_LEFT GLFW_PRESS)
        (x1, y1) GLFW_MOUSE_BUTTON_LEFT GLFW_RELEASE).delta_y = y1 - g.yi ∧
    (MeshView.mouse_button_callback
        (MeshView.mouse_button_callback g (x0, y0) GLFW_MOUSE_BUTTON_LEFT GLFW_PRESS)
        (x1, y1) GLFW_MOUSE_BUTTON_LEFT GLFW_RELEASE).yi = g.yi := by
  simp [MeshView.mouse_button_callback, GLFW_PRESS, GLFW_RELEASE, GLFW_MOUSE_BUTTON_LEFT]

/-- C17. From the initial globals, a left-button press with the cursor at `(0, 5)` and a
release at `(0, 7)` leave `delta_x = 0` and `delta_y = 7`, not the drag `7 - 5 = 2`: the
press writes the cursor's y into `yf`, and `yi` stays 0. -/
theorem mouse_delta_y_not_drag :
    (MeshView.mouse_button_callback
        (MeshView.mouse_button_callback (ViewerGlobals.initial : ViewerGlobals ℚ) (0, 5)
          GLFW_MOUSE_BUTTON_LEFT GLFW_PRESS)
        (0, 7) GLFW_MOUSE_BUTTON_LEFT GLFW_RELEASE).delta_x = 0 - 0 ∧
    (MeshView.mouse_button_callback
        (MeshView.mouse_button_callback (ViewerGlobals.initial : ViewerGlobals ℚ) (0, 5)
          GLFW_MOUSE_BUTTON_LEFT GLFW_PRESS)
        (0, 7) GLFW_MOUSE_BUTTON_LEFT GLFW_RELEASE).delta_y = 7 ∧
    (MeshView.mouse_button_callback
        (MeshView.mouse_button_callback (ViewerGlobals.initial : ViewerGlobals ℚ) (0, 5)
          GLFW_MOUSE_BUTTON_LEFT GLFW_PRESS)
        (0, 7) GLFW_MOUSE_BUTTON_LEFT GLFW_RELEASE).delta_y ≠ 7 - 5 := by
  have h := mouse_press_release (ViewerGlobals.initial : ViewerGlobals ℚ) 0 5 0 7
  have hyi : (ViewerGlobals.initial : ViewerGlobals ℚ).yi = 0 := rfl
  rw [hyi] at h
  refine ⟨h.1, ?_, ?_⟩
  · rw [h.2.1]; norm_num
  · rw [h.2.1]; norm_num

end MouseControl

/-! ## Recursion depth and frame of `DivideTriangle` -/

section Termination

set_option linter.unusedSectionVars false

variable {K : Type} [Field K]

/-- The counted version of `DivideTriangle` returns the buffer of `DivideTriangle`; its
recursion depth is `level.toNat` and it makes `(4 ^ (level.toNat + 1) - 4) / 3` recursive
calls. -/
theorem DivideTriangleTraced_aux (L : Libm K) (twist_angle : K) (center : Vec3 K) :
    ∀ (n : Nat) (level : Int), level.toNat = n →
      ∀ (p0 p1 p2 color1 color2 : Vec3 K) (buf : List K),
        (DivideTriangleTraced L p0 p1 p2 level color1 color2 twist_angle center buf).out =
            DivideTriangle L p0 p1 p2 level color1 color2 twist_angle center buf ∧
          (DivideTriangleTraced L p0 p1 p2 level color1 color2 twist_angle center buf).depth =
            n ∧
          3 * (DivideTriangleTraced L p0 p1 p2 level color1 color2 twist_angle center
            buf).calls + 4 = 4 ^ (n + 1) := by
  intro n
  induction n with
  | zero =>
    intro level hl p0 p1 p2 color1 color2 buf
    have h : level ≤ 0 := by omega
    rw [DivideTriangleTraced, DivideTriangle]
    simp [h]
  | succ n ih =>
    intro level hl p0 p1 p2 color1 color2 buf
    have h : ¬ level ≤ 0 := by omega
    have h1 : (level - 1).toNat = n := by omega
    rw [DivideTriangleTraced, DivideTriangle]
    simp only [h, dite_false]
    have a1 := ih (level - 1) h1
    refine ⟨?_, ?_, ?_⟩
    · rw [(a1 _ _ _ _ _ _).1, (a1 _ _ _ _ _ _).1, (a1 _ _ _ _ _ _).1, (a1 _ _ _ _ _ _).1]
    · rw [(a1 _ _ _ _ _ _).2.1, (a1 _ _ _ _ _ _).2.1, (a1 _ _ _ _ _ _).2.1,
        (a1 _ _ _ _ _ _).2.1]
      simp
      omega
    · have hc : ∀ (q0 q1 q2 c1 c2 : Vec3 K) (b : List K),
          (DivideTriangleTraced L q0 q1 q2 (level - 1) c1 c2 twist_angle center b).calls =
            (4 ^ (n + 1) - 4) / 3 := by
        intro q0 q1 q2 c1 c2 b
        have := (a1 q0 q1 q2 c1 c2 b).2.2
        omega
      have h0 := (a1 p0 p1 p2 color1 color2 buf).2.2
      rw [hc, hc, hc, hc]
      have e : 4 ^ (n + 1 + 1) = 4 * 4 ^ (n + 1) := by ring
      rw [e]
      omega

/-- The counted version of the legacy `DivideTriangle` returns the call sequence of
`Legacy.DivideTriangle`; its recursion depth is `level.toNat`. -/
theorem Legacy_DivideTriangleTraced_aux (L : Libm K) (twist_angle : K) (center : Vec3 K) :
    ∀ (n : Nat) (level : Int), level.toNat = n →
      ∀ (p0 p1 p2 color1 color2 : Vec3 K) (calls : List (GLCall K)),
        (Legacy.DivideTriangleTraced L p0 p1 p2 level color1 color2 twist_angle center
            calls).out =
            Legacy.DivideTriangle L p0 p1 p2 level color1 color2 twist_angle center calls ∧
          (Legacy.DivideTriangleTraced L p0 p1 p2 level color1 color2 twist_angle center
            calls).depth = n ∧
          3 * (Legacy.DivideTriangleTraced L p0 p1 p2 level color1 color2 twist_angle center
            calls).calls + 4 = 4 ^ (n + 1) := by
  intro n
  induction n with
  | zero =>
    intro level hl p0 p1 p2 color1 color2 calls
    have h : level ≤ 0 := by omega
    rw [Legacy.DivideTriangleTraced, Legacy.DivideTriangle]
    simp [h]
  | succ n ih =>
    intro level hl p0 p1 p2 color1 color2 calls
    have h : ¬ level ≤ 0 := by omega
    have h1 : (level - 1).toNat = n := by omega
    rw [Legacy.DivideTriangleTraced, Legacy.DivideTriangle]
    simp only [h, dite_false]
    have a1 := ih (level - 1) h1
    refine ⟨?_, ?_, ?_⟩
    · rw [(a1 _ _ _ _ _ _).1, (a1 _ _ _ _ _ _).1, (a1 _ _ _ _ _ _).1, (a1 _ _ _ _ _ _).1]
    · rw [(a1 _ _ _ _ _ _).2.1, (a1 _ _ _ _ _ _).2.1, (a1 _ _ _ _ _ _).2.1,
        (a1 _ _ _ _ _ _).2.1]
      simp
      omega
    · have hc : ∀ (q0 q1 q2 c1 c2 : Vec3 K) (b : List (GLCall K)),
          (Legacy.DivideTriangleTraced L q0 q1 q2 (level - 1) c1 c2 twist_angle center b).calls =
            (4 ^ (n + 1) - 4) / 3 := by
        intro q0 q1 q2 c1 c2 b
        have := (a1 q0 q1 q2 c1 c2 b).2.2
        omega
      have h0 := (a1 p0 p1 p2 color1 color2 calls).2.2
      rw [hc, hc, hc, hc]
      have e : 4 ^ (n + 1 + 1) = 4 * 4 ^ (n + 1) := by ring
      rw [e]
      omega

/-- C18. `DivideTriangle` (examples 02 and 01) returns for every `int` level: the counted
version, a total function, returns the same output with recursion depth `max(level, 0)`;
for every `level ≤ 0`, negative levels included, it makes no recursive call and emits
exactly the one input triangle: three vertices (18 floats in example 02; one `glColor3f`
and three `glVertex3f` in example 01). -/
theorem DivideTriangle_depth (L : Libm K) (p0 p1 p2 : Vec3 K) (level : Int)
    (color1 color2 : Vec3 K) (twist_angle : K) (center : Vec3 K) (buf : List K)
    (calls : List (GLCall K)) :
    (DivideTriangleTraced L p0 p1 p2 level color1 color2 twist_angle center buf).out =
      DivideTriangle L p0 p1 p2 level color1 color2 twist_angle center buf ∧
    (Legacy.DivideTriangleTraced L p0 p1 p2 level color1 color2 twist_angle center calls).out =
      Legacy.DivideTriangle L p0 p1 p2 level color1 color2 twist_angle center calls ∧
    ((DivideTriangleTraced L p0 p1 p2 level color1 color2 twist_angle center buf).depth : Int) =
      max level 0 ∧
    ((Legacy.DivideTriangleTraced L p0 p1 p2 level color1 color2 twist_angle center
      calls).depth : Int) = max level 0 ∧
    (level ≤ 0 →
      (DivideTriangleTraced L p0 p1 p2 level color1 color2 twist_angle center buf).calls = 0 ∧
      (Legacy.DivideTriangleTraced L p0 p1 p2 level color1 color2 twist_angle center
        calls).calls = 0 ∧
      DivideTriangle L p0 p1 p2 level color1 color2 twist_angle center buf =
        buf ++ (vertexFloats (twistPoint L twist_angle center p0) color1 ++
          vertexFloats (twistPoint L twist_angle center p1) color1 ++
          vertexFloats (twistPoint L twist_angle center p2) color1) ∧
      Legacy.DivideTriangle L p0 p1 p2 level color1 color2 twist_angle center calls =
        calls ++ [GLCall.glColor3f color1.x color1.y color1.z,
          GLCall.glVertex3f (twistPoint L twist_angle center p0).x
            (twistPoint L twist_angle center p0).y (twistPoint L twist_angle center p0).z,
          GLCall.glVertex3f (twistPoint L twist_angle center p1).x
            (twistPoint L twist_angle center p1).y (twistPoint L twist_angle center p1).z,
          GLCall.glVertex3f (twistPoint L twist_angle center p2).x
            (twistPoint L twist_angle center p2).y (twistPoint L twist_angle center p2).z]) := by
  have a := DivideTriangleTraced_aux L twist_angle center level.toNat level rfl p0 p1 p2
    color1 color2 buf
  have b := Legacy_DivideTriangleTraced_aux L twist_angle center level.toNat level rfl p0 p1
    p2 color1 color2 calls
  refine ⟨a.1, b.1, ?_, ?_, ?_⟩
  · rw [a.2.1]; omega
  · rw [b.2.1]; omega
  · intro h
    have hn : level.toNat = 0 := by omega
    have ca := a.2.2
    have cb := b.2.2
    rw [hn] at ca cb
    refine ⟨by omega, by omega, ?_, ?_⟩
    · rw [DivideTriangle_leaf L p0 p1 p2 level color1 color2 twist_angle center buf h]
      simp [leafFloats]
    · rw [Legacy.DivideTriangle]
      simp [h, legacyVertex, push_back, twistPoint]

/-- Witness for C18: level `-3` in both examples. -/
theorem DivideTriangle_depth_witness :
    (DivideTriangleTraced (⟨fun _ => 1, fun _ => 0, fun x => x, 0, 0, 0⟩ : Libm ℚ) ⟨0, 1, 0⟩
        ⟨1, 0, 0⟩ ⟨-1, 0, 0⟩ (-3) ⟨1, 0, 0⟩ ⟨0, 1, 0⟩ 0 ⟨0, 0, 0⟩ []).calls = 0 ∧
    (Legacy.DivideTriangleTraced (⟨fun _ => 1, fun _ => 0, fun x => x, 0, 0, 0⟩ : Libm ℚ)
        ⟨0, 1, 0⟩ ⟨1, 0, 0⟩ ⟨-1, 0, 0⟩ (-3) ⟨1, 0, 0⟩ ⟨0, 1, 0⟩ 0 ⟨0, 0, 0⟩ []).calls = 0 :=
  ⟨((DivideTriangle_depth (⟨fun _ => 1, fun _ => 0, fun x => x, 0, 0, 0⟩ : Libm ℚ) ⟨0, 1, 0⟩
      ⟨1, 0, 0⟩ ⟨-1, 0, 0⟩ (-3) ⟨1, 0, 0⟩ ⟨0, 1, 0⟩ 0 ⟨0, 0, 0⟩ [] []).2.2.2.2
      (by decide)).1,
   ((DivideTriangle_depth (⟨fun _ => 1, fun _ => 0, fun x => x, 0, 0, 0⟩ : Libm ℚ) ⟨0, 1, 0⟩
      ⟨1, 0, 0⟩ ⟨-1, 0, 0⟩ (-3) ⟨1, 0, 0⟩ ⟨0, 1, 0⟩ 0 ⟨0, 0, 0⟩ [] []).2.2.2.2
      (by decide)).2.1⟩

end Termination

/-! ## Point lights -/

section Lights

set_option linter.unusedSectionVars false

variable {K : Type} [LinearOrderedField K]

theorem collectPointLights_fold (lights : List (Light K))
    (acc : List (Vec3 K × Vec3 K × Vec3 K)) :
    lights.foldl (fun point_lights light =>
        match light with
        | Light.point p i a => push_back point_lights (p, i, a)
        | Light.other => point_lights) acc = acc ++ pointLightsOf lights := by
  induction lights generalizing acc with
  | nil => simp [pointLightsOf]
  | cons l ls ih =>
    cases l with
    | point p i a =>
      have e : pointLightsOf (Light.point p i a :: ls) = (p, i, a) :: pointLightsOf ls := rfl
      rw [List.foldl_cons, ih, e]
      simp [push_back]
    | other =>
      have e : pointLightsOf (Light.other :: ls) = pointLightsOf ls := rfl
      rw [List.foldl_cons, ih, e]

/-- The loop of `SetLights` over the light list collects the `PointLight`s in list
order. -/
theorem collectPointLights_eq (lights : List (Light K)) :
    collectPointLights lights = pointLightsOf lights := by
  have h := collectPointLights_fold lights []
  rw [List.nil_append] at h
  exact h

theorem SetUniformVec3_calls (program_id_ : Nat) (location : UniformName → Int)
    (name : UniformName) (v : Vec3 K) (calls : List (GLUniformCall K))
    (hp : program_id_ ≠ 0) :
    (GLShader.SetUniformVec3 program_id_ location name v calls).2 =
      calls ++ uploadVec3 location name v := by
  unfold GLShader.SetUniformVec3 uploadVec3
  simp only [hp, if_false]
  split_ifs <;> simp [push_back]

theorem SetUniformUInt_calls (program_id_ : Nat) (location : UniformName → Int)
    (name : UniformName) (value : Nat) (calls : List (GLUniformCall K))
    (hp : program_id_ ≠ 0) :
    (GLShader.SetUniformUInt program_id_ location name value calls).2 =
      calls ++ uploadUInt location name value := by
  unfold GLShader.SetUniformUInt uploadUInt
  simp only [hp, if_false]
  split_ifs <;> simp [push_back]

/-- The loop of `SetLights` over the collected point lights, from index `pre.length` on. -/
theorem setLightLoop (program_id_ : Nat) (location : UniformName → Int)
    (view_matrix : GlmMat4 K) (hp : program_id_ ≠ 0) :
    ∀ (rest pre : List (Vec3 K × Vec3 K × Vec3 K)) (calls : List (GLUniformCall K)),
      (List.range' pre.length rest.length).foldl
          (setLightBody program_id_ location view_matrix (pre ++ rest)) calls =
        calls ++ pointLightUploads location view_matrix pre.length rest := by
  intro rest
  induction rest with
  | nil => intro pre calls; simp [pointLightUploads]
  | cons l rest ih =>
    intro pre calls
    have hget : (pre ++ l :: rest)[pre.length]? = some l := by
      rw [List.getElem?_append_right (le_refl _)]
      simp
    have hpre : pre ++ l :: rest = (pre ++ [l]) ++ rest := by simp
    have hlen : (pre ++ [l]).length = pre.length + 1 := by simp
    simp only [List.length_cons, List.range'_succ, List.foldl_cons]
    rw [hpre, ← hlen, ih (pre ++ [l])]
    rw [← hpre, hlen]
    simp only [setLightBody, hget, SetUniformVec3_calls _ _ _ _ _ hp, pointLightUploads,
      List.append_assoc]

/-- C19. `SetLights` with a non-zero program returns true and issues, in this order, the
upload of `point_light_count` with the number of `PointLight`s in the light list and, for
the k-th `PointLight` in list order (other entries are skipped and take no index), the
uploads of `point_lights[k].position` (the xyz part of `view_matrix * (position, 1)`),
`point_lights[k].intensity` and `point_lights[k].ambient`, where a uniform is uploaded only
when its location is non-negative; when every location is non-negative all of them are
uploaded. With program id 0 it returns false and uploads nothing. -/
theorem SetLights_uploads (program_id_ : Nat) (location : UniformName → Int)
    (view_matrix : GlmMat4 K) (lights : List (Light K)) (hp : program_id_ ≠ 0) :
    GLPhongShader.SetLights program_id_ location view_matrix lights =
      (true, uploadUInt location UniformName.point_light_count (pointLightsOf lights).length ++
        pointLightUploads location view_matrix 0 (pointLightsOf lights)) ∧
    (pointLightsOf lights).length =
      lights.countP (fun light => match light with
        | Light.point _ _ _ => true
        | Light.other => false) ∧
    (∀ (name : UniformName) (value : Nat), 0 ≤ location name →
      (uploadUInt location name value : List (GLUniformCall K)) =
        [GLUniformCall.glUniform1ui (location name) value]) ∧
    (∀ (name : UniformName) (value : Vec3 K), 0 ≤ location name →
      uploadVec3 location name value = [GLUniformCall.glUniform3fv (location name) value]) ∧
    GLPhongShader.SetLights 0 location view_matrix lights = (false, []) := by
  refine ⟨?_, ?_, ?_, ?_, ?_⟩
  · unfold GLPhongShader.SetLights
    simp only [hp, if_false, forLoop, collectPointLights_eq, Nat.sub_zero]
    have h := setLightLoop program_id_ location view_matrix hp (pointLightsOf lights) []
    simp only [List.length_nil, List.nil_append] at h
    rw [h, SetUniformUInt_calls _ _ _ _ _ hp]
    simp
  · induction lights with
    | nil => simp [pointLightsOf]
    | cons l ls ih =>
      cases l with
      | point p i a =>
        simp only [pointLightsOf, List.filterMap_cons, List.length_cons, List.countP_cons] at ih ⊢
        simp [ih]
      | other =>
        simp only [pointLightsOf, List.filterMap_cons, List.countP_cons] at ih ⊢
        simp [ih]
  · intro name value h
    simp [uploadUInt, not_lt.mpr h]
  · intro name value h
    simp [uploadVec3, not_lt.mpr h]
  · simp [GLPhongShader.SetLights]

/-- Witness for C19: program 1, every uniform at location 7, one light of another kind
followed by one `PointLight`. -/
theorem SetLights_uploads_witness :
    GLPhongShader.SetLights 1 (fun _ => 7) (fun c r => if c = r then (1 : ℚ) else 0)
        [Light.other, Light.point ⟨1, 2, 3⟩ ⟨1, 1, 1⟩ ⟨0, 0, 0⟩] =
      (true, uploadUInt (fun _ => 7) UniformName.point_light_count
          (pointLightsOf [Light.other, Light.point (⟨1, 2, 3⟩ : Vec3 ℚ) ⟨1, 1, 1⟩
            ⟨0, 0, 0⟩]).length ++
        pointLightUploads (fun _ => 7) (fun c r => if c = r then (1 : ℚ) else 0) 0
          (pointLightsOf [Light.other, Light.point ⟨1, 2, 3⟩ ⟨1, 1, 1⟩ ⟨0, 0, 0⟩])) :=
  (SetLights_uploads 1 (fun _ => 7) (fun c r => if c = r then (1 : ℚ) else 0)
    [Light.other, Light.point ⟨1, 2, 3⟩ ⟨1, 1, 1⟩ ⟨0, 0, 0⟩] (by decide)).1

/-- With a non-zero program whose shader has none of the uniforms (every location is
`-1`), `SetLights` with one `PointLight` in the list returns true and uploads nothing. -/
theorem SetLights_skips_absent_uniforms :
    GLPhongShader.SetLights 1 (fun _ => -1) (fun c r => if c = r then (1 : ℚ) else 0)
        [Light.point ⟨1, 2, 3⟩ ⟨1, 1, 1⟩ ⟨0, 0, 0⟩] = (true, []) := by
  simp [GLPhongShader.SetLights, collectPointLights, push_back, forLoop, setLightBody,
    GLShader.SetUniformUInt, GLShader.SetUniformVec3]

end Lights

section Frame

set_option linter.unusedSectionVars false

variable {K : Type} [Field K]

/-- C20. `DivideTriangle` (examples 02 and 03) only appends: for every buffer content `b`
and all arguments, the buffer after the call is `b` followed by the floats that the same
call appends to the empty buffer, a sequence fixed by the arguments `p0, p1, p2, level,
color1, color2, twist_angle, center` alone; so two calls with equal arguments append equal
sequences, whatever the buffers held. -/
theorem DivideTriangle_appends_only (L : Libm K) (p0 p1 p2 : Vec3 K) (level : Int)
    (color1 color2 : Vec3 K) (twist_angle : K) (center : Vec3 K) :
    (∀ b : List K, DivideTriangle L p0 p1 p2 level color1 color2 twist_angle center b =
      b ++ DivideTriangle L p0 p1 p2 level color1 color2 twist_angle center []) ∧
    (∀ b : List K,
      TwistTriangle.DivideTriangle L p0 p1 p2 level color1 color2 twist_angle center b =
        b ++ TwistTriangle.DivideTriangle L p0 p1 p2 level color1 color2 twist_angle center
          []) ∧
    (∀ b b' : List K,
      (DivideTriangle L p0 p1 p2 level color1 color2 twist_angle center b).drop b.length =
        (DivideTriangle L p0 p1 p2 level color1 color2 twist_angle center b').drop
          b'.length) ∧
    (∀ b b' : List K,
      (TwistTriangle.DivideTriangle L p0 p1 p2 level color1 color2 twist_angle center b).drop
          b.length =
        (TwistTriangle.DivideTriangle L p0 p1 p2 level color1 color2 twist_angle center
          b').drop b'.length) := by
  have h2 := fun b => DivideTriangle_eq_leaves_aux L twist_angle center level.toNat level rfl
    p0 p1 p2 color1 color2 b
  have h3 := fun b => TwistTriangle_eq_leaves_aux L twist_angle center level.toNat level rfl
    p0 p1 p2 color1 color2 b
  refine ⟨?_, ?_, ?_, ?_⟩
  · intro b
    rw [h2 b, h2 []]
    simp
  · intro b
    rw [h3 b, h3 []]
    simp
  · intro b b'
    rw [h2 b, h2 b']
    simp
  · intro b b'
    rw [h3 b, h3 b']
    simp

end Frame

/-! ## The colours of the leaves -/

section LeafColours

set_option linter.unusedSectionVars false

variable {K : Type} [Field K] [DecidableEq K]

/-- The leaves in emission order are the leaves of all paths in lexicographic order. -/
theorem leafTriangles_eq_paths (n : Nat) :
    ∀ (p0 p1 p2 color1 color2 : Vec3 K),
      leafTriangles n p0 p1 p2 color1 color2 =
        (allPaths n).map (fun path => leafOnPath path p0 p1 p2 color1 color2) := by
  induction n with
  | zero => intro p0 p1 p2 color1 color2; rfl
  | succ n ih =>
    intro p0 p1 p2 color1 color2
    simp only [leafTriangles, allPaths, ih, List.flatMap_cons, List.flatMap_nil,
      List.append_nil, List.map_append, List.map_map, List.append_assoc]
    rfl

/-- The colour of the leaf of a path: `color1` when the path takes the centre child an even
number of times, `color2` when odd. -/
theorem leafOnPath_color (path : List (Fin 4)) :
    ∀ (p0 p1 p2 color1 color2 : Vec3 K),
      (leafOnPath path p0 p1 p2 color1 color2).color =
        if Even (path.count 3) then color1 else color2 := by
  induction path with
  | nil => intro p0 p1 p2 color1 color2; simp [leafOnPath]
  | cons k path ih =>
    intro p0 p1 p2 color1 color2
    have h3 : k = 0 ∨ k = 1 ∨ k = 2 ∨ k = 3 := by fin_cases k <;> simp
    rcases h3 with rfl | rfl | rfl | rfl
    · simp [leafOnPath, ih, List.count_cons]
    · simp [leafOnPath, ih, List.count_cons]
    · simp [leafOnPath, ih, List.count_cons]
    · have e : leafOnPath (3 :: path) p0 p1 p2 color1 color2 =
          leafOnPath path (Vec3.smul (1 / 2) (p0 + p1)) (Vec3.smul (1 / 2) (p1 + p2))
            (Vec3.smul (1 / 2) (p0 + p2)) color2 color1 := by
        simp [leafOnPath]
      rw [e, ih]
      by_cases hev : Even (List.count 3 path)
      · simp [List.count_cons, Nat.even_add_one, hev]
      · simp [List.count_cons, Nat.even_add_one, hev]

/-- Counting the leaves by colour, for both orders of the colour pair. -/
theorem leaf_colour_counts (n : Nat) :
    ∀ (p0 p1 p2 a b : Vec3 K), a ≠ b →
      2 * (leafTriangles n p0 p1 p2 a b).countP (fun l => decide (l.color = a)) =
        4 ^ n + 2 ^ n ∧
      2 * (leafTriangles n p0 p1 p2 b a).countP (fun l => decide (l.color = a)) + 2 ^ n =
        4 ^ n := by
  induction n with
  | zero =>
    intro p0 p1 p2 a b hab
    simp [leafTriangles, Ne.symm hab]
  | succ n ih =>
    intro p0 p1 p2 a b hab
    have e4 : 4 ^ (n + 1) = 4 * 4 ^ n := by ring
    have e2 : 2 ^ (n + 1) = 2 * 2 ^ n := by ring
    simp only [leafTriangles, List.countP_append, e4, e2]
    have h1 := (ih p0 (Vec3.smul (1 / 2) (p0 + p1)) (Vec3.smul (1 / 2) (p0 + p2)) a b hab)
    have h2 := (ih (Vec3.smul (1 / 2) (p0 + p1)) p1 (Vec3.smul (1 / 2) (p1 + p2)) a b hab)
    have h3 := (ih (Vec3.smul (1 / 2) (p0 + p2)) (Vec3.smul (1 / 2) (p1 + p2)) p2 a b hab)
    have h4 := (ih (Vec3.smul (1 / 2) (p0 + p1)) (Vec3.smul (1 / 2) (p1 + p2))
      (Vec3.smul (1 / 2) (p0 + p2)) a b hab)
    constructor
    · have := h1.1
      have := h2.1
      have := h3.1
      have := h4.2
      omega
    · have := h1.2
      have := h2.2
      have := h3.2
      have := h4.1
      omega

/-- C21. For every level `n ≥ 0` and distinct colours, of the `4^n` leaf triangles that
`DivideTriangle` (examples 02 and 03) emits exactly `(4^n + 2^n) / 2` carry `color1` and
exactly `(4^n - 2^n) / 2` carry `color2`; the three vertices of a leaf carry the colour of
the leaf, which is `color1` when the path from the root takes the centre child an even
number of times and `color2` when odd. -/
theorem DivideTriangle_colour_counts (L : Libm K) (p0 p1 p2 : Vec3 K) (n : Nat)
    (color1 color2 : Vec3 K) (twist_angle : K) (center : Vec3 K) (buf : List K)
    (hc : color1 ≠ color2) :
    DivideTriangle L p0 p1 p2 (n : Int) color1 color2 twist_angle center buf =
      buf ++ (leafTriangles n p0 p1 p2 color1 color2).flatMap
        (leafFloats L twist_angle center) ∧
    TwistTriangle.DivideTriangle L p0 p1 p2 (n : Int) color1 color2 twist_angle center buf =
      buf ++ (leafTriangles n p0 p1 p2 color1 color2).flatMap
        (leafFloats L twist_angle center) ∧
    (leafTriangles n p0 p1 p2 color1 color2).length = 4 ^ n ∧
    (leafTriangles n p0 p1 p2 color1 color2).countP (fun l => decide (l.color = color1)) =
      (4 ^ n + 2 ^ n) / 2 ∧
    (leafTriangles n p0 p1 p2 color1 color2).countP (fun l => decide (l.color = color2)) =
      (4 ^ n - 2 ^ n) / 2 ∧
    (∀ l : Leaf K, leafFloats L twist_angle center l =
      vertexFloats (twistPoint L twist_angle center l.q0) l.color ++
        vertexFloats (twistPoint L twist_angle center l.q1) l.color ++
        vertexFloats (twistPoint L twist_angle center l.q2) l.color) ∧
    leafTriangles n p0 p1 p2 color1 color2 =
      (allPaths n).map (fun path => leafOnPath path p0 p1 p2 color1 color2) ∧
    (∀ path : List (Fin 4), (leafOnPath path p0 p1 p2 color1 color2).color =
      if Even (path.count 3) then color1 else color2) := by
  have h1 := (leaf_colour_counts n p0 p1 p2 color1 color2 hc).1
  have h2 := (leaf_colour_counts n p0 p1 p2 color2 color1 (Ne.symm hc)).2
  refine ⟨DivideTriangle_eq_leaves_aux L twist_angle center n n (by simp) p0 p1 p2 color1
      color2 buf,
    TwistTriangle_eq_leaves_aux L twist_angle center n n (by simp) p0 p1 p2 color1 color2 buf,
    leafTriangles_length n p0 p1 p2 color1 color2, by omega, by omega, fun _ => rfl,
    leafTriangles_eq_paths n p0 p1 p2 color1 color2,
    fun path => leafOnPath_color path p0 p1 p2 color1 color2⟩

/-- Witness for C21: level 1 with red and green; three leaves are red and one is green. -/
theorem DivideTriangle_colour_counts_witness :
    (leafTriangles 1 (⟨0, 1, 0⟩ : Vec3 ℚ) ⟨1, 0, 0⟩ ⟨-1, 0, 0⟩ ⟨1, 0, 0⟩ ⟨0, 1, 0⟩).countP
        (fun l => decide (l.color = ⟨1, 0, 0⟩)) = (4 ^ 1 + 2 ^ 1) / 2 ∧
    (leafTriangles 1 (⟨0, 1, 0⟩ : Vec3 ℚ) ⟨1, 0, 0⟩ ⟨-1, 0, 0⟩ ⟨1, 0, 0⟩ ⟨0, 1, 0⟩).countP
        (fun l => decide (l.color = ⟨0, 1, 0⟩)) = (4 ^ 1 - 2 ^ 1) / 2 :=
  ⟨(DivideTriangle_colour_counts (⟨fun _ => 1, fun _ => 0, fun x => x, 0, 0, 0⟩ : Libm ℚ)
      ⟨0, 1, 0⟩ ⟨1, 0, 0⟩ ⟨-1, 0, 0⟩ 1 ⟨1, 0, 0⟩ ⟨0, 1, 0⟩ 0 ⟨0, 0, 0⟩ []
      (by decide)).2.2.2.1,
   (DivideTriangle_colour_counts (⟨fun _ => 1, fun _ => 0, fun x => x, 0, 0, 0⟩ : Libm ℚ)
      ⟨0, 1, 0⟩ ⟨1, 0, 0⟩ ⟨-1, 0, 0⟩ 1 ⟨1, 0, 0⟩ ⟨0, 1, 0⟩ 0 ⟨0, 0, 0⟩ []
      (by decide)).2.2.2.2.1⟩

end LeafColours

/-! ## The Euler characteristic of the sphere mesh -/

section EdgeCount

set_option linter.unusedSectionVars false

variable {α : Type} [DecidableEq α]

/-- In a face with three distinct corners an undirected edge occurs at most once. -/
theorem count_edge_in_face (f : α × α × α) (hd : DistinctCorners f) (e : α × α) :
    ((faceEdges f).map Sym2.mk).count (Sym2.mk e) =
      if e ∈ faceEdges f ∨ e.swap ∈ faceEdges f then 1 else 0 := by
  obtain ⟨a, b, c⟩ := f
  obtain ⟨u, v⟩ := e
  simp only [DistinctCorners, ne_eq] at hd
  obtain ⟨d1, d2, d3⟩ := hd
  have x12 : Sym2.mk (a, b) ≠ Sym2.mk (b, c) := by
    rw [Ne, Sym2.eq_iff]
    rintro (⟨h, -⟩ | ⟨h, -⟩)
    · exact d1 h
    · exact d3 h.symm
  have x13 : Sym2.mk (a, b) ≠ Sym2.mk (c, a) := by
    rw [Ne, Sym2.eq_iff]
    rintro (⟨h, -⟩ | ⟨-, h⟩)
    · exact d3 h.symm
    · exact d2 h
  have x23 : Sym2.mk (b, c) ≠ Sym2.mk (c, a) := by
    rw [Ne, Sym2.eq_iff]
    rintro (⟨h, -⟩ | ⟨h, -⟩)
    · exact d2 h
    · exact d1 h.symm
  have hM : ((u, v) ∈ faceEdges (a, b, c) ∨ (u, v).swap ∈ faceEdges (a, b, c)) ↔
      (Sym2.mk (a, b) = Sym2.mk (u, v) ∨ Sym2.mk (b, c) = Sym2.mk (u, v) ∨
        Sym2.mk (c, a) = Sym2.mk (u, v)) := by
    simp only [faceEdges, List.mem_cons, List.mem_singleton, List.not_mem_nil, or_false,
      Prod.mk.injEq, Prod.swap_prod_mk, Sym2.eq_iff]
    constructor
    · rintro ((⟨rfl, rfl⟩ | ⟨rfl, rfl⟩ | ⟨rfl, rfl⟩) | (⟨rfl, rfl⟩ | ⟨rfl, rfl⟩ | ⟨rfl, rfl⟩)) <;>
        simp
    · rintro ((⟨rfl, rfl⟩ | ⟨rfl, rfl⟩) | (⟨rfl, rfl⟩ | ⟨rfl, rfl⟩) | (⟨rfl, rfl⟩ | ⟨rfl, rfl⟩)) <;>
        simp
  rw [if_congr hM rfl rfl]
  simp only [faceEdges, List.map_cons, List.map_nil, List.count_cons, List.count_nil,
    beq_iff_eq, zero_add]
  by_cases q1 : Sym2.mk (a, b) = Sym2.mk (u, v)
  · have q2 : ¬ Sym2.mk (b, c) = Sym2.mk (u, v) := fun h => x12 (q1.trans h.symm)
    have q3 : ¬ Sym2.mk (c, a) = Sym2.mk (u, v) := fun h => x13 (q1.trans h.symm)
    simp [q1, q2, q3]
  · by_cases q2 : Sym2.mk (b, c) = Sym2.mk (u, v)
    · have q3 : ¬ Sym2.mk (c, a) = Sym2.mk (u, v) := fun h => x23 (q2.trans h.symm)
      simp [q1, q2, q3]
    · by_cases q3 : Sym2.mk (c, a) = Sym2.mk (u, v)
      · simp [q1, q2, q3]
      · simp [q1, q2, q3]

/-- The number of occurrences of an undirected edge among the edges of all faces is the
number of faces that have it. -/
theorem count_edge_in_faces (faces : List (α × α × α))
    (hd : ∀ f ∈ faces, DistinctCorners f) (e : α × α) :
    ((dirEdges faces).map Sym2.mk).count (Sym2.mk e) = facesWithEdge faces e := by
  induction faces with
  | nil => simp [dirEdges, facesWithEdge]
  | cons f fs ih =>
    have h1 := count_edge_in_face f (hd f (List.mem_cons_self _ _)) e
    have h2 := ih (fun g hg => hd g (List.mem_cons_of_mem _ hg))
    simp only [dirEdges, facesWithEdge, List.flatMap_cons, List.map_append, List.count_append,
      List.countP_cons] at h2 ⊢
    rw [h1, h2]
    by_cases hp : e ∈ faceEdges f ∨ e.swap ∈ faceEdges f
    · simp [hp]
      omega
    · simp [hp]

theorem dirEdges_length (faces : List (α × α × α)) :
    (dirEdges faces).length = 3 * faces.length := by
  induction faces with
  | nil => rfl
  | cons f fs ih =>
    simp only [dirEdges, List.flatMap_cons, List.length_append, List.length_cons] at ih ⊢
    rw [ih]
    simp [faceEdges]
    omega

theorem dedup_length_of_count_two {β : Type} [DecidableEq β] (l : List β)
    (h : ∀ x ∈ l, l.count x = 2) : 2 * l.dedup.length = l.length := by
  have hs := List.sum_map_count_dedup_eq_length l
  have hc : l.dedup.map (fun x => l.count x) = l.dedup.map (fun _ => 2) := by
    apply List.map_congr_left
    intro x hx
    exact h x (List.mem_dedup.mp hx)
  rw [hc] at hs
  simp at hs
  omega

/-- A watertight manifold has three edges for every two faces. -/
theorem watertight_edge_count (faces : List (α × α × α)) (hw : WatertightManifold faces) :
    2 * (undirectedEdges faces).length = 3 * faces.length := by
  unfold undirectedEdges
  rw [dedup_length_of_count_two, List.length_map, dirEdges_length]
  intro x hx
  obtain ⟨e, he, rfl⟩ := List.mem_map.mp hx
  rw [count_edge_in_faces faces hw.1 e]
  obtain ⟨f, hf, hef⟩ := (mem_dirEdges faces e).mp he
  exact hw.2 f hf e hef

end EdgeCount

/-- Every vertex of the symbolic mesh is a corner of a face. -/
theorem symFaces_vertex_used (grid_nx grid_ny : Nat) (hx : 1 ≤ grid_nx) (_hy : 2 ≤ grid_ny)
    (a : GV) (ha : a.Valid grid_nx grid_ny) :
    ∃ f ∈ symFaces grid_nx grid_ny, f.1 = a ∨ f.2.1 = a ∨ f.2.2 = a := by
  cases a with
  | grid j i =>
    simp only [GV.Valid] at ha
    obtain ⟨h1, h2, h3⟩ := ha
    by_cases hj : j = 1
    · subst hj
      exact ⟨_, bottomFace_mem grid_nx grid_ny i h3, Or.inr (Or.inr rfl)⟩
    · obtain ⟨k, rfl⟩ : ∃ k, j = k + 1 := ⟨j - 1, by omega⟩
      exact ⟨_, quad2_mem grid_nx grid_ny k i (by omega) (by omega) h3, Or.inr (Or.inr rfl)⟩
  | bottom => exact ⟨_, bottomFace_mem grid_nx grid_ny 0 (by omega), Or.inl rfl⟩
  | top => exact ⟨_, topFace_mem grid_nx grid_ny 0 (by omega), Or.inl rfl⟩

/-- Every number below the vertex count is the number of a vertex of the mesh. -/
theorem vertexNumber_surj (grid_nx grid_ny : Nat) (hx : 1 ≤ grid_nx) (v : Nat)
    (hv : v < grid_nx * (grid_ny - 1) + 2) :
    ∃ a : GV, a.Valid grid_nx grid_ny ∧ vertexNumber grid_nx grid_ny a = (v : Int) := by
  by_cases h1 : v < grid_nx * (grid_ny - 1)
  · refine ⟨GV.grid (v / grid_nx + 1) (v % grid_nx), ?_, ?_⟩
    · have hd : v / grid_nx < grid_ny - 1 := by
        rw [Nat.div_lt_iff_lt_mul (by omega)]
        rw [Nat.mul_comm]
        exact h1
      generalize v / grid_nx = d at hd
      exact ⟨by omega, by omega, Nat.mod_lt _ (by omega)⟩
    · simp only [vertexNumber, Nat.add_sub_cancel]
      have := Nat.div_add_mod v grid_nx
      rw [Nat.mul_comm] at this
      rw [this]
  · by_cases h2 : v = grid_nx * (grid_ny - 1)
    · exact ⟨GV.bottom, trivial, by simp [vertexNumber, h2]⟩
    · have h3 : v = grid_nx * (grid_ny - 1) + 1 := by omega
      exact ⟨GV.top, trivial, by simp [vertexNumber, h3]⟩

section EulerClaim

set_option linter.unusedSectionVars false

variable {K : Type} [LinearOrderedField K]

/-- C22. For every `grid_nx ≥ 3` and `grid_ny ≥ 2` the mesh of `BuildWatertightSphere` has
`V = grid_nx (grid_ny - 1) + 2` vertices, `F = 2 grid_nx (grid_ny - 1)` faces and
`E = 3 grid_nx (grid_ny - 1)` distinct undirected edges, so `V - E + F = 2`, and every
emitted vertex is a corner of at least one face. -/
theorem BuildWatertightSphere_euler (L : Libm K) (center : Vec3 K) (radius : K)
    (grid_nx grid_ny : Nat) (positions normals : List (Vec3 K))
    (face_indices : List (Option Int)) (hx : 3 ≤ grid_nx) (hy : 2 ≤ grid_ny) :
    (BuildWatertightSphere L center radius grid_nx grid_ny positions normals
      face_indices).positions.length = grid_nx * (grid_ny - 1) + 2 ∧
    (facesOf (BuildWatertightSphere L center radius grid_nx grid_ny positions normals
      face_indices).face_indices).length = 2 * grid_nx * (grid_ny - 1) ∧
    (undirectedEdges (facesOf (BuildWatertightSphere L center radius grid_nx grid_ny positions
      normals face_indices).face_indices)).length = 3 * grid_nx * (grid_ny - 1) ∧
    ((BuildWatertightSphere L center radius grid_nx grid_ny positions normals
        face_indices).positions.length : Int) -
      ((undirectedEdges (facesOf (BuildWatertightSphere L center radius grid_nx grid_ny
        positions normals face_indices).face_indices)).length : Int) +
      ((facesOf (BuildWatertightSphere L center radius grid_nx grid_ny positions normals
        face_indices).face_indices).length : Int) = 2 ∧
    ∀ v : Nat, v < (BuildWatertightSphere L center radius grid_nx grid_ny positions normals
        face_indices).positions.length →
      ∃ f ∈ facesOf (BuildWatertightSphere L center radius grid_nx grid_ny positions normals
          face_indices).face_indices,
        f.1 = some (v : Int) ∨ f.2.1 = some (v : Int) ∨ f.2.2 = some (v : Int) := by
  have hf := facesOf_BuildWatertightSphere L center radius grid_nx grid_ny positions normals
    face_indices (by omega) hy
  have hV : (BuildWatertightSphere L center radius grid_nx grid_ny positions normals
      face_indices).positions.length = grid_nx * (grid_ny - 1) + 2 := by
    rw [BuildWatertightSphere_eq L center radius grid_nx grid_ny positions normals
      face_indices (by omega) (by omega)]
    simp [gridPositions_length]
  have hF : (facesOf (BuildWatertightSphere L center radius grid_nx grid_ny positions normals
      face_indices).face_indices).length = 2 * grid_nx * (grid_ny - 1) := by
    rw [hf, List.length_map, symFaces_length grid_nx grid_ny hy]
  have hE2 := watertight_edge_count _ (numbered_watertight grid_nx grid_ny hx hy)
  rw [← hf, hF] at hE2
  have hE : (undirectedEdges (facesOf (BuildWatertightSphere L center radius grid_nx grid_ny
      positions normals face_indices).face_indices)).length = 3 * grid_nx * (grid_ny - 1) := by
    have e : 3 * (2 * grid_nx * (grid_ny - 1)) = 2 * (3 * grid_nx * (grid_ny - 1)) := by ring
    rw [e] at hE2
    omega
  refine ⟨hV, hF, hE, ?_, ?_⟩
  · rw [hV, hE, hF]
    push_cast
    ring
  · intro v hv
    rw [hV] at hv
    obtain ⟨a, ha, hav⟩ := vertexNumber_surj grid_nx grid_ny (by omega) v hv
    obtain ⟨f, hfm, hfa⟩ := symFaces_vertex_used grid_nx grid_ny (by omega) hy a ha
    rw [hf]
    refine ⟨faceNumbers grid_nx grid_ny f, List.mem_map.mpr ⟨f, hfm, rfl⟩, ?_⟩
    simp only [faceNumbers, Option.some.injEq]
    rcases hfa with h | h | h
    · exact Or.inl (by rw [h, hav])
    · exact Or.inr (Or.inl (by rw [h, hav]))
    · exact Or.inr (Or.inr (by rw [h, hav]))

/-- Witness for C22: three columns and two rings give 5 vertices, 6 faces and 9 edges. -/
theorem BuildWatertightSphere_euler_witness :
    (undirectedEdges (facesOf (BuildWatertightSphere
      (⟨fun _ => 1, fun _ => 0, fun x => x, 0, 0, 0⟩ : Libm ℚ) ⟨0, 0, 0⟩ 1 3 2 [] []
      []).face_indices)).length = 3 * 3 * (2 - 1) :=
  (BuildWatertightSphere_euler (⟨fun _ => 1, fun _ => 0, fun x => x, 0, 0, 0⟩ : Libm ℚ)
    ⟨0, 0, 0⟩ 1 3 2 [] [] [] (by decide) (by decide)).2.2.1

end EulerClaim

/-! ## Matrix conversions -/

section GlmEigenLemmas

theorem GLMToEigen_apply {F D : Type} (C : FloatCast F D) (g : GlmMat4 F) (r c : Fin 4) :
    GLMToEigen C g r c = C.toReal (g c r) := by
  fin_cases r <;> fin_cases c <;> rfl

theorem EigenToGLM_apply {F D : Type} (C : FloatCast F D) (m : Mat4r D) (c r : Fin 4) :
    EigenToGLM C m c r = C.toFloat (m r c) := by
  fin_cases r <;> fin_cases c <;> rfl

/-- C23. The conversions transpose the storage order and are inverse to each other: with
`toReal` the exact widening of a single precision value and `toFloat` the rounding of
`cast<float>()`, which returns every single precision value unchanged,
`GLMToEigen(g)(r, c) = g[c][r]` and `EigenToGLM(GLMToEigen(g)) = g` for every `g`, and
`GLMToEigen(EigenToGLM(m)) = m` for every `m` whose entries are single precision values. -/
theorem GLMToEigen_EigenToGLM {F D : Type} (C : FloatCast F D) (g : GlmMat4 F) (m : Mat4r D)
    (hround : ∀ x : F, C.toFloat (C.toReal x) = x)
    (hm : ∀ r c : Fin 4, ∃ x : F, m r c = C.toReal x) :
    (∀ r c : Fin 4, GLMToEigen C g r c = C.toReal (g c r)) ∧
    (∀ c r : Fin 4, EigenToGLM C m c r = C.toFloat (m r c)) ∧
    EigenToGLM C (GLMToEigen C g) = g ∧
    GLMToEigen C (EigenToGLM C m) = m := by
  refine ⟨GLMToEigen_apply C g, EigenToGLM_apply C m, ?_, ?_⟩
  · funext c r
    rw [EigenToGLM_apply, GLMToEigen_apply, hround]
  · funext r c
    obtain ⟨x, hx⟩ := hm r c
    rw [GLMToEigen_apply, EigenToGLM_apply, hx, hround]

/-- Witness for C23: integers as the single precision values, rationals as `Real`, rounding
down; the matrix with entries `4 r + c`. -/
theorem GLMToEigen_EigenToGLM_witness :
    EigenToGLM (⟨fun x => (x : ℚ), fun y => ⌊y⌋⟩ : FloatCast ℤ ℚ)
        (GLMToEigen (⟨fun x => (x : ℚ), fun y => ⌊y⌋⟩ : FloatCast ℤ ℚ)
          ((fun c r => (4 * (r.val : ℤ) + (c.val : ℤ))) : GlmMat4 ℤ)) =
      ((fun c r => (4 * (r.val : ℤ) + (c.val : ℤ))) : GlmMat4 ℤ) ∧
    GLMToEigen (⟨fun x => (x : ℚ), fun y => ⌊y⌋⟩ : FloatCast ℤ ℚ)
        (EigenToGLM (⟨fun x => (x : ℚ), fun y => ⌊y⌋⟩ : FloatCast ℤ ℚ)
          ((fun r c => ((4 * (r.val : ℤ) + (c.val : ℤ) : ℤ) : ℚ)) : Mat4r ℚ)) =
      ((fun r c => ((4 * (r.val : ℤ) + (c.val : ℤ) : ℤ) : ℚ)) : Mat4r ℚ) :=
  ⟨(GLMToEigen_EigenToGLM (⟨fun x => (x : ℚ), fun y => ⌊y⌋⟩ : FloatCast ℤ ℚ)
      ((fun c r => (4 * (r.val : ℤ) + (c.val : ℤ))) : GlmMat4 ℤ)
      ((fun r c => ((4 * (r.val : ℤ) + (c.val : ℤ) : ℤ) : ℚ)) : Mat4r ℚ)
      (fun x => Int.floor_intCast x) (fun r c => ⟨4 * (r.val : ℤ) + (c.val : ℤ), rfl⟩)).2.2.1,
   (GLMToEigen_EigenToGLM (⟨fun x => (x : ℚ), fun y => ⌊y⌋⟩ : FloatCast ℤ ℚ)
      ((fun c r => (4 * (r.val : ℤ) + (c.val : ℤ))) : GlmMat4 ℤ)
      ((fun r c => ((4 * (r.val : ℤ) + (c.val : ℤ) : ℤ) : ℚ)) : Mat4r ℚ)
      (fun x => Int.floor_intCast x) (fun r c => ⟨4 * (r.val : ℤ) + (c.val : ℤ), rfl⟩)).2.2.2⟩

end GlmEigenLemmas

section SphereFrame

set_option linter.unusedSectionVars false

variable {K : Type} [LinearOrderedField K]

/-- C24. `BuildWatertightSphere` returns false exactly when `grid_nx = 0` or
`grid_ny = 0`, and then `positions`, `normals` and `face_indices` are as they were; when it
returns true the three outputs are the same whatever they held before the call. -/
theorem BuildWatertightSphere_frame (L : Libm K) (center : Vec3 K) (radius : K)
    (grid_nx grid_ny : Nat) (positions normals positions' normals' : List (Vec3 K))
    (face_indices face_indices' : List (Option Int)) :
    ((BuildWatertightSphere L center radius grid_nx grid_ny positions normals
        face_indices).ok = false ↔ grid_nx = 0 ∨ grid_ny = 0) ∧
    ((BuildWatertightSphere L center radius grid_nx grid_ny positions normals
        face_indices).ok = false →
      BuildWatertightSphere L center radius grid_nx grid_ny positions normals face_indices =
        ⟨false, positions, normals, face_indices⟩) ∧
    ((BuildWatertightSphere L center radius grid_nx grid_ny positions normals
        face_indices).ok = true →
      BuildWatertightSphere L center radius grid_nx grid_ny positions normals face_indices =
        BuildWatertightSphere L center radius grid_nx grid_ny positions' normals'
          face_indices' ∧
      BuildWatertightSphere L center radius grid_nx grid_ny positions normals face_indices =
        BuildWatertightSphere L center radius grid_nx grid_ny [] [] []) := by
  by_cases hg : grid_nx < 1 ∨ grid_ny < 1
  · have hr : ∀ (p n : List (Vec3 K)) (f : List (Option Int)),
        BuildWatertightSphere L center radius grid_nx grid_ny p n f = ⟨false, p, n, f⟩ := by
      intro p n f
      simp only [BuildWatertightSphere, hg, if_true]
    rw [hr]
    refine ⟨⟨fun _ => by omega, fun _ => rfl⟩, fun _ => rfl, fun h => ?_⟩
    simp at h
  · have hx : 1 ≤ grid_nx := by omega
    have hy : 1 ≤ grid_ny := by omega
    have hr := fun (p n : List (Vec3 K)) (f : List (Option Int)) =>
      BuildWatertightSphere_eq L center radius grid_nx grid_ny p n f hx hy
    rw [hr positions normals face_indices, hr positions' normals' face_indices', hr [] [] []]
    refine ⟨⟨fun h => ?_, fun h => by omega⟩, fun h => ?_, fun _ => ⟨rfl, rfl⟩⟩
    · simp at h
    · simp at h

/-- Witness for C24: the resolution `0 x 10` is rejected and the outputs are kept. -/
theorem BuildWatertightSphere_frame_witness :
    BuildWatertightSphere (⟨fun _ => 1, fun _ => 0, fun x => x, 0, 0, 0⟩ : Libm ℚ) ⟨0, 0, 0⟩ 1 0
        10 [⟨1, 2, 3⟩] [⟨0, 0, 1⟩] [some 7] =
      ⟨false, [⟨1, 2, 3⟩], [⟨0, 0, 1⟩], [some 7]⟩ :=
  (BuildWatertightSphere_frame (⟨fun _ => 1, fun _ => 0, fun x => x, 0, 0, 0⟩ : Libm ℚ)
    ⟨0, 0, 0⟩ 1 0 10 [⟨1, 2, 3⟩] [⟨0, 0, 1⟩] [] [] [some 7] []).2.1
    (by simp [BuildWatertightSphere])

end SphereFrame

section BoundingBoxBounds

set_option linter.unusedSectionVars false

variable {K : Type} [LinearOrderedField K]

theorem foldl_min_le (f : Vec3 K → K) (vs : List (Vec3 K)) (a : K) :
    vs.foldl (fun a p => min a (f p)) a ≤ a ∧
    (∀ v ∈ vs, vs.foldl (fun a p => min a (f p)) a ≤ f v) ∧
    (vs.foldl (fun a p => min a (f p)) a = a ∨
      ∃ v ∈ vs, vs.foldl (fun a p => min a (f p)) a = f v) := by
  induction vs generalizing a with
  | nil => simp
  | cons w ws ih =>
    simp only [List.foldl_cons, List.mem_cons, forall_eq_or_imp]
    obtain ⟨h1, h2, h3⟩ := ih (min a (f w))
    refine ⟨le_trans h1 (min_le_left _ _), ⟨le_trans h1 (min_le_right _ _), h2⟩, ?_⟩
    rcases h3 with h3 | ⟨v, hv, h3⟩
    · rcases min_choice a (f w) with h | h
      · left; rw [h3, h]
      · right; exact ⟨w, Or.inl rfl, by rw [h3, h]⟩
    · right; exact ⟨v, Or.inr hv, h3⟩

theorem le_foldl_max (f : Vec3 K → K) (vs : List (Vec3 K)) (a : K) :
    a ≤ vs.foldl (fun a p => max a (f p)) a ∧
    (∀ v ∈ vs, f v ≤ vs.foldl (fun a p => max a (f p)) a) ∧
    (vs.foldl (fun a p => max a (f p)) a = a ∨
      ∃ v ∈ vs, vs.foldl (fun a p => max a (f p)) a = f v) := by
  induction vs generalizing a with
  | nil => simp
  | cons w ws ih =>
    simp only [List.foldl_cons, List.mem_cons, forall_eq_or_imp]
    obtain ⟨h1, h2, h3⟩ := ih (max a (f w))
    refine ⟨le_trans (le_max_left _ _) h1, ⟨le_trans (le_max_right _ _) h1, h2⟩, ?_⟩
    rcases h3 with h3 | ⟨v, hv, h3⟩
    · rcases max_choice a (f w) with h | h
      · left; rw [h3, h]
      · right; exact ⟨w, Or.inl rfl, by rw [h3, h]⟩
    · right; exact ⟨v, Or.inr hv, h3⟩

/-- Each component of the result of `GetBoundingBox` is the fold of `min` (of `max`) over
the vertex list, started at the value held before the call. -/
theorem GetBoundingBox_components (m : TriMesh K) (bmin0 bmax0 : Vec3 K) :
    (m.GetBoundingBox bmin0 bmax0).1.x = m.vertices.foldl (fun a p => min a p.x) bmin0.x ∧
    (m.GetBoundingBox bmin0 bmax0).1.y = m.vertices.foldl (fun a p => min a p.y) bmin0.y ∧
    (m.GetBoundingBox bmin0 bmax0).1.z = m.vertices.foldl (fun a p => min a p.z) bmin0.z ∧
    (m.GetBoundingBox bmin0 bmax0).2.x = m.vertices.foldl (fun a p => max a p.x) bmax0.x ∧
    (m.GetBoundingBox bmin0 bmax0).2.y = m.vertices.foldl (fun a p => max a p.y) bmax0.y ∧
    (m.GetBoundingBox bmin0 bmax0).2.z = m.vertices.foldl (fun a p => max a p.z) bmax0.z := by
  unfold TriMesh.GetBoundingBox
  generalize m.vertices = vs
  induction vs generalizing bmin0 bmax0 with
  | nil => simp
  | cons v vs ih =>
    simp only [List.foldl_cons]
    exact ih _ _

/-- C25. For every mesh and all values `bmin0`, `bmax0` held before the call, after
`GetBoundingBox` each component of `bmin` is the minimum of the component of `bmin0` and
of that component over the vertices (it is below both, and equal to one of them), each
component of `bmax` the maximum likewise; so every vertex lies between `bmin` and `bmax`
component-wise, and for a mesh with no vertices both are unchanged. -/
theorem GetBoundingBox_min_max (m : TriMesh K) (bmin0 bmax0 : Vec3 K) :
    (m.GetBoundingBox bmin0 bmax0).1.x = m.vertices.foldl (fun a p => min a p.x) bmin0.x ∧
    (m.GetBoundingBox bmin0 bmax0).1.y = m.vertices.foldl (fun a p => min a p.y) bmin0.y ∧
    (m.GetBoundingBox bmin0 bmax0).1.z = m.vertices.foldl (fun a p => min a p.z) bmin0.z ∧
    (m.GetBoundingBox bmin0 bmax0).2.x = m.vertices.foldl (fun a p => max a p.x) bmax0.x ∧
    (m.GetBoundingBox bmin0 bmax0).2.y = m.vertices.foldl (fun a p => max a p.y) bmax0.y ∧
    (m.GetBoundingBox bmin0 bmax0).2.z = m.vertices.foldl (fun a p => max a p.z) bmax0.z ∧
    ((m.GetBoundingBox bmin0 bmax0).1.x ≤ bmin0.x ∧
      (m.GetBoundingBox bmin0 bmax0).1.y ≤ bmin0.y ∧
      (m.GetBoundingBox bmin0 bmax0).1.z ≤ bmin0.z ∧
      bmax0.x ≤ (m.GetBoundingBox bmin0 bmax0).2.x ∧
      bmax0.y ≤ (m.GetBoundingBox bmin0 bmax0).2.y ∧
      bmax0.z ≤ (m.GetBoundingBox bmin0 bmax0).2.z) ∧
    (∀ v ∈ m.vertices,
      (m.GetBoundingBox bmin0 bmax0).1.x ≤ v.x ∧ v.x ≤ (m.GetBoundingBox bmin0 bmax0).2.x ∧
      (m.GetBoundingBox bmin0 bmax0).1.y ≤ v.y ∧ v.y ≤ (m.GetBoundingBox bmin0 bmax0).2.y ∧
      (m.GetBoundingBox bmin0 bmax0).1.z ≤ v.z ∧ v.z ≤ (m.GetBoundingBox bmin0 bmax0).2.z) ∧
    (((m.GetBoundingBox bmin0 bmax0).1.x = bmin0.x ∨
        ∃ v ∈ m.vertices, (m.GetBoundingBox bmin0 bmax0).1.x = v.x) ∧
      ((m.GetBoundingBox bmin0 bmax0).1.y = bmin0.y ∨
        ∃ v ∈ m.vertices, (m.GetBoundingBox bmin0 bmax0).1.y = v.y) ∧
      ((m.GetBoundingBox bmin0 bmax0).1.z = bmin0.z ∨
        ∃ v ∈ m.vertices, (m.GetBoundingBox bmin0 bmax0).1.z = v.z) ∧
      ((m.GetBoundingBox bmin0 bmax0).2.x = bmax0.x ∨
        ∃ v ∈ m.vertices, (m.GetBoundingBox bmin0 bmax0).2.x = v.x) ∧
      ((m.GetBoundingBox bmin0 bmax0).2.y = bmax0.y ∨
        ∃ v ∈ m.vertices, (m.GetBoundingBox bmin0 bmax0).2.y = v.y) ∧
      ((m.GetBoundingBox bmin0 bmax0).2.z = bmax0.z ∨
        ∃ v ∈ m.vertices, (m.GetBoundingBox bmin0 bmax0).2.z = v.z)) ∧
    TriMesh.GetBoundingBox (⟨[]⟩ : TriMesh K) bmin0 bmax0 = (bmin0, bmax0) := by
  obtain ⟨e1, e2, e3, e4, e5, e6⟩ := GetBoundingBox_components m bmin0 bmax0
  have a1 := foldl_min_le Vec3.x m.vertices bmin0.x
  have a2 := foldl_min_le Vec3.y m.vertices bmin0.y
  have a3 := foldl_min_le Vec3.z m.vertices bmin0.z
  have b1 := le_foldl_max Vec3.x m.vertices bmax0.x
  have b2 := le_foldl_max Vec3.y m.vertices bmax0.y
  have b3 := le_foldl_max Vec3.z m.vertices bmax0.z
  rw [← e1] at a1
  rw [← e2] at a2
  rw [← e3] at a3
  rw [← e4] at b1
  rw [← e5] at b2
  rw [← e6] at b3
  refine ⟨e1, e2, e3, e4, e5, e6, ⟨a1.1, a2.1, a3.1, b1.1, b2.1, b3.1⟩, ?_,
    ⟨a1.2.2, a2.2.2, a3.2.2, b1.2.2, b2.2.2, b3.2.2⟩, rfl⟩
  intro v hv
  exact ⟨a1.2.1 v hv, b1.2.1 v hv, a2.2.1 v hv, b2.2.1 v hv, a3.2.1 v hv, b3.2.1 v hv⟩

end BoundingBoxBounds

section ResetFlag

set_option linter.unusedSectionVars false

variable {K : Type} [LinearOrderedField K]

/-- What `ResetMesh` does to the globals: it clears `reset` only for `index ≥ N`, zeroes
the two deltas and leaves the mesh list alone. -/
theorem ResetMesh_globals (L : Libm K) (g : ViewerGlobals K) (index : Int) (m : TriMesh K) :
    (MeshView.ResetMesh L g index m).2.reset =
      (if index ≥ (g.meshlist_g.length : Int) then false else g.reset) ∧
    (MeshView.ResetMesh L g index m).2.delta_x = 0 ∧
    (MeshView.ResetMesh L g index m).2.delta_y = 0 ∧
    (MeshView.ResetMesh L g index m).2.meshlist_g = g.meshlist_g := by
  refine ⟨?_, rfl, rfl, ?_⟩
  · by_cases h : index ≥ (g.meshlist_g.length : Int)
    · simp only [MeshView.ResetMesh, h, if_true]
    · simp only [MeshView.ResetMesh, h, if_false]
  · by_cases h : index ≥ (g.meshlist_g.length : Int)
    · simp only [MeshView.ResetMesh, h, if_true]
    · simp only [MeshView.ResetMesh, h, if_false]

theorem TransformMesh_globals (L : Libm K) (g : ViewerGlobals K) (index : Int)
    (m : TriMesh K) (bmin0 bmax0 : Vec3 K) :
    (MeshView.TransformMesh L g index m bmin0 bmax0).2.reset = g.reset ∧
    (MeshView.TransformMesh L g index m bmin0 bmax0).2.meshlist_g = g.meshlist_g :=
  ⟨rfl, rfl⟩

theorem displayBody_reset (L : Libm K) (env : FrameEnv K)
    (s : List (Mat4r K) × ViewerGlobals K) (im : Nat × TriMesh K)
    (h : im.1 < s.2.meshlist_g.length) :
    (MeshView.displayBody L env s im).2.reset = s.2.reset ∧
    (MeshView.displayBody L env s im).2.meshlist_g = s.2.meshlist_g := by
  have hi : ¬ ((im.1 : Int) ≥ (s.2.meshlist_g.length : Int)) := by omega
  unfold MeshView.displayBody
  simp only []
  split_ifs with h1 h2
  · exact TransformMesh_globals L _ _ _ _ _
  · obtain ⟨t1, t2⟩ := TransformMesh_globals L (MeshView.ResetMesh L s.2 im.1 im.2).2 im.1
      im.2 (env.locals im.1).1 (env.locals im.1).2
    obtain ⟨r1, -, -, r2⟩ := ResetMesh_globals L s.2 im.1 im.2
    rw [if_neg hi] at r1
    exact ⟨by rw [t1, r1], by rw [t2, r2]⟩
  · obtain ⟨t1, t2⟩ := TransformMesh_globals L s.2 im.1 im.2 (env.locals im.1).1
      (env.locals im.1).2
    obtain ⟨r1, -, -, r2⟩ := ResetMesh_globals L
      (MeshView.TransformMesh L s.2 im.1 im.2 (env.locals im.1).1 (env.locals im.1).2).2
      im.1 im.2
    rw [t2, if_neg hi] at r1
    exact ⟨by rw [r1, t1], by rw [r2, t2]⟩

theorem displayLoop_reset (L : Libm K) (env : FrameEnv K) (l : List (Nat × TriMesh K)) :
    ∀ s : List (Mat4r K) × ViewerGlobals K, (∀ im ∈ l, im.1 < s.2.meshlist_g.length) →
      (l.foldl (MeshView.displayBody L env) s).2.reset = s.2.reset ∧
      (l.foldl (MeshView.displayBody L env) s).2.meshlist_g = s.2.meshlist_g := by
  induction l with
  | nil => intro s _; exact ⟨rfl, rfl⟩
  | cons im l ih =>
    intro s h
    obtain ⟨b1, b2⟩ := displayBody_reset L env s im (h im (List.mem_cons_self _ _))
    obtain ⟨c1, c2⟩ := ih (MeshView.displayBody L env s im) (by
      intro x hx
      rw [b2]
      exact h x (List.mem_cons_of_mem _ hx))
    simp only [List.foldl_cons]
    exact ⟨by rw [c1, b1], by rw [c2, b2]⟩

/-- A frame leaves `reset` as it was: `Display` passes only indices below the number of
meshes. -/
theorem Display_reset (L : Libm K) (env : FrameEnv K) (g : ViewerGlobals K) :
    (MeshView.Display L env g).2.reset = g.reset :=
  (displayLoop_reset L env g.meshlist_g.enum ([], g) (by
    intro im him
    exact List.fst_lt_of_mem_enum him)).1

theorem cameraKeys_reset (g : ViewerGlobals K) (key action : Int) (h : g.reset = true) :
    (MeshView.cameraKeys g key action).reset = true := by
  unfold MeshView.cameraKeys
  split_ifs <;> first | exact h | rfl

theorem KeyboardCallback_reset (g : ViewerGlobals K) (key action : Int)
    (h : g.reset = true) : (MeshView.KeyboardCallback g key action).globals.reset = true := by
  have hc := cameraKeys_reset g key action h
  cases hs : (MeshView.cameraKeys g key action).sphere_g with
  | none =>
    simp only [MeshView.KeyboardCallback, hs]
    split_ifs <;> exact hc
  | some s =>
    simp only [MeshView.KeyboardCallback, hs]
    split_ifs <;> exact hc

theorem mouse_button_callback_reset (g : ViewerGlobals K) (cursor : K × K)
    (button action : Int) :
    (MeshView.mouse_button_callback g cursor button action).reset = g.reset := by
  unfold MeshView.mouse_button_callback
  simp only []
  split_ifs <;> rfl

theorem step_reset (L : Libm K) (g : ViewerGlobals K) (ev : ViewerEvent K)
    (h : g.reset = true) : (MeshView.step L g ev).reset = true := by
  cases ev with
  | frame env => simp only [MeshView.step]; rw [Display_reset]; exact h
  | key key action => exact KeyboardCallback_reset g key action h
  | mouse_button cursor button action =>
    simp only [MeshView.step]
    rw [mouse_button_callback_reset]
    exact h
  | cursor_position x y => exact h

/-- C26. For a mesh list of `N` meshes and every index with `0 ≤ index < N`, `ResetMesh`
leaves the flag `reset` unchanged and sets `delta_x` and `delta_y` to 0; `Display` passes
only such indices, so a frame leaves `reset` unchanged, and no callback clears it: once
SPACE has set `reset`, it stays set after every sequence of frames and input events. -/
theorem reset_never_cleared (L : Libm K) (g : ViewerGlobals K) (index : Int) (m : TriMesh K)
    (action : Int) (evs : List (ViewerEvent K)) (_h0 : 0 ≤ index)
    (hN : index < (g.meshlist_g.length : Int)) (hs : g.sphere_g = none)
    (ha : action = GLFW_PRESS ∨ action = GLFW_REPEAT) :
    (MeshView.ResetMesh L g index m).2.reset = g.reset ∧
    (MeshView.ResetMesh L g index m).2.delta_x = 0 ∧
    (MeshView.ResetMesh L g index m).2.delta_y = 0 ∧
    (∀ env : FrameEnv K, (MeshView.Display L env g).2.reset = g.reset) ∧
    (MeshView.KeyboardCallback g GLFW_KEY_SPACE action).globals.reset = true ∧
    (evs.foldl (MeshView.step L)
      (MeshView.KeyboardCallback g GLFW_KEY_SPACE action).globals).reset = true ∧
    (∀ (g' : ViewerGlobals K) (ev : ViewerEvent K), g'.reset = true →
      (MeshView.step L g' ev).reset = true) := by
  obtain ⟨r1, r2, r3, -⟩ := ResetMesh_globals L g index m
  rw [if_neg (by omega)] at r1
  have hspace : (MeshView.KeyboardCallback g GLFW_KEY_SPACE action).globals.reset = true := by
    rw [KeyboardCallback_globals_of_no_sphere g _ _ hs]
    have hn : g.sphere_g.isNone = true := by rw [hs]; rfl
    have es : (GLFW_KEY_SPACE : Int) ≠ GLFW_KEY_X := by decide
    have ez : (GLFW_KEY_SPACE : Int) ≠ GLFW_KEY_Z := by decide
    simp only [MeshView.cameraKeys, hn, ha, es, ez, if_true, if_false]
  have hfold : ∀ (evs : List (ViewerEvent K)) (g' : ViewerGlobals K), g'.reset = true →
      (evs.foldl (MeshView.step L) g').reset = true := by
    intro evs
    induction evs with
    | nil => intro g' h; exact h
    | cons ev evs ih =>
      intro g' h
      simp only [List.foldl_cons]
      exact ih _ (step_reset L g' ev h)
  exact ⟨r1, r2, r3, fun env => Display_reset L env g, hspace, hfold evs _ hspace,
    fun g' ev h => step_reset L g' ev h⟩

/-- Witness for C26: one mesh, index 0, a press of SPACE, then a frame. -/
theorem reset_never_cleared_witness :
    ((([ViewerEvent.frame ⟨fun _ => (⟨0, 0, 0⟩, ⟨0, 0, 0⟩), true⟩] :
        List (ViewerEvent ℚ)).foldl
      (MeshView.step (⟨fun _ => 1, fun _ => 0, fun x => x, 0, 0, 0⟩ : Libm ℚ))
      (MeshView.KeyboardCallback
        { (ViewerGlobals.initial : ViewerGlobals ℚ) with
          meshlist_g := [⟨[⟨0, 0, 0⟩, ⟨1, 0, 0⟩, ⟨0, 1, 0⟩]⟩] }
        GLFW_KEY_SPACE GLFW_PRESS).globals)).reset = true :=
  (reset_never_cleared (⟨fun _ => 1, fun _ => 0, fun x => x, 0, 0, 0⟩ : Libm ℚ)
    { (ViewerGlobals.initial : ViewerGlobals ℚ) with
      meshlist_g := [⟨[⟨0, 0, 0⟩, ⟨1, 0, 0⟩, ⟨0, 1, 0⟩]⟩] }
    0 ⟨[⟨0, 0, 0⟩, ⟨1, 0, 0⟩, ⟨0, 1, 0⟩]⟩ GLFW_PRESS
    [ViewerEvent.frame ⟨fun _ => (⟨0, 0, 0⟩, ⟨0, 0, 0⟩), true⟩] (le_refl 0) (by decide) rfl
    (Or.inl rfl)).2.2.2.2.2.1

end ResetFlag

section NullSphere

set_option linter.unusedSectionVars false

variable {K : Type} [LinearOrderedField K]

/-- With `sphere_g` null, every key with action PRESS or REPEAT takes `KeyboardCallback`
to the statement `sphere_g->GetGridSize(grid_nx, grid_ny)`. -/
theorem KeyboardCallback_null_deref (g : ViewerGlobals K) (key action : Int)
    (hs : g.sphere_g = none) (ha : action = GLFW_PRESS ∨ action = GLFW_REPEAT) :
    (MeshView.KeyboardCallback g key action).null_deref = true := by
  have h := cameraKeys_sphere g key action
  rw [hs] at h
  simp only [MeshView.KeyboardCallback, h, ha, if_true]

/-- C27. In mesh mode (one mesh loaded, `sphere_g` null) a press of key X takes
`KeyboardCallback` through the camera block and then to `sphere_g->GetGridSize`, which
reads the fields of the sphere through the null pointer: the grid-size block is not
guarded by a test of `sphere_g`. -/
theorem KeyboardCallback_reads_null_sphere :
    ({ (ViewerGlobals.initial : ViewerGlobals ℚ) with
        meshlist_g := [⟨[⟨0, 0, 0⟩, ⟨1, 0, 0⟩, ⟨0, 1, 0⟩]⟩] }).sphere_g = none ∧
    (MeshView.KeyboardCallback
      { (ViewerGlobals.initial : ViewerGlobals ℚ) with
        meshlist_g := [⟨[⟨0, 0, 0⟩, ⟨1, 0, 0⟩, ⟨0, 1, 0⟩]⟩] }
      GLFW_KEY_X GLFW_PRESS).null_deref = true :=
  ⟨rfl, KeyboardCallback_null_deref _ GLFW_KEY_X GLFW_PRESS rfl (Or.inl rfl)⟩

end NullSphere

/-! ## The view volume contains the unit square -/

section OrthoLemmas

set_option linter.unusedSectionVars false

variable {K : Type} [LinearOrderedField K]

/-- C28. For every window width and height above 0, the half-extents `xmax`, `ymax` that
the resize callback of example 01 computes from `aspect = width / height` satisfy
`xmax ≥ 1`, `ymax ≥ 1`, `min xmax ymax = 1` and `xmax / ymax = width / height`; the view
volume is `[-xmax, xmax] x [-ymax, ymax] x [-1, 1]`, and `GetViewAndProjectionMatrices` of
examples 02 and 03 computes the same volume from the stored window size. -/
theorem ortho_extents (width height : Int) (hw : 0 < width) (hh : 0 < height) :
    1 ≤ (Legacy.WindowResizeCallback width height : OrthoArgs K).right ∧
    1 ≤ (Legacy.WindowResizeCallback width height : OrthoArgs K).top ∧
    min (Legacy.WindowResizeCallback width height : OrthoArgs K).right
      (Legacy.WindowResizeCallback width height : OrthoArgs K).top = 1 ∧
    (Legacy.WindowResizeCallback width height : OrthoArgs K).right /
      (Legacy.WindowResizeCallback width height : OrthoArgs K).top =
        (width : K) / (height : K) ∧
    (Legacy.WindowResizeCallback width height : OrthoArgs K).left =
      -(Legacy.WindowResizeCallback width height : OrthoArgs K).right ∧
    (Legacy.WindowResizeCallback width height : OrthoArgs K).bottom =
      -(Legacy.WindowResizeCallback width height : OrthoArgs K).top ∧
    (Legacy.WindowResizeCallback width height : OrthoArgs K).zNear = -1 ∧
    (Legacy.WindowResizeCallback width height : OrthoArgs K).zFar = 1 ∧
    (Ex02.GetViewAndProjectionMatrices (width, height) : OrthoArgs K) =
      Legacy.WindowResizeCallback width height ∧
    (Ex03.GetViewAndProjectionMatrices (width, height) : OrthoArgs K) =
      Legacy.WindowResizeCallback width height := by
  have hwK : (0 : K) < (width : K) := by exact_mod_cast hw
  have hhK : (0 : K) < (height : K) := by exact_mod_cast hh
  have hpos : (0 : K) < (width : K) / (height : K) := div_pos hwK hhK
  refine ⟨?_, ?_, ?_, ?_, rfl, rfl, rfl, rfl, rfl, rfl⟩
  · simp only [Legacy.WindowResizeCallback]
    split_ifs with h
    · exact le_of_lt h
    · exact le_refl 1
  · simp only [Legacy.WindowResizeCallback]
    split_ifs with h
    · exact le_refl 1
    · rw [le_div_iff₀ hpos, one_mul]
      exact le_of_not_lt h
  · simp only [Legacy.WindowResizeCallback]
    split_ifs with h
    · exact min_eq_right (le_of_lt h)
    · apply min_eq_left
      rw [le_div_iff₀ hpos, one_mul]
      exact le_of_not_lt h
  · simp only [Legacy.WindowResizeCallback]
    split_ifs with h
    · simp
    · simp

/-- Witness for C28: the window of 1280 by 720 pixels that the examples open. -/
theorem ortho_extents_witness :
    1 ≤ (Legacy.WindowResizeCallback 1280 720 : OrthoArgs ℚ).right ∧
    1 ≤ (Legacy.WindowResizeCallback 1280 720 : OrthoArgs ℚ).top :=
  ⟨(ortho_extents 1280 720 (by decide) (by decide)).1,
   (ortho_extents 1280 720 (by decide) (by decide)).2.1⟩

end OrthoLemmas

/-! ## The emitted positions stay within the circumscribed ball -/

section Bounded

theorem midpoint_squaredNorm_le (c u v : Vec3 ℝ) (R : ℝ) (hu : (u - c).squaredNorm ≤ R)
    (hv : (v - c).squaredNorm ≤ R) :
    (Vec3.smul (1 / 2) (u + v) - c).squaredNorm ≤ R := by
  simp only [Vec3.squaredNorm, Vec3.sub_x, Vec3.sub_y, Vec3.sub_z, Vec3.smul_x, Vec3.smul_y,
    Vec3.smul_z, Vec3.add_x, Vec3.add_y, Vec3.add_z] at hu hv ⊢
  nlinarith [sq_nonneg (u.x - v.x), sq_nonneg (u.y - v.y), sq_nonneg (u.z - v.z)]

/-- Every vertex of every leaf is within the squared distance `R` of `c` when the three
corners of the triangle are. -/
theorem leafTriangles_squaredNorm_le (c : Vec3 ℝ) (R : ℝ) (n : Nat) :
    ∀ (p0 p1 p2 color1 color2 : Vec3 ℝ), (p0 - c).squaredNorm ≤ R →
      (p1 - c).squaredNorm ≤ R → (p2 - c).squaredNorm ≤ R →
      ∀ l ∈ leafTriangles n p0 p1 p2 color1 color2,
        (l.q0 - c).squaredNorm ≤ R ∧ (l.q1 - c).squaredNorm ≤ R ∧
          (l.q2 - c).squaredNorm ≤ R := by
  induction n with
  | zero =>
    intro p0 p1 p2 color1 color2 h0 h1 h2 l hl
    simp only [leafTriangles, List.mem_singleton] at hl
    subst hl
    exact ⟨h0, h1, h2⟩
  | succ n ih =>
    intro p0 p1 p2 color1 color2 h0 h1 h2 l hl
    have m01 := midpoint_squaredNorm_le c p0 p1 R h0 h1
    have m02 := midpoint_squaredNorm_le c p0 p2 R h0 h2
    have m12 := midpoint_squaredNorm_le c p1 p2 R h1 h2
    simp only [leafTriangles, List.mem_append] at hl
    rcases hl with ((hl | hl) | hl) | hl
    · exact ih _ _ _ _ _ h0 m01 m02 l hl
    · exact ih _ _ _ _ _ m01 h1 m12 l hl
    · exact ih _ _ _ _ _ m02 m12 h2 l hl
    · exact ih _ _ _ _ _ m01 m12 m02 l hl

theorem dyadic_step (n : Nat) (p0 p1 p2 r0 r1 r2 q : Vec3 ℝ)
    (h0 : DyadicCombination 1 p0 p1 p2 r0) (h1 : DyadicCombination 1 p0 p1 p2 r1)
    (h2 : DyadicCombination 1 p0 p1 p2 r2) (hq : DyadicCombination n r0 r1 r2 q) :
    DyadicCombination (n + 1) p0 p1 p2 q := by
  obtain ⟨a0, b0, c0, s0, rfl⟩ := h0
  obtain ⟨a1, b1, c1, s1, rfl⟩ := h1
  obtain ⟨a2, b2, c2, s2, rfl⟩ := h2
  obtain ⟨a, b, c, s, rfl⟩ := hq
  refine ⟨a * a0 + b * a1 + c * a2, a * b0 + b * b1 + c * b2, a * c0 + b * c1 + c * c2,
    ?_, ?_⟩
  · have e : 2 ^ (n + 1) = 2 * 2 ^ n := by ring
    rw [e, ← s]
    simp only [pow_one] at s0 s1 s2
    have e0 : c0 = 2 - a0 - b0 := by omega
    have e1 : c1 = 2 - a1 - b1 := by omega
    have e2 : c2 = 2 - a2 - b2 := by omega
    have t0 : a * a0 + a * b0 + a * c0 = a * 2 := by rw [← s0]; ring
    have t1 : b * a1 + b * b1 + b * c1 = b * 2 := by rw [← s1]; ring
    have t2 : c * a2 + c * b2 + c * c2 = c * 2 := by rw [← s2]; ring
    linarith
  · have hp : (2 : ℝ) ^ n ≠ 0 := pow_ne_zero _ (by norm_num)
    apply Vec3.ext <;>
      simp only [Vec3.sdiv_x, Vec3.sdiv_y, Vec3.sdiv_z, Vec3.add_x, Vec3.add_y, Vec3.add_z,
        Vec3.smul_x, Vec3.smul_y, Vec3.smul_z, pow_one, pow_succ, Nat.cast_add,
        Nat.cast_mul] <;>
      field_simp <;> ring

theorem dyadic_corner (p0 p1 p2 : Vec3 ℝ) :
    DyadicCombination 1 p0 p1 p2 p0 ∧ DyadicCombination 1 p0 p1 p2 p1 ∧
    DyadicCombination 1 p0 p1 p2 p2 ∧
    DyadicCombination 1 p0 p1 p2 (Vec3.smul (1 / 2) (p0 + p1)) ∧
    DyadicCombination 1 p0 p1 p2 (Vec3.smul (1 / 2) (p0 + p2)) ∧
    DyadicCombination 1 p0 p1 p2 (Vec3.smul (1 / 2) (p1 + p2)) := by
  refine ⟨⟨2, 0, 0, rfl, ?_⟩, ⟨0, 2, 0, rfl, ?_⟩, ⟨0, 0, 2, rfl, ?_⟩, ⟨1, 1, 0, rfl, ?_⟩,
    ⟨1, 0, 1, rfl, ?_⟩, ⟨0, 1, 1, rfl, ?_⟩⟩ <;>
  apply Vec3.ext <;> simp <;> ring

/-- Every vertex of every leaf of level `n` is a convex combination of the corners with
coefficients that are multiples of `2^-n`. -/
theorem leafTriangles_dyadic (n : Nat) :
    ∀ (p0 p1 p2 color1 color2 : Vec3 ℝ), ∀ l ∈ leafTriangles n p0 p1 p2 color1 color2,
      DyadicCombination n p0 p1 p2 l.q0 ∧ DyadicCombination n p0 p1 p2 l.q1 ∧
        DyadicCombination n p0 p1 p2 l.q2 := by
  induction n with
  | zero =>
    intro p0 p1 p2 color1 color2 l hl
    simp only [leafTriangles, List.mem_singleton] at hl
    subst hl
    refine ⟨⟨1, 0, 0, rfl, ?_⟩, ⟨0, 1, 0, rfl, ?_⟩, ⟨0, 0, 1, rfl, ?_⟩⟩ <;>
    apply Vec3.ext <;> simp
  | succ n ih =>
    intro p0 p1 p2 color1 color2 l hl
    obtain ⟨d0, d1, d2, d01, d02, d12⟩ := dyadic_corner p0 p1 p2
    simp only [leafTriangles, List.mem_append] at hl
    rcases hl with ((hl | hl) | hl) | hl
    · obtain ⟨a, b, c⟩ := ih _ _ _ _ _ l hl
      exact ⟨dyadic_step n _ _ _ _ _ _ _ d0 d01 d02 a, dyadic_step n _ _ _ _ _ _ _ d0 d01 d02 b,
        dyadic_step n _ _ _ _ _ _ _ d0 d01 d02 c⟩
    · obtain ⟨a, b, c⟩ := ih _ _ _ _ _ l hl
      exact ⟨dyadic_step n _ _ _ _ _ _ _ d01 d1 d12 a, dyadic_step n _ _ _ _ _ _ _ d01 d1 d12 b,
        dyadic_step n _ _ _ _ _ _ _ d01 d1 d12 c⟩
    · obtain ⟨a, b, c⟩ := ih _ _ _ _ _ l hl
      exact ⟨dyadic_step n _ _ _ _ _ _ _ d02 d12 d2 a, dyadic_step n _ _ _ _ _ _ _ d02 d12 d2 b,
        dyadic_step n _ _ _ _ _ _ _ d02 d12 d2 c⟩
    · obtain ⟨a, b, c⟩ := ih _ _ _ _ _ l hl
      exact ⟨dyadic_step n _ _ _ _ _ _ _ d01 d12 d02 a,
        dyadic_step n _ _ _ _ _ _ _ d01 d12 d02 b, dyadic_step n _ _ _ _ _ _ _ d01 d12 d02 c⟩

/-- The twist keeps the squared distance to the centre. -/
theorem twistPoint_squaredNorm (kDEGtoRAD kPi k2Pi twist_angle : ℝ) (center q : Vec3 ℝ) :
    (twistPoint ⟨Real.cos, Real.sin, Real.sqrt, kDEGtoRAD, kPi, k2Pi⟩ twist_angle center q -
      center).squaredNorm = (q - center).squaredNorm := by
  rw [twistPoint_eq_rotate]
  exact rotateAboutZ_squaredNorm _ _ (Real.cos_sq_add_sin_sq _) center q

theorem sqrt_le_max3 (x A B C : ℝ) (h : x ≤ max (max A B) C) :
    Real.sqrt x ≤ max (max (Real.sqrt A) (Real.sqrt B)) (Real.sqrt C) := by
  rcases le_max_iff.mp h with h | h
  · rcases le_max_iff.mp h with h | h
    · exact le_trans (Real.sqrt_le_sqrt h) (le_trans (le_max_left _ _) (le_max_left _ _))
    · exact le_trans (Real.sqrt_le_sqrt h) (le_trans (le_max_right _ _) (le_max_left _ _))
  · exact le_trans (Real.sqrt_le_sqrt h) (le_max_right _ _)

end Bounded

section BoundedClaim

/-- C29. For every triangle, centre, twist angle and level `n ≥ 0`, every vertex `q` of a
leaf of `DivideTriangle` is a convex combination of `p0`, `p1`, `p2` with coefficients that
are multiples of `2^-n`, the twist keeps its distance to `center`, and so the emitted
position lies within distance `max(|p0 - center|, |p1 - center|, |p2 - center|)` of
`center`. For the root triangle of the examples, `(0, 0.75)`, `(0.65, -0.375)`,
`(-0.65, -0.375)`, the centre is the origin and this bound is below 1, so every emitted
coordinate is strictly between `-1` and `1` for every twist angle and level. -/
theorem DivideTriangle_positions_bounded (kDEGtoRAD kPi k2Pi : ℝ) (p0 p1 p2 : Vec3 ℝ)
    (n : Nat) (color1 color2 : Vec3 ℝ) (twist_angle : ℝ) (center : Vec3 ℝ) (buf : List ℝ)
    (l : Leaf ℝ) (hl : l ∈ leafTriangles n p0 p1 p2 color1 color2) (q : Vec3 ℝ)
    (hq : q = l.q0 ∨ q = l.q1 ∨ q = l.q2) :
    let L : Libm ℝ := ⟨Real.cos, Real.sin, Real.sqrt, kDEGtoRAD, kPi, k2Pi⟩
    DivideTriangle L p0 p1 p2 (n : Int) color1 color2 twist_angle center buf =
      buf ++ (leafTriangles n p0 p1 p2 color1 color2).flatMap
        (leafFloats L twist_angle center) ∧
    DyadicCombination n p0 p1 p2 q ∧
    (twistPoint L twist_angle center q - center).norm L = (q - center).norm L ∧
    (twistPoint L twist_angle center q - center).norm L ≤
      max (max ((p0 - center).norm L) ((p1 - center).norm L)) ((p2 - center).norm L) ∧
    Vec3.sdiv ((⟨0, 3 / 4, 0⟩ : Vec3 ℝ) + ⟨13 / 20, -(3 / 8), 0⟩ + ⟨-(13 / 20), -(3 / 8), 0⟩)
      3 = ⟨0, 0, 0⟩ ∧
    max (max (((⟨0, 3 / 4, 0⟩ : Vec3 ℝ) - ⟨0, 0, 0⟩).norm L)
        (((⟨13 / 20, -(3 / 8), 0⟩ : Vec3 ℝ) - ⟨0, 0, 0⟩).norm L))
      (((⟨-(13 / 20), -(3 / 8), 0⟩ : Vec3 ℝ) - ⟨0, 0, 0⟩).norm L) < 1 ∧
    ∀ l' ∈ leafTriangles n (⟨0, 3 / 4, 0⟩ : Vec3 ℝ) ⟨13 / 20, -(3 / 8), 0⟩
        ⟨-(13 / 20), -(3 / 8), 0⟩ color1 color2,
      ∀ q' : Vec3 ℝ, q' = l'.q0 ∨ q' = l'.q1 ∨ q' = l'.q2 →
        |(twistPoint L twist_angle ⟨0, 0, 0⟩ q').x| < 1 ∧
        |(twistPoint L twist_angle ⟨0, 0, 0⟩ q').y| < 1 ∧
        |(twistPoint L twist_angle ⟨0, 0, 0⟩ q').z| < 1 := by
  intro L
  have hcombo := leafTriangles_dyadic n p0 p1 p2 color1 color2 l hl
  have hsq := leafTriangles_squaredNorm_le center
    (max (max (p0 - center).squaredNorm (p1 - center).squaredNorm) (p2 - center).squaredNorm)
    n p0 p1 p2 color1 color2 (le_trans (le_max_left _ _) (le_max_left _ _))
    (le_trans (le_max_right _ _) (le_max_left _ _)) (le_max_right _ _) l hl
  have htw := twistPoint_squaredNorm kDEGtoRAD kPi k2Pi twist_angle center q
  have hqc : DyadicCombination n p0 p1 p2 q ∧ (q - center).squaredNorm ≤
      max (max (p0 - center).squaredNorm (p1 - center).squaredNorm)
        (p2 - center).squaredNorm := by
    rcases hq with rfl | rfl | rfl
    · exact ⟨hcombo.1, hsq.1⟩
    · exact ⟨hcombo.2.1, hsq.2.1⟩
    · exact ⟨hcombo.2.2, hsq.2.2⟩
  refine ⟨DivideTriangle_eq_leaves_aux L twist_angle center n n (by simp) p0 p1 p2 color1
    color2 buf, hqc.1, ?_, ?_, ?_, ?_, ?_⟩
  · show Real.sqrt _ = Real.sqrt _
    rw [htw]
  · show Real.sqrt _ ≤ max (max (Real.sqrt _) (Real.sqrt _)) (Real.sqrt _)
    rw [htw]
    exact sqrt_le_max3 _ _ _ _ hqc.2
  · apply Vec3.ext <;> norm_num
  · have s0 : Real.sqrt (((⟨0, 3 / 4, 0⟩ : Vec3 ℝ) - ⟨0, 0, 0⟩).squaredNorm) < 1 := by
      rw [Real.sqrt_lt' one_pos]
      norm_num [Vec3.squaredNorm]
    have s1 : Real.sqrt (((⟨13 / 20, -(3 / 8), 0⟩ : Vec3 ℝ) - ⟨0, 0, 0⟩).squaredNorm) < 1 := by
      rw [Real.sqrt_lt' one_pos]
      norm_num [Vec3.squaredNorm]
    have s2 : Real.sqrt (((⟨-(13 / 20), -(3 / 8), 0⟩ : Vec3 ℝ) - ⟨0, 0, 0⟩).squaredNorm) <
        1 := by
      rw [Real.sqrt_lt' one_pos]
      norm_num [Vec3.squaredNorm]
    exact max_lt (max_lt s0 s1) s2
  · intro l' hl' q' hq'
    have hb := leafTriangles_squaredNorm_le (⟨0, 0, 0⟩ : Vec3 ℝ) (901 / 1600) n
      ⟨0, 3 / 4, 0⟩ ⟨13 / 20, -(3 / 8), 0⟩ ⟨-(13 / 20), -(3 / 8), 0⟩ color1 color2
      (by norm_num [Vec3.squaredNorm]) (by norm_num [Vec3.squaredNorm])
      (by norm_num [Vec3.squaredNorm]) l' hl'
    have hq2 : (q' - (⟨0, 0, 0⟩ : Vec3 ℝ)).squaredNorm ≤ 901 / 1600 := by
      rcases hq' with rfl | rfl | rfl
      · exact hb.1
      · exact hb.2.1
      · exact hb.2.2
    have ht := twistPoint_squaredNorm kDEGtoRAD kPi k2Pi twist_angle ⟨0, 0, 0⟩ q'
    rw [← ht] at hq2
    simp only [Vec3.squaredNorm, Vec3.sub_x, Vec3.sub_y, Vec3.sub_z, sub_zero] at hq2
    refine ⟨abs_lt.mpr ⟨?_, ?_⟩, abs_lt.mpr ⟨?_, ?_⟩, abs_lt.mpr ⟨?_, ?_⟩⟩ <;>
      nlinarith [mul_self_nonneg (twistPoint L twist_angle ⟨0, 0, 0⟩ q').x,
        mul_self_nonneg (twistPoint L twist_angle ⟨0, 0, 0⟩ q').y,
        mul_self_nonneg (twistPoint L twist_angle ⟨0, 0, 0⟩ q').z]

/-- Witness for C29: level 0, the first corner of the triangle. -/
theorem DivideTriangle_positions_bounded_witness :
    DyadicCombination 0 (⟨0, 1, 0⟩ : Vec3 ℝ) ⟨1, 0, 0⟩ ⟨-1, 0, 0⟩ ⟨0, 1, 0⟩ :=
  (DivideTriangle_positions_bounded (Real.pi / 180) Real.pi (2 * Real.pi) ⟨0, 1, 0⟩ ⟨1, 0, 0⟩
    ⟨-1, 0, 0⟩ 0 ⟨1, 0, 0⟩ ⟨0, 1, 0⟩ 2 ⟨0, 0, 0⟩ [] ⟨⟨0, 1, 0⟩, ⟨1, 0, 0⟩, ⟨-1, 0, 0⟩, ⟨1, 0, 0⟩⟩
    (by simp [leafTriangles]) ⟨0, 1, 0⟩ (Or.inl rfl)).2.1

end BoundedClaim

/-! ## The cached geometry of `TwistTriangle` -/

section TwistCache

set_option linter.unusedSectionVars false

variable {K : Type} [LinearOrderedField K]

/-- The invariant of the class: the level is within `0..10`, and a clean object holds the
vertex count of its level. -/
theorem TwistTriangle_call_invariant (L : Libm K) (t : TwistTriangle K) (c : TwistCall K)
    (h : t.max_subdivisions_ = 10 ∧ 0 ≤ t.subdivisions_ ∧ t.subdivisions_ ≤ 10 ∧
      (t.gl_buffers_dirty_ = false → t.vertex_count_ = 3 * 4 ^ t.subdivisions_.toNat)) :
    (t.call L c).max_subdivisions_ = 10 ∧ 0 ≤ (t.call L c).subdivisions_ ∧
      (t.call L c).subdivisions_ ≤ 10 ∧
      ((t.call L c).gl_buffers_dirty_ = false →
        (t.call L c).vertex_count_ = 3 * 4 ^ (t.call L c).subdivisions_.toNat) := by
  obtain ⟨h1, h2, h3, h4⟩ := h
  have hdel : t.DeleteGLBuffers.max_subdivisions_ = 10 ∧
      t.DeleteGLBuffers.subdivisions_ = t.subdivisions_ ∧
      t.DeleteGLBuffers.twist_angle_ = t.twist_angle_ ∧
      t.DeleteGLBuffers.gl_buffers_dirty_ = t.gl_buffers_dirty_ ∧
      t.DeleteGLBuffers.vertex_count_ = t.vertex_count_ := by
    unfold TwistTriangle.DeleteGLBuffers
    simp only []
    split_ifs <;> exact ⟨h1, rfl, rfl, rfl, rfl⟩
  have hupd : ∀ (sh : Option Nat) (f : Bool) (va vb : Nat),
      (t.UpdateGLBuffers L sh f va vb).max_subdivisions_ = 10 ∧
      0 ≤ (t.UpdateGLBuffers L sh f va vb).subdivisions_ ∧
      (t.UpdateGLBuffers L sh f va vb).subdivisions_ ≤ 10 ∧
      ((t.UpdateGLBuffers L sh f va vb).gl_buffers_dirty_ = false →
        (t.UpdateGLBuffers L sh f va vb).vertex_count_ =
          3 * 4 ^ (t.UpdateGLBuffers L sh f va vb).subdivisions_.toNat) := by
    intro sh f va vb
    unfold TwistTriangle.UpdateGLBuffers
    split_ifs with c1
    · exact ⟨h1, h2, h3, h4⟩
    · cases sh with
      | none => exact ⟨h1, h2, h3, h4⟩
      | some p =>
        simp only []
        split_ifs with c2 c3
        · exact ⟨h1, h2, h3, h4⟩
        · refine ⟨hdel.1, by rw [hdel.2.1]; exact h2, by rw [hdel.2.1]; exact h3, fun _ => ?_⟩
          simp only []
          rw [generate_count]
        · refine ⟨hdel.1, by rw [hdel.2.1]; exact h2, by rw [hdel.2.1]; exact h3, fun _ => ?_⟩
          simp only []
          rw [generate_count]
  cases c with
  | SetSubdivisions n =>
    obtain ⟨a, b, c⟩ := SetSubdivisions_range t n h1
    refine ⟨a, b, c, fun hd => ?_⟩
    simp [TwistTriangle.call, TwistTriangle.SetSubdivisions] at hd
  | SetTwistAngle a =>
    refine ⟨h1, h2, h3, fun hd => ?_⟩
    simp [TwistTriangle.call, TwistTriangle.SetTwistAngle] at hd
  | SetGLShader sh => exact ⟨h1, h2, h3, h4⟩
  | DeleteGLBuffers =>
    simp only [TwistTriangle.call]
    refine ⟨hdel.1, by rw [hdel.2.1]; exact h2, by rw [hdel.2.1]; exact h3, fun hd => ?_⟩
    rw [hdel.2.2.2.1] at hd
    rw [hdel.2.2.2.2, hdel.2.1]
    exact h4 hd
  | UpdateGLBuffers sh f va vb => exact hupd sh f va vb
  | DrawGL va vb =>
    simp only [TwistTriangle.call, TwistTriangle.DrawGL]
    cases hsh : t.glshader_ with
    | none => exact ⟨h1, h2, h3, h4⟩
    | some p =>
      simp only []
      split_ifs
      · exact ⟨h1, h2, h3, h4⟩
      · exact hupd (some p) false va vb
      · exact ⟨h1, h2, h3, h4⟩

theorem TwistTriangle_reachable_invariant (L : Libm K) (calls : List (TwistCall K)) :
    ∀ t : TwistTriangle K,
      (t.max_subdivisions_ = 10 ∧ 0 ≤ t.subdivisions_ ∧ t.subdivisions_ ≤ 10 ∧
        (t.gl_buffers_dirty_ = false → t.vertex_count_ = 3 * 4 ^ t.subdivisions_.toNat)) →
      ((calls.foldl (TwistTriangle.call L) t).max_subdivisions_ = 10 ∧
        0 ≤ (calls.foldl (TwistTriangle.call L) t).subdivisions_ ∧
        (calls.foldl (TwistTriangle.call L) t).subdivisions_ ≤ 10 ∧
        ((calls.foldl (TwistTriangle.call L) t).gl_buffers_dirty_ = false →
          (calls.foldl (TwistTriangle.call L) t).vertex_count_ =
            3 * 4 ^ (calls.foldl (TwistTriangle.call L) t).subdivisions_.toNat)) := by
  induction calls with
  | nil => intro t h; exact h
  | cons c cs ih =>
    intro t h
    simp only [List.foldl_cons]
    exact ih _ (TwistTriangle_call_invariant L t c h)

/-- A call that clears the flag of a dirty object is a rebuild with a usable shader: it
stores the vertex count of the generated buffer. -/
theorem TwistTriangle_flag_cleared (L : Libm K) (t : TwistTriangle K) (c : TwistCall K)
    (hd : t.gl_buffers_dirty_ = true) (hc : (t.call L c).gl_buffers_dirty_ = false) :
    (t.call L c).vertex_count_ = (t.generate L).length / 6 ∧
    (t.call L c).subdivisions_ = t.subdivisions_ ∧
    ((∃ (p : Nat) (f : Bool) (va vb : Nat), p ≠ 0 ∧
        c = TwistCall.UpdateGLBuffers (some p) f va vb) ∨
      (∃ (p va vb : Nat), p ≠ 0 ∧ t.glshader_ = some p ∧ c = TwistCall.DrawGL va vb)) := by
  have hdel : t.DeleteGLBuffers.subdivisions_ = t.subdivisions_ ∧
      t.DeleteGLBuffers.twist_angle_ = t.twist_angle_ := by
    unfold TwistTriangle.DeleteGLBuffers
    simp only []
    split_ifs <;> exact ⟨rfl, rfl⟩
  have hgen : ∀ t' : TwistTriangle K, t'.subdivisions_ = t.subdivisions_ →
      t'.twist_angle_ = t.twist_angle_ → t'.generate L = t.generate L := by
    intro t' e1 e2
    simp only [TwistTriangle.generate, e1, e2]
  have hupd : ∀ (sh : Option Nat) (f : Bool) (va vb : Nat),
      (t.UpdateGLBuffers L sh f va vb).gl_buffers_dirty_ = false →
      (t.UpdateGLBuffers L sh f va vb).vertex_count_ = (t.generate L).length / 6 ∧
      (t.UpdateGLBuffers L sh f va vb).subdivisions_ = t.subdivisions_ ∧
      ∃ p : Nat, p ≠ 0 ∧ sh = some p := by
    intro sh f va vb
    unfold TwistTriangle.UpdateGLBuffers
    simp only [hd, Bool.not_true, Bool.false_and, Bool.false_eq_true, if_false]
    cases sh with
    | none => intro h; rw [hd] at h; exact absurd h (by decide)
    | some p =>
      simp only [GLShader.Use]
      by_cases hp : p = 0
      · simp only [hp, decide_True, Bool.not_true, Bool.not_false, if_true]
        intro h; rw [hd] at h; exact absurd h (by decide)
      · simp only [hp, decide_False, Bool.not_false, Bool.not_true, Bool.false_eq_true,
          if_false]
        intro _
        refine ⟨?_, ?_, p, hp, rfl⟩
        · split_ifs
          · rw [hgen]
            · exact hdel.1
            · exact hdel.2
          · rw [hgen]
            · exact hdel.1
            · exact hdel.2
        · split_ifs <;> exact hdel.1
  cases c with
  | SetSubdivisions n => simp [TwistTriangle.call, TwistTriangle.SetSubdivisions] at hc
  | SetTwistAngle a => simp [TwistTriangle.call, TwistTriangle.SetTwistAngle] at hc
  | SetGLShader sh =>
    simp only [TwistTriangle.call, TwistTriangle.SetGLShader] at hc
    rw [hd] at hc
    exact absurd hc (by decide)
  | DeleteGLBuffers =>
    have : t.DeleteGLBuffers.gl_buffers_dirty_ = t.gl_buffers_dirty_ := by
      unfold TwistTriangle.DeleteGLBuffers
      simp only []
      split_ifs <;> rfl
    simp only [TwistTriangle.call] at hc
    rw [this, hd] at hc
    exact absurd hc (by decide)
  | UpdateGLBuffers sh f va vb =>
    obtain ⟨a, b, p, hp, rfl⟩ := hupd sh f va vb hc
    exact ⟨a, b, Or.inl ⟨p, f, va, vb, hp, rfl⟩⟩
  | DrawGL va vb =>
    simp only [TwistTriangle.call, TwistTriangle.DrawGL] at hc ⊢
    cases hsh : t.glshader_ with
    | none =>
      rw [hsh] at hc
      simp only [] at hc
      rw [hd] at hc
      exact absurd hc (by decide)
    | some p =>
      rw [hsh] at hc
      simp only [] at hc ⊢
      by_cases hp : p = 0
      · simp only [GLShader.Use, hp, decide_True, Bool.not_true, Bool.not_false,
          if_true] at hc
        rw [hd] at hc
        exact absurd hc (by decide)
      · simp only [GLShader.Use, hp, decide_False, Bool.not_false, Bool.not_true,
          Bool.false_eq_true, if_false, hd, true_or, if_true] at hc ⊢
        obtain ⟨a, b, -⟩ := hupd (some p) false va vb hc
        exact ⟨a, b, Or.inr ⟨p, va, vb, hp, rfl, rfl⟩⟩

/-- C30. `TwistTriangle` keeps its cached geometry coherent with its parameters: in every
state reached from the constructor by calls of `SetSubdivisions`, `SetTwistAngle`,
`SetGLShader`, `DeleteGLBuffers`, `UpdateGLBuffers` and `DrawGL`, the level is within
`0..10` and a clean object has `vertex_count_ = 3 * 4^subdivisions_`; every setter sets the
flag; `UpdateGLBuffers` without `force_update` on a clean object, and `UpdateGLBuffers`
with a null or unusable shader, change no field; and a call that clears the flag is a
rebuild with a usable shader, which stores the vertex count of the current level. -/
theorem TwistTriangle_cache_coherent (L : Libm K) (n0 : Int) (calls : List (TwistCall K)) :
    ((TwistTriangle.new n0 : TwistTriangle K).gl_buffers_dirty_ = true) ∧
    (0 ≤ (calls.foldl (TwistTriangle.call L) (TwistTriangle.new n0)).subdivisions_ ∧
      (calls.foldl (TwistTriangle.call L) (TwistTriangle.new n0)).subdivisions_ ≤ 10 ∧
      ((calls.foldl (TwistTriangle.call L) (TwistTriangle.new n0)).gl_buffers_dirty_ = false →
        (calls.foldl (TwistTriangle.call L) (TwistTriangle.new n0)).vertex_count_ =
          3 * 4 ^ (calls.foldl (TwistTriangle.call L)
            (TwistTriangle.new n0)).subdivisions_.toNat)) ∧
    (∀ (t : TwistTriangle K) (n : Int), (t.SetSubdivisions n).gl_buffers_dirty_ = true) ∧
    (∀ (t : TwistTriangle K) (a : K), (t.SetTwistAngle a).gl_buffers_dirty_ = true) ∧
    (∀ (t : TwistTriangle K) (sh : Option Nat) (va vb : Nat), t.gl_buffers_dirty_ = false →
      t.UpdateGLBuffers L sh false va vb = t) ∧
    (∀ (t : TwistTriangle K) (f : Bool) (va vb : Nat),
      t.UpdateGLBuffers L none f va vb = t ∧ t.UpdateGLBuffers L (some 0) f va vb = t) ∧
    (∀ (t : TwistTriangle K) (c : TwistCall K), t.gl_buffers_dirty_ = true →
      (t.call L c).gl_buffers_dirty_ = false →
      (t.call L c).vertex_count_ = (t.generate L).length / 6 ∧
      (t.call L c).subdivisions_ = t.subdivisions_ ∧
      ((∃ (p : Nat) (f : Bool) (va vb : Nat), p ≠ 0 ∧
          c = TwistCall.UpdateGLBuffers (some p) f va vb) ∨
        (∃ (p va vb : Nat), p ≠ 0 ∧ t.glshader_ = some p ∧ c = TwistCall.DrawGL va vb))) := by
  have hnew : (TwistTriangle.new n0 : TwistTriangle K).max_subdivisions_ = 10 ∧
      0 ≤ (TwistTriangle.new n0 : TwistTriangle K).subdivisions_ ∧
      (TwistTriangle.new n0 : TwistTriangle K).subdivisions_ ≤ 10 :=
    SetSubdivisions_range _ n0 rfl
  have hinv := TwistTriangle_reachable_invariant L calls (TwistTriangle.new n0)
    ⟨hnew.1, hnew.2.1, hnew.2.2, fun h => by
      simp [TwistTriangle.new, TwistTriangle.SetSubdivisions] at h⟩
  refine ⟨rfl, hinv.2, fun _ _ => rfl, fun _ _ => rfl, ?_, ?_,
    fun t c hd hc => TwistTriangle_flag_cleared L t c hd hc⟩
  · intro t sh va vb h
    simp [TwistTriangle.UpdateGLBuffers, h]
  · intro t f va vb
    constructor
    · unfold TwistTriangle.UpdateGLBuffers
      split_ifs <;> rfl
    · unfold TwistTriangle.UpdateGLBuffers
      split_ifs <;> simp [GLShader.Use]

/-- Witness for C30: a clean object is left alone by `UpdateGLBuffers` without
`force_update`. -/
theorem TwistTriangle_cache_coherent_witness :
    TwistTriangle.UpdateGLBuffers (⟨fun _ => 1, fun _ => 0, fun x => x, 0, 0, 0⟩ : Libm ℚ)
      (⟨some 1, 0, 0, 3, 10, false, 1, 1⟩ : TwistTriangle ℚ) (some 1) false 2 2 =
      ⟨some 1, 0, 0, 3, 10, false, 1, 1⟩ :=
  (TwistTriangle_cache_coherent (⟨fun _ => 1, fun _ => 0, fun x => x, 0, 0, 0⟩ : Libm ℚ) 0
    []).2.2.2.2.1 ⟨some 1, 0, 0, 3, 10, false, 1, 1⟩ (some 1) 2 2 rfl

end TwistCache

/-! ## The vertices of the sphere mesh lie on the sphere -/

section SphereVertices

/-- Entry `(j - s) * n + i` of the rows `s, s + 1, ...` of length `n` laid out one after
the other is entry `i` of row `j`. -/
theorem getElem_rows {β : Type} (f : Nat → Nat → β) (n : Nat) :
    ∀ (m s j i : Nat), s ≤ j → j < s + m → i < n →
      ((List.range' s m).flatMap (fun j => (List.range' 0 n).map (f j)))[(j - s) * n + i]? =
        some (f j i) := by
  intro m
  induction m with
  | zero => intro s j i h1 h2 _; omega
  | succ m ih =>
    intro s j i h1 h2 h3
    rw [List.range'_succ, List.flatMap_cons]
    by_cases hj : j = s
    · subst hj
      rw [Nat.sub_self, Nat.zero_mul, Nat.zero_add,
        List.getElem?_append_left (by simpa using h3)]
      simp [List.getElem?_range', h3]
    · have hlen : ((List.range' 0 n).map (f s)).length = n := by simp
      have e : (j - s) * n + i = n + ((j - (s + 1)) * n + i) := by
        have : j - s = (j - (s + 1)) + 1 := by omega
        rw [this]
        ring
      rw [e, List.getElem?_append_right (by rw [hlen]; omega), hlen, Nat.add_sub_cancel_left]
      exact ih (s + 1) j i (by omega) (by omega) h3

/-- The normalisation of a pole direction of length `radius > 0`. -/
theorem normalized_pole (L : Libm ℝ) (hs : L.sqrt = Real.sqrt) (radius : ℝ) (hr : 0 < radius) :
    Vec3.normalized L (⟨0, 0, -radius⟩ : Vec3 ℝ) = ⟨0, 0, -1⟩ ∧
    Vec3.normalized L (⟨0, 0, radius⟩ : Vec3 ℝ) = ⟨0, 0, 1⟩ := by
  have hr0 : radius ≠ 0 := ne_of_gt hr
  have h1 : (⟨0, 0, -radius⟩ : Vec3 ℝ).squaredNorm = radius ^ 2 := by
    simp [Vec3.squaredNorm]; ring
  have h2 : (⟨0, 0, radius⟩ : Vec3 ℝ).squaredNorm = radius ^ 2 := by
    simp [Vec3.squaredNorm]; ring
  have hp : (0 : ℝ) < radius ^ 2 := by positivity
  constructor
  · simp only [Vec3.normalized, h1, hp, if_true, hs, Real.sqrt_sq hr.le]
    apply Vec3.ext <;> simp [hr0]
  · simp only [Vec3.normalized, h2, hp, if_true, hs, Real.sqrt_sq hr.le]
    apply Vec3.ext <;> simp [hr0]

/-- C5. For every centre, radius `> 0` and accepted resolution, `BuildWatertightSphere`
returns true and emits `grid_nx (grid_ny - 1) + 2` positions and as many normals: the grid
vertices ring by ring, the vertex of ring `j` and column `i` at index
`(j - 1) grid_nx + i`, then the bottom pole and the top pole. Every index `k` below that
count holds a position and a normal, and for each vertex the normal has length one and the
position is `center + radius * normal`, over the reals; the normals of the poles are
`(0, 0, -1)` and `(0, 0, 1)`. -/
theorem BuildWatertightSphere_on_sphere (kDEGtoRAD kPi k2Pi : ℝ) (center : Vec3 ℝ)
    (radius : ℝ) (grid_nx grid_ny : Nat) (positions normals : List (Vec3 ℝ))
    (face_indices : List (Option Int)) (hr : 0 < radius) (hx : 1 ≤ grid_nx)
    (hy : 1 ≤ grid_ny) :
    let L : Libm ℝ := ⟨Real.cos, Real.sin, Real.sqrt, kDEGtoRAD, kPi, k2Pi⟩
    let m := BuildWatertightSphere L center radius grid_nx grid_ny positions normals
      face_indices
    m.positions.length = m.normals.length ∧
    (∀ (k : Nat) (p n : Vec3 ℝ), m.positions[k]? = some p → m.normals[k]? = some n →
      Real.sqrt (n.x * n.x + n.y * n.y + n.z * n.z) = 1 ∧
      p = center + Vec3.smul radius n) ∧
    m.ok = true ∧
    m.positions.length = grid_nx * (grid_ny - 1) + 2 ∧
    m.positions = gridPositions L center radius grid_nx grid_ny ++
      [center + ⟨0, 0, -radius⟩, center + ⟨0, 0, radius⟩] ∧
    m.normals = gridNormals L radius grid_nx grid_ny ++
      [Vec3.normalized L ⟨0, 0, -radius⟩, Vec3.normalized L ⟨0, 0, radius⟩] ∧
    (∀ k : Nat, k < grid_nx * (grid_ny - 1) + 2 →
      ∃ p n : Vec3 ℝ, m.positions[k]? = some p ∧ m.normals[k]? = some n ∧
        Real.sqrt (n.x * n.x + n.y * n.y + n.z * n.z) = 1 ∧
        p = center + Vec3.smul radius n) ∧
    (∀ j i : Nat, 1 ≤ j → j < grid_ny → i < grid_nx →
      m.positions[(j - 1) * grid_nx + i]? =
        some (center + gridPoint L radius 0 0 (k2Pi / (grid_nx : ℝ)) (kPi / (grid_ny : ℝ))
          j i) ∧
      m.normals[(j - 1) * grid_nx + i]? =
        some (Vec3.normalized L (gridPoint L radius 0 0 (k2Pi / (grid_nx : ℝ))
          (kPi / (grid_ny : ℝ)) j i))) ∧
    m.positions[grid_nx * (grid_ny - 1)]? = some (center + ⟨0, 0, -radius⟩) ∧
    m.normals[grid_nx * (grid_ny - 1)]? = some ⟨0, 0, -1⟩ ∧
    m.positions[grid_nx * (grid_ny - 1) + 1]? = some (center + ⟨0, 0, radius⟩) ∧
    m.normals[grid_nx * (grid_ny - 1) + 1]? = some ⟨0, 0, 1⟩ := by
  intro L m
  have hm : m = _ := BuildWatertightSphere_eq L center radius grid_nx grid_ny positions
    normals face_indices hx hy
  have hP : m.positions = (vertexPairs L center radius grid_nx grid_ny).map Prod.fst := by
    rw [hm, vertexPairs_fst]
  have hN : m.normals = (vertexPairs L center radius grid_nx grid_ny).map Prod.snd := by
    rw [hm, vertexPairs_snd]
  have hall : ∀ (k : Nat) (p n : Vec3 ℝ), m.positions[k]? = some p → m.normals[k]? = some n →
      Real.sqrt (n.x * n.x + n.y * n.y + n.z * n.z) = 1 ∧
      p = center + Vec3.smul radius n := by
    intro k p n hp hn
    rw [hP, List.getElem?_map] at hp
    rw [hN, List.getElem?_map] at hn
    obtain ⟨pr, hpr, rfl⟩ := Option.map_eq_some'.mp hp
    obtain ⟨pr2, hpr2, rfl⟩ := Option.map_eq_some'.mp hn
    rw [hpr] at hpr2
    cases Option.some.inj hpr2
    have hmem := List.getElem?_mem hpr
    have key : ∀ v : Vec3 ℝ, v.squaredNorm = radius ^ 2 →
        Real.sqrt ((Vec3.normalized L v).x * (Vec3.normalized L v).x +
          (Vec3.normalized L v).y * (Vec3.normalized L v).y +
          (Vec3.normalized L v).z * (Vec3.normalized L v).z) = 1 ∧
        center + v = center + Vec3.smul radius (Vec3.normalized L v) := by
      intro v hv
      obtain ⟨h1, h2⟩ := normalized_of_squaredNorm L rfl v radius hr hv
      exact ⟨h1, by rw [h2]⟩
    simp only [vertexPairs, List.mem_append, List.mem_flatMap, List.mem_map, List.mem_cons,
      List.mem_singleton, List.not_mem_nil, or_false] at hmem
    rcases hmem with ⟨j, -, i, -, rfl⟩ | rfl | rfl
    · exact key _ (gridPoint_squaredNorm _ _ _ _ _ _ _ _ _ _)
    · exact key _ (by simp [Vec3.squaredNorm]; ring)
    · exact key _ (by simp [Vec3.squaredNorm]; ring)
  have hPe : m.positions = gridPositions L center radius grid_nx grid_ny ++
      [center + ⟨0, 0, -radius⟩, center + ⟨0, 0, radius⟩] := by rw [hm]
  have hNe : m.normals = gridNormals L radius grid_nx grid_ny ++
      [Vec3.normalized L ⟨0, 0, -radius⟩, Vec3.normalized L ⟨0, 0, radius⟩] := by rw [hm]
  have hgl := gridPositions_length L center radius grid_nx grid_ny
  have hnl := gridNormals_length L radius grid_nx grid_ny
  have hlenP : m.positions.length = grid_nx * (grid_ny - 1) + 2 := by
    rw [hPe, List.length_append, hgl]
    rfl
  have hlenN : m.normals.length = grid_nx * (grid_ny - 1) + 2 := by
    rw [hNe, List.length_append, hnl]
    rfl
  obtain ⟨pb, pt⟩ := normalized_pole L rfl radius hr
  refine ⟨by rw [hlenP, hlenN], hall, by rw [hm], hlenP, hPe, hNe, ?_, ?_, ?_, ?_, ?_, ?_⟩
  · intro k hk
    have h1 : k < m.positions.length := by rw [hlenP]; exact hk
    have h2 : k < m.normals.length := by rw [hlenN]; exact hk
    refine ⟨m.positions[k], m.normals[k], List.getElem?_eq_getElem h1,
      List.getElem?_eq_getElem h2, ?_⟩
    exact hall k _ _ (List.getElem?_eq_getElem h1) (List.getElem?_eq_getElem h2)
  · intro j i h1 h2 h3
    have hlt : (j - 1) * grid_nx + i < grid_nx * (grid_ny - 1) :=
      grid_number_lt grid_nx grid_ny j i h1 (by omega) h3
    constructor
    · rw [hPe, List.getElem?_append_left (by rw [hgl]; exact hlt)]
      exact getElem_rows (fun j i => center + gridPoint L radius 0 0 (k2Pi / (grid_nx : ℝ))
        (kPi / (grid_ny : ℝ)) j i) grid_nx (grid_ny - 1) 1 j i h1 (by omega) h3
    · rw [hNe, List.getElem?_append_left (by rw [hnl]; exact hlt)]
      exact getElem_rows (fun j i => Vec3.normalized L (gridPoint L radius 0 0
        (k2Pi / (grid_nx : ℝ)) (kPi / (grid_ny : ℝ)) j i)) grid_nx (grid_ny - 1) 1 j i h1
        (by omega) h3
  · rw [hPe, List.getElem?_append_right (by rw [hgl]), hgl, Nat.sub_self]
    rfl
  · rw [hNe, List.getElem?_append_right (by rw [hnl]), hnl, Nat.sub_self, pb]
    rfl
  · rw [hPe, List.getElem?_append_right (by rw [hgl]; omega), hgl, Nat.add_sub_cancel_left]
    rfl
  · rw [hNe, List.getElem?_append_right (by rw [hnl]; omega), hnl, Nat.add_sub_cancel_left, pt]
    rfl

/-- Witness for C5: the unit sphere at the origin with the default resolution has 92
vertices, the last two being the poles with normals `(0, 0, -1)` and `(0, 0, 1)`. -/
theorem BuildWatertightSphere_on_sphere_witness :
    (BuildWatertightSphere ⟨Real.cos, Real.sin, Real.sqrt, Real.pi / 180, Real.pi,
        2 * Real.pi⟩ (⟨0, 0, 0⟩ : Vec3 ℝ) 1 10 10 [] [] []).positions.length =
      10 * (10 - 1) + 2 ∧
    (BuildWatertightSphere ⟨Real.cos, Real.sin, Real.sqrt, Real.pi / 180, Real.pi,
        2 * Real.pi⟩ (⟨0, 0, 0⟩ : Vec3 ℝ) 1 10 10 [] [] []).normals[10 * (10 - 1)]? =
      some ⟨0, 0, -1⟩ ∧
    (BuildWatertightSphere ⟨Real.cos, Real.sin, Real.sqrt, Real.pi / 180, Real.pi,
        2 * Real.pi⟩ (⟨0, 0, 0⟩ : Vec3 ℝ) 1 10 10 [] [] []).normals[10 * (10 - 1) + 1]? =
      some ⟨0, 0, 1⟩ :=
  ⟨(BuildWatertightSphere_on_sphere (Real.pi / 180) Real.pi (2 * Real.pi) ⟨0, 0, 0⟩ 1 10 10
      [] [] [] one_pos (by decide) (by decide)).2.2.2.1,
   (BuildWatertightSphere_on_sphere (Real.pi / 180) Real.pi (2 * Real.pi) ⟨0, 0, 0⟩ 1 10 10
      [] [] [] one_pos (by decide) (by decide)).2.2.2.2.2.2.2.2.2.1,
   (BuildWatertightSphere_on_sphere (Real.pi / 180) Real.pi (2 * Real.pi) ⟨0, 0, 0⟩ 1 10 10
      [] [] [] one_pos (by decide) (by decide)).2.2.2.2.2.2.2.2.2.2.2⟩

end SphereVertices

end olio
